import Mathlib

/-!
Tgbot: the repair-request bot of `src/bot.js`.

A shallow embedding of the bot's stores and of its three kinds of handler
(callback queries, free-text messages, reminder timers), followed by theorems
about them.

Modelling conventions, all of them stated here once:

* JavaScript strings are lists of characters (`Str`); `undefined` is `none`.
* JavaScript numbers that occur as ids, prices and timestamps are integers
  (`Int`); `NaN` as the result of `parseInt` is `none`.  Digit strings are
  read exactly, i.e. ids stay inside the range in which doubles are exact.
* A `Map` is the list of its entries in insertion order.
* Every event reads the clock once (`now`, milliseconds), and the handler
  runs of different events do not interleave.  `setHours(getHours() + 24)` is `+ 86400000` ms
  (no daylight-saving shift), `subtract(2, 'hours')` is `- 7200000` ms.
* Calls to the messaging platform are recorded in `State.sent`; whether a
  call resolves or rejects is decided by `Env.delivers` from the number of
  calls recorded before it.
  Message texts are kept as tags (`Text`), their rendering is not modelled.
* `node-schedule`, `node-cache`, `validator`, `sanitize-html` and `moment`
  are external libraries: the scheduler and the cache are modelled by their
  documented behaviour, the validators and parsers are parameters in `Env`.
* The bot library hands a message to the listener of `message` first and
  then to the callbacks of `onText` whose pattern matches the text.  Both are
  `async`: the listener runs up to its first `await`, then the callback runs
  up to its own, then the listener goes on.  Of the thirteen `onText`
  callbacks only that of the broadcast command writes a collection kept in
  `State` (the conversation state), and it is part of a message event
  (`processMessage`).  The other twelve show menus and reports; they write
  `rateLimits` alone, which `rateLimit` models on its own, and they and their
  platform calls are left out of the event.
-/

namespace Tgbot

/-- A JavaScript string. -/
abbrev Str := List Char

/-! ## JavaScript primitives -/

/-- `Map.prototype.get`. -/
def mapGet {α : Type} : List (Int × α) → Int → Option α
  | [], _ => none
  | (k', v) :: rest, k => if k' = k then some v else mapGet rest k

/-- `Map.prototype.set`: an existing key keeps its place, a new key goes last. -/
def mapSet {α : Type} : List (Int × α) → Int → α → List (Int × α)
  | [], k, v => [(k, v)]
  | (k', v') :: rest, k, v =>
    if k' = k then (k, v) :: rest else (k', v') :: mapSet rest k v

/-- `Map.prototype.delete`. -/
def mapDelete {α : Type} (m : List (Int × α)) (k : Int) : List (Int × α) :=
  m.filter (fun e => decide (e.1 ≠ k))

/-- `Map.prototype.get` with a key that may be `NaN`: no entry has that key. -/
def mapGetNum {α : Type} (m : List (Int × α)) (k : Option Int) : Option α :=
  match k with
  | none => none
  | some k => mapGet m k

/-- `String.prototype.startsWith`. -/
def startsWith (s pat : Str) : Bool := pat.isPrefixOf s

/-- `String.prototype.replace` with a string pattern: the first occurrence only. -/
def replaceFirst (pat rep : Str) : Str → Str
  | [] => if pat = [] then rep else []
  | c :: cs =>
    if pat.isPrefixOf (c :: cs) then rep ++ (c :: cs).drop pat.length
    else c :: replaceFirst pat rep cs

/-- `String.prototype.split` with a one-character separator. -/
def splitOnChar (sep : Char) : Str → List Str
  | [] => [[]]
  | c :: cs =>
    if c = sep then [] :: splitOnChar sep cs
    else
      match splitOnChar sep cs with
      | [] => [[c]]
      | p :: ps => (c :: p) :: ps

/-- White space and line terminators, as `parseInt` and `trim` skip them. -/
def isStrWhiteSpaceChar (c : Char) : Bool :=
  let n := c.toNat
  n == 0x09 || n == 0x0A || n == 0x0B || n == 0x0C || n == 0x0D || n == 0x20 ||
  n == 0xA0 || n == 0x1680 || (0x2000 ≤ n && n ≤ 0x200A) || n == 0x2028 ||
  n == 0x2029 || n == 0x202F || n == 0x205F || n == 0x3000 || n == 0xFEFF

/-- `String.prototype.trim`. -/
def trim (s : Str) : Str :=
  ((s.dropWhile isStrWhiteSpaceChar).reverse.dropWhile isStrWhiteSpaceChar).reverse

/-- The value of a character as a digit in some radix up to 36. -/
def digitValue (c : Char) : Option Nat :=
  let n := c.toNat
  if 48 ≤ n ∧ n ≤ 57 then some (n - 48)
  else if 97 ≤ n ∧ n ≤ 122 then some (n - 87)
  else if 65 ≤ n ∧ n ≤ 90 then some (n - 55)
  else none

/-- The longest run of leading digits of the radix, as digit values. -/
def takeDigits (radix : Nat) : Str → List Nat
  | [] => []
  | c :: cs =>
    match digitValue c with
    | some d => if d < radix then d :: takeDigits radix cs else []
    | none => []

/-- The sign that `parseInt` reads, and the rest of the string. -/
def stripSign : Str → Bool × Str
  | '-' :: r => (true, r)
  | '+' :: r => (false, r)
  | s => (false, s)

/-- The radix that `parseInt` chooses without a radix argument, and the rest. -/
def stripRadix : Str → Nat × Str
  | '0' :: 'x' :: r => (16, r)
  | '0' :: 'X' :: r => (16, r)
  | s => (10, s)

/-- Global `parseInt(string)`; `none` is `NaN`. -/
def parseInt (input : Str) : Option Int :=
  let s := input.dropWhile isStrWhiteSpaceChar
  let signed := stripSign s
  let based := stripRadix signed.2
  let ds := takeDigits based.1 based.2
  if ds = [] then none
  else
    let v : Nat := ds.foldl (fun acc d => acc * based.1 + d) 0
    some (if signed.1 then -(v : Int) else (v : Int))

/-- `ToString` of a value that is a string or `undefined`. -/
def jsToString : Option Str → Str
  | none => "undefined".toList
  | some s => s

/-- The decimal digits of a natural number, most significant first. -/
def natToString (n : Nat) : Str := Nat.toDigits 10 n

/-- `Number::toString` of an integer or `NaN`, as a template literal renders it. -/
def numberToString : Option Int → Str
  | none => "NaN".toList
  | some (Int.ofNat n) => natToString n
  | some (Int.negSucc n) => '-' :: natToString (n + 1)

/-! ## Catalogue (static configuration) -/

/-- One entry of `repairServices`; the display fields are omitted. -/
structure Service where
  id : Str
  price : Int
deriving DecidableEq, Repr

/-- One entry of `specialOffers`; the display fields are omitted. -/
structure Offer where
  id : Str
  price : Int
  points : Int
deriving DecidableEq, Repr

/-- The table `repairServices`. -/
def repairServices : List Service :=
  [ ⟨"service_1".toList, 1500⟩, ⟨"service_2".toList, 2000⟩, ⟨"service_3".toList, 1000⟩,
    ⟨"service_4".toList, 2500⟩, ⟨"service_5".toList, 1500⟩, ⟨"service_6".toList, 5000⟩ ]

/-- The table `specialOffers`. -/
def specialOffers : List Offer :=
  [ ⟨"offer_1".toList, 3000, 450⟩, ⟨"offer_2".toList, 2500, 250⟩,
    ⟨"offer_3".toList, 7000, 750⟩ ]

/-- `Math.floor(price / 10)`. -/
def mathFloorTenth (price : Int) : Int := Int.floor ((price : ℚ) / 10)

/-! ## Stores -/

/-- A value of `repairRequests`. -/
structure RepairRequest where
  id : Int
  userId : Int
  serviceId : Str
  status : Option Str
  finalPrice : Int
  createdAt : Int
  isSpecialOffer : Bool
  comment : Option Str
  scheduledTime : Option Int
deriving DecidableEq, Repr

/-- A value of `userSettings`; a field never assigned is `undefined`. -/
structure Settings where
  notifications : Option Bool
  phone : Option Str
  email : Option Str
deriving DecidableEq, Repr

/-- A job of the scheduler: the arguments its callback closed over, its fire
time, and whether it was cancelled or has run. -/
structure Job where
  userId : Int
  requestId : Int
  time : Int
  cancelled : Bool
  fired : Bool
deriving DecidableEq, Repr

/-- The message templates of the handlers modelled here. -/
inductive Text
  | reminder (requestId : Int)
  | requestCreated (requestId : Int)
  | offerCreated (requestId : Int)
  | newRequest (requestId : Int)
  | statusChanged (requestId : Option Str) (newStatus : Option Str)
  | commentPrompt
  | schedulePrompt
  | phonePrompt
  | callbackError
  | broadcast (message : Str)
  | broadcastDone (successCount failCount : Nat)
  | commentAdded
  | timeAssigned (requestId : Int) (time : Int)
  | timeAssignedAck
  | badDate
  | emailPrompt
  | badPhone
  | contactsUpdated
  | badEmail
  | messageError
  | broadcastPrompt
  | noAccess
deriving DecidableEq, Repr

/-- A call to the messaging platform. -/
inductive Call
  | sendMessage (chatId : Int) (text : Text)
  | editMessageText (chatId : Int)
  | deleteMessage (chatId : Int)
  | answerCallbackQuery
  | sendDocument (chatId : Int)
deriving DecidableEq, Repr

/-- The five collections of the module, the job table of the scheduler, and
the log of platform calls. The cache maps a chat id (the key
`<chatId>_state`) to the stored value and the instant at which it expires. -/
structure State where
  repairRequests : List (Int × RepairRequest)
  userPoints : List (Int × Int)
  userSettings : List (Int × Settings)
  notifications : List (Int × Option Nat)
  cache : List (Int × (Str × Int))
  jobs : List Job
  sent : List Call
deriving DecidableEq, Repr

/-- The state at start-up. -/
def State.empty : State := ⟨[], [], [], [], [], [], []⟩

/-- What the module takes from its environment: the operator list of
`ADMIN_IDS`, the validators, the sanitiser, the date parser (`none` when
`isValid()` is false), and the outcome of each platform call. -/
structure Env where
  adminIds : List Int
  isMobilePhone : Str → Bool
  isEmail : Str → Bool
  sanitizeHtml : Option Str → Str
  momentParse : Option Str → Option Int
  delivers : Nat → Bool

/-! ## Helper functions of the module -/

/-- The function `isAdmin`. -/
def isAdmin (env : Env) (userId : Int) : Bool := env.adminIds.contains userId

/-- The function `getUserPoints`. -/
def getUserPoints (s : State) (userId : Int) : Int :=
  (mapGet s.userPoints userId).getD 0

/-- The function `addUserPoints`: the new state and the returned total. -/
def addUserPoints (s : State) (userId points : Int) : State × Int :=
  let currentPoints := getUserPoints s userId
  let newTotal := currentPoints + points
  ({ s with userPoints := mapSet s.userPoints userId newTotal }, newTotal)

/-- The scheduler's `scheduleJob(date, callback)`: a date in the past yields
`null`, otherwise a new job is entered in the job table. -/
def scheduleJob (s : State) (now : Int) (time userId requestId : Int) : State × Option Nat :=
  if now ≤ time then
    ({ s with jobs := s.jobs ++ [⟨userId, requestId, time, false, false⟩] }, some s.jobs.length)
  else (s, none)

/-- The function `scheduleReminder`. -/
def scheduleReminder (s : State) (now : Int) (userId requestId time : Int) : State :=
  let r := scheduleJob s now time userId requestId
  { r.1 with notifications := mapSet r.1.notifications requestId r.2 }

/-- The scheduler's `job.cancel()`. -/
def cancelJob (jobs : List Job) (j : Nat) : List Job :=
  match jobs.get? j with
  | none => jobs
  | some job => jobs.set j { job with cancelled := true }

/-- The state with one more platform call in its log. -/
def logCall (s : State) (c : Call) : State := { s with sent := s.sent ++ [c] }

/-- One awaited platform call: it is logged, and it resolves (`ok`) or
rejects (`error`) as the environment decides. -/
def attempt (env : Env) (s : State) (c : Call) : Except State State :=
  if env.delivers s.sent.length then .ok (logCall s c) else .error (logCall s c)

/-- Awaited platform calls one after the other, up to the first that rejects. -/
def attemptAll (env : Env) (s : State) : List Call → Except State State
  | [] => .ok s
  | c :: cs =>
    match attempt env s c with
    | .ok s1 => attemptAll env s1 cs
    | .error s1 => .error s1

/-- The state in which a run ends, whether it completed or threw. -/
def finish : Except State State → State
  | .ok s => s
  | .error s => s

/-- The callback that `scheduleReminder` passes to the scheduler. -/
def reminderCallback (env : Env) (s : State) (userId requestId : Int) : State :=
  match mapGet s.repairRequests requestId with
  | some request =>
    if request.status = some "pending".toList then
      finish (attempt env s (.sendMessage userId (.reminder requestId)))
    else s
  | none => s

/-- The scheduler runs job `j` at clock reading `now`: nothing happens unless
the job exists, is neither cancelled nor already run, and is due. -/
def fireJob (env : Env) (j : Nat) (now : Int) (s : State) : State :=
  match s.jobs.get? j with
  | none => s
  | some job =>
    if job.cancelled || job.fired || decide (now < job.time) then s
    else
      reminderCallback env { s with jobs := s.jobs.set j { job with fired := true } }
        job.userId job.requestId

/-- The cache's `get`: an entry past its expiry is dropped and not returned. -/
def cacheGet (s : State) (now : Int) (chatId : Int) : State × Option Str :=
  match mapGet s.cache chatId with
  | none => (s, none)
  | some (v, t) =>
    if t < now then ({ s with cache := mapDelete s.cache chatId }, none)
    else (s, some v)

/-- The cache's `set` with the standard time to live of 3600 seconds. -/
def cacheSet (s : State) (now : Int) (chatId : Int) (v : Str) : State :=
  { s with cache := mapSet s.cache chatId (v, now + 3600000) }

/-- The cache's `del`. -/
def cacheDel (s : State) (chatId : Int) : State :=
  { s with cache := mapDelete s.cache chatId }

/-! ## The callback-query handler -/

/-- The fields of a callback query that the handler reads, and the clock
reading of its run. `data` is absent for a query that carries none. -/
structure CallbackQuery where
  chatId : Int
  userId : Int
  data : Option Str
  now : Int

/-- Whether `helpTopics[key]` is truthy: the five topics, and the properties
every object inherits. -/
def helpTopicFound (key : Str) : Bool :=
  (["general", "services", "loyalty", "contact", "creator", "constructor",
    "hasOwnProperty", "isPrototypeOf", "propertyIsEnumerable", "toString",
    "valueOf", "toLocaleString", "__proto__", "__defineGetter__",
    "__defineSetter__", "__lookupGetter__", "__lookupSetter__"].map String.toList).contains key

/-- The branch `action.startsWith('help_')`. -/
def helpBranch (env : Env) (q : CallbackQuery) (action : Str) (s : State) :
    Except State State :=
  if helpTopicFound (replaceFirst "help_".toList [] action) then
    attempt env s (.editMessageText q.chatId)
  else .ok s

/-- The statements of the service branch before its first `await`: the
request is stored under `Date.now()`, the points are credited, the reminder
is armed 24 hours ahead. -/
def serviceCreate (q : CallbackQuery) (service : Service) (s : State) : State :=
  let requestId := q.now
  let request : RepairRequest :=
    { id := requestId, userId := q.userId, serviceId := service.id,
      status := some "pending".toList, finalPrice := service.price,
      createdAt := q.now, isSpecialOffer := false,
      comment := none, scheduledTime := none }
  let s1 := { s with repairRequests := mapSet s.repairRequests requestId request }
  let s2 := (addUserPoints s1 q.userId (mathFloorTenth service.price)).1
  scheduleReminder s2 q.now q.userId requestId (q.now + 86400000)

/-- The branch `action.startsWith('service_')`: after the bookkeeping the
client is answered and every operator is notified. -/
def serviceBranch (env : Env) (q : CallbackQuery) (action : Str) (s : State) :
    Except State State :=
  match repairServices.find? (fun sv => decide (sv.id = action)) with
  | none => .ok s
  | some service =>
    attemptAll env (serviceCreate q service s)
      (.sendMessage q.chatId (.requestCreated q.now) ::
        env.adminIds.map (fun a => .sendMessage a (.newRequest q.now)))

/-- The statements of the offer branch before its first `await`. -/
def offerCreate (q : CallbackQuery) (offer : Offer) (s : State) : State :=
  let requestId := q.now
  let request : RepairRequest :=
    { id := requestId, userId := q.userId, serviceId := offer.id,
      status := some "pending".toList, finalPrice := offer.price,
      createdAt := q.now, isSpecialOffer := true,
      comment := none, scheduledTime := none }
  let s1 := { s with repairRequests := mapSet s.repairRequests requestId request }
  let s2 := (addUserPoints s1 q.userId offer.points).1
  scheduleReminder s2 q.now q.userId requestId (q.now + 86400000)

/-- The branch `action.startsWith('offer_')`. -/
def offerBranch (env : Env) (q : CallbackQuery) (action : Str) (s : State) :
    Except State State :=
  match specialOffers.find? (fun o => decide (o.id = action)) with
  | none => .ok s
  | some offer =>
    attemptAll env (offerCreate q offer s)
      (.sendMessage q.chatId (.offerCreated q.now) ::
        env.adminIds.map (fun a => .sendMessage a (.newRequest q.now)))

/-- The branch `action.startsWith('update_')`. -/
def updateBranch (env : Env) (q : CallbackQuery) (action : Str) (s : State) :
    Except State State :=
  let requestId := parseInt (replaceFirst "update_".toList [] action)
  match mapGetNum s.repairRequests requestId with
  | none => .ok s
  | some _ =>
    if isAdmin env q.userId then attempt env s (.editMessageText q.chatId) else .ok s

/-- The statements of the status branch after its first `await`: the recorded
reminder of request `k`, if there is one, is cancelled and forgotten. -/
def cancelReminder (s : State) (k : Int) : State :=
  match mapGet s.notifications k with
  | some (some reminder) =>
    { s with jobs := cancelJob s.jobs reminder, notifications := mapDelete s.notifications k }
  | _ => s

/-- The second field of `action.split('_')`, read with `parseInt`: the key
with which the status branch looks the request up. -/
def statusTarget (action : Str) : Option Int :=
  parseInt (jsToString ((splitOnChar '_' action).get? 1))

/-- The third field of `action.split('_')`: the value the status branch
assigns; `undefined` when the data has no third field. -/
def statusRequested (action : Str) : Option Str := (splitOnChar '_' action).get? 2

/-- The assignment `request.status = newStatus` on the request stored under `k`. -/
def statusWrite (s : State) (k : Int) (request : RepairRequest) (newStatus : Option Str) :
    State :=
  { s with repairRequests := mapSet s.repairRequests k { request with status := newStatus } }

/-- The branch `action.startsWith('status_')`. -/
def statusBranch (env : Env) (q : CallbackQuery) (action : Str) (s : State) :
    Except State State :=
  match statusTarget action with
  | none => .ok s
  | some k =>
    match mapGet s.repairRequests k with
    | none => .ok s
    | some request =>
      if isAdmin env q.userId then
        match attempt env (statusWrite s k request (statusRequested action))
            .answerCallbackQuery with
        | .error s2 => .error s2
        | .ok s2 =>
          attempt env (cancelReminder s2 k)
            (.sendMessage request.userId
              (.statusChanged ((splitOnChar '_' action).get? 1) (statusRequested action)))
      else .ok s

/-- The branch `action.startsWith('comment_')`. -/
def commentBranch (env : Env) (q : CallbackQuery) (action : Str) (s : State) :
    Except State State :=
  let requestId := parseInt (replaceFirst "comment_".toList [] action)
  if isAdmin env q.userId then
    attempt env
      (cacheSet s q.now q.chatId ("awaiting_comment_".toList ++ numberToString requestId))
      (.sendMessage q.chatId .commentPrompt)
  else .ok s

/-- The branch `action.startsWith('schedule_')`. -/
def scheduleBranch (env : Env) (q : CallbackQuery) (action : Str) (s : State) :
    Except State State :=
  let requestId := parseInt (replaceFirst "schedule_".toList [] action)
  if isAdmin env q.userId then
    attempt env
      (cacheSet s q.now q.chatId ("awaiting_schedule_".toList ++ numberToString requestId))
      (.sendMessage q.chatId .schedulePrompt)
  else .ok s

/-- The branches `export_stats` and `export_clients`, which only read. -/
def exportBranch (env : Env) (q : CallbackQuery) (s : State) : Except State State :=
  if isAdmin env q.userId then attempt env s (.sendDocument q.chatId) else .ok s

/-- The `switch` of the settings branch. -/
def settingsSwitch (env : Env) (q : CallbackQuery) (setting : Str) (s : State) :
    Except State State :=
  let settings := (mapGet s.userSettings q.userId).getD ⟨none, none, none⟩
  if setting = "notifications".toList then
    let toggled := { settings with notifications := some (!(settings.notifications.getD false)) }
    attempt env { s with userSettings := mapSet s.userSettings q.userId toggled }
      .answerCallbackQuery
  else if setting = "contacts".toList then
    attempt env (cacheSet s q.now q.chatId "awaiting_phone".toList)
      (.sendMessage q.chatId .phonePrompt)
  else if setting = "language".toList then
    attempt env s .answerCallbackQuery
  else .ok s

/-- The branch `action.startsWith('settings_')`. -/
def settingsBranch (env : Env) (q : CallbackQuery) (action : Str) (s : State) :
    Except State State :=
  match settingsSwitch env q (replaceFirst "settings_".toList [] action) s with
  | .error s1 => .error s1
  | .ok s1 => attempt env s1 (.editMessageText q.chatId)

/-- The chain of branches inside `try`, before the closing
`answerCallbackQuery`. `bot.emit('text', ...)` reaches no listener and is
left out. -/
def callbackBranches (env : Env) (q : CallbackQuery) (action : Str) (s : State) :
    Except State State :=
  if startsWith action "help_".toList then helpBranch env q action s
  else if action = "back_to_main".toList then attempt env s (.deleteMessage q.chatId)
  else if action = "back_to_admin".toList then attempt env s (.deleteMessage q.chatId)
  else if startsWith action "service_".toList then serviceBranch env q action s
  else if startsWith action "offer_".toList then offerBranch env q action s
  else if startsWith action "update_".toList then updateBranch env q action s
  else if startsWith action "status_".toList then statusBranch env q action s
  else if startsWith action "comment_".toList then commentBranch env q action s
  else if startsWith action "schedule_".toList then scheduleBranch env q action s
  else if action = "export_stats".toList then exportBranch env q s
  else if action = "export_clients".toList then exportBranch env q s
  else if startsWith action "settings_".toList then settingsBranch env q action s
  else .ok s

/-- The body of `try` in the callback-query handler; a query without data
throws at `action.startsWith`. -/
def callbackTry (env : Env) (q : CallbackQuery) (s : State) : Except State State :=
  match q.data with
  | none => .error s
  | some action =>
    match callbackBranches env q action s with
    | .error s1 => .error s1
    | .ok s1 => attempt env s1 .answerCallbackQuery

/-- The handler `bot.on('callback_query', ...)`. -/
def onCallbackQuery (env : Env) (q : CallbackQuery) (s : State) : State :=
  match callbackTry env q s with
  | .ok s1 => s1
  | .error s1 => finish (attempt env s1 (.sendMessage q.chatId .callbackError))

/-! ## The message handler -/

/-- The fields of a message that the handler reads, and the clock reading of
its run. `text` is absent for a message that is not text. -/
structure Message where
  chatId : Int
  userId : Int
  text : Option Str
  now : Int

/-- The loop of the broadcast branch: every client is tried, a rejected send
is counted and does not stop the loop. -/
def broadcastLoop (env : Env) (message : Str) : State → List Int → Nat → Nat → State × Nat × Nat
  | s, [], successCount, failCount => (s, successCount, failCount)
  | s, clientId :: rest, successCount, failCount =>
    match attempt env s (.sendMessage clientId (.broadcast message)) with
    | .ok s1 => broadcastLoop env message s1 rest (successCount + 1) failCount
    | .error s1 => broadcastLoop env message s1 rest successCount (failCount + 1)

/-- The branch `state === 'awaiting_broadcast' && isAdmin(userId)`. -/
def broadcastBranch (env : Env) (m : Message) (s : State) : Except State State :=
  let message := env.sanitizeHtml m.text
  let clients := (s.repairRequests.map (fun e => e.2.userId)).eraseDups
  let r := broadcastLoop env message s clients 0 0
  match attempt env r.1 (.sendMessage m.chatId (.broadcastDone r.2.1 r.2.2)) with
  | .error s1 => .error s1
  | .ok s1 => .ok (cacheDel s1 m.chatId)

/-- The assignment `request.comment = sanitizeInput(msg.text)`. -/
def commentWrite (env : Env) (m : Message) (requestId : Int) (request : RepairRequest)
    (s : State) : State :=
  { s with repairRequests :=
      mapSet s.repairRequests requestId { request with comment := some (env.sanitizeHtml m.text) } }

/-- The branch `state.startsWith('awaiting_comment_')`. -/
def awaitingCommentBranch (env : Env) (m : Message) (state : Str) (s : State) :
    Except State State :=
  match parseInt (replaceFirst "awaiting_comment_".toList [] state) with
  | none => .ok s
  | some requestId =>
    match mapGet s.repairRequests requestId with
    | none => .ok s
    | some request =>
      if isAdmin env m.userId then
        match attempt env (commentWrite env m requestId request s)
            (.sendMessage m.chatId .commentAdded) with
        | .error s2 => .error s2
        | .ok s2 => .ok (cacheDel s2 m.chatId)
      else .ok s

/-- The statements of the schedule branch for a valid date, before its first
`await`: the time is recorded, and a reminder is armed two hours before it
when that instant is still ahead. -/
def scheduleWrite (m : Message) (requestId : Int) (request : RepairRequest)
    (scheduledTime : Int) (s : State) : State :=
  let s1 := { s with repairRequests :=
                mapSet s.repairRequests requestId { request with scheduledTime := some scheduledTime } }
  let reminderTime := scheduledTime - 7200000
  if m.now < reminderTime then
    scheduleReminder s1 m.now request.userId requestId reminderTime
  else s1

/-- The branch `state.startsWith('awaiting_schedule_')`. -/
def awaitingScheduleBranch (env : Env) (m : Message) (state : Str) (s : State) :
    Except State State :=
  match parseInt (replaceFirst "awaiting_schedule_".toList [] state) with
  | none => .ok s
  | some requestId =>
    match mapGet s.repairRequests requestId with
    | none => .ok s
    | some request =>
      if isAdmin env m.userId then
        match env.momentParse m.text with
        | some scheduledTime =>
          match attemptAll env (scheduleWrite m requestId request scheduledTime s)
              [.sendMessage request.userId (.timeAssigned requestId scheduledTime),
               .sendMessage m.chatId .timeAssignedAck] with
          | .error s3 => .error s3
          | .ok s3 => .ok (cacheDel s3 m.chatId)
        | none => attempt env s (.sendMessage m.chatId .badDate)
      else .ok s

/-- The branch `state === 'awaiting_phone'`; `msg.text.trim()` throws when the
message has no text. -/
def awaitingPhoneBranch (env : Env) (m : Message) (s : State) : Except State State :=
  match m.text with
  | none => .error s
  | some text =>
    let phone := trim text
    if env.isMobilePhone phone then
      let settings := (mapGet s.userSettings m.userId).getD ⟨none, none, none⟩
      let s1 := { s with userSettings :=
                    mapSet s.userSettings m.userId { settings with phone := some phone } }
      attempt env (cacheSet s1 m.now m.chatId "awaiting_email".toList)
        (.sendMessage m.chatId .emailPrompt)
    else attempt env s (.sendMessage m.chatId .badPhone)

/-- The branch `state === 'awaiting_email'`. -/
def awaitingEmailBranch (env : Env) (m : Message) (s : State) : Except State State :=
  match m.text with
  | none => .error s
  | some text =>
    let email := trim text
    if env.isEmail email then
      let settings := (mapGet s.userSettings m.userId).getD ⟨none, none, none⟩
      let s1 := { s with userSettings :=
                    mapSet s.userSettings m.userId { settings with email := some email } }
      match attempt env s1 (.sendMessage m.chatId .contactsUpdated) with
      | .error s2 => .error s2
      | .ok s2 => .ok (cacheDel s2 m.chatId)
    else attempt env s (.sendMessage m.chatId .badEmail)

/-- The body of `try` in the message handler, for the conversation state read
from the cache. -/
def messageTry (env : Env) (m : Message) (state : Str) (s : State) : Except State State :=
  if state = "awaiting_broadcast".toList ∧ isAdmin env m.userId = true then
    broadcastBranch env m s
  else if startsWith state "awaiting_comment_".toList then
    awaitingCommentBranch env m state s
  else if startsWith state "awaiting_schedule_".toList then
    awaitingScheduleBranch env m state s
  else if state = "awaiting_phone".toList then awaitingPhoneBranch env m s
  else if state = "awaiting_email".toList then awaitingEmailBranch env m s
  else .ok s

/-- The `catch` of the message handler: the conversation state is cleared
once the error notice has been sent. -/
def messageCatch (env : Env) (m : Message) (s : State) : State :=
  match attempt env s (.sendMessage m.chatId .messageError) with
  | .error s1 => s1
  | .ok s1 => cacheDel s1 m.chatId

/-- The handler `bot.on('message', ...)`. -/
def onMessage (env : Env) (m : Message) (s : State) : State :=
  let r := cacheGet s m.now m.chatId
  match r.2 with
  | none => r.1
  | some state =>
    if state = [] then r.1
    else
      match messageTry env m state r.1 with
      | .ok s1 => s1
      | .error s1 => messageCatch env m s1

/-! ## The broadcast command and the dispatch of a message -/

/-- `String.prototype.includes`. A regular expression that is one literal
text without anchors, such as `/📢 Рассылка/`, tests the same. -/
def includes (pat : Str) : Str → Bool
  | [] => pat.isPrefixOf []
  | c :: cs => pat.isPrefixOf (c :: cs) || includes pat cs

/-- The callback of `bot.onText(/📢 Рассылка/, ...)`: in a chat that is not an
operator's the refusal is sent; in an operator's chat the conversation state
becomes `awaiting_broadcast` and the prompt is sent. Nothing follows the
awaited call, so its outcome changes nothing. -/
def broadcastCommand (env : Env) (m : Message) (s : State) : State :=
  if isAdmin env m.chatId then
    finish (attempt env (cacheSet s m.now m.chatId "awaiting_broadcast".toList)
      (.sendMessage m.chatId .broadcastPrompt))
  else finish (attempt env s (.sendMessage m.chatId .noAccess))

/-- The listener's first `await`: the call is made, and while the listener
waits for its outcome the statements `k` run. -/
def awaitFirst (env : Env) (k : State → State) (s : State) (c : Call) : Except State State :=
  match attempt env s c with
  | .ok s1 => .ok (k s1)
  | .error s1 => .error (k s1)

/-- The broadcast branch of the listener with the statements `k` run at its
first `await`: the first send of the loop, or the closing report when no
client is stored. -/
def broadcastBranchWith (env : Env) (k : State → State) (m : Message) (s : State) :
    Except State State :=
  let message := env.sanitizeHtml m.text
  match (s.repairRequests.map (fun e => e.2.userId)).eraseDups with
  | [] =>
    match awaitFirst env k s (.sendMessage m.chatId (.broadcastDone 0 0)) with
    | .error s1 => .error s1
    | .ok s1 => .ok (cacheDel s1 m.chatId)
  | clientId :: rest =>
    let r :=
      match awaitFirst env k s (.sendMessage clientId (.broadcast message)) with
      | .ok s1 => broadcastLoop env message s1 rest (0 + 1) 0
      | .error s1 => broadcastLoop env message s1 rest 0 (0 + 1)
    match attempt env r.1 (.sendMessage m.chatId (.broadcastDone r.2.1 r.2.2)) with
    | .error s1 => .error s1
    | .ok s1 => .ok (cacheDel s1 m.chatId)

/-- The comment branch of the listener with the statements `k` run at its
first `await`, or when it returns if it awaits nothing. -/
def awaitingCommentBranchWith (env : Env) (k : State → State) (m : Message) (state : Str)
    (s : State) : Except State State :=
  match parseInt (replaceFirst "awaiting_comment_".toList [] state) with
  | none => .ok (k s)
  | some requestId =>
    match mapGet s.repairRequests requestId with
    | none => .ok (k s)
    | some request =>
      if isAdmin env m.userId then
        match awaitFirst env k (commentWrite env m requestId request s)
            (.sendMessage m.chatId .commentAdded) with
        | .error s2 => .error s2
        | .ok s2 => .ok (cacheDel s2 m.chatId)
      else .ok (k s)

/-- The schedule branch of the listener with the statements `k` run at its
first `await`, or when it returns if it awaits nothing. -/
def awaitingScheduleBranchWith (env : Env) (k : State → State) (m : Message) (state : Str)
    (s : State) : Except State State :=
  match parseInt (replaceFirst "awaiting_schedule_".toList [] state) with
  | none => .ok (k s)
  | some requestId =>
    match mapGet s.repairRequests requestId with
    | none => .ok (k s)
    | some request =>
      if isAdmin env m.userId then
        match env.momentParse m.text with
        | some scheduledTime =>
          match awaitFirst env k (scheduleWrite m requestId request scheduledTime s)
              (.sendMessage request.userId (.timeAssigned requestId scheduledTime)) with
          | .error s2 => .error s2
          | .ok s2 =>
            match attempt env s2 (.sendMessage m.chatId .timeAssignedAck) with
            | .error s3 => .error s3
            | .ok s3 => .ok (cacheDel s3 m.chatId)
        | none => awaitFirst env k s (.sendMessage m.chatId .badDate)
      else .ok (k s)

/-- The phone branch of the listener with the statements `k` run at its first
`await`. A message without text makes the branch throw before it awaits; no
callback of `onText` is called for such a message, so `k` is not owed. -/
def awaitingPhoneBranchWith (env : Env) (k : State → State) (m : Message) (s : State) :
    Except State State :=
  match m.text with
  | none => .error s
  | some text =>
    let phone := trim text
    if env.isMobilePhone phone then
      let settings := (mapGet s.userSettings m.userId).getD ⟨none, none, none⟩
      let s1 := { s with userSettings :=
                    mapSet s.userSettings m.userId { settings with phone := some phone } }
      awaitFirst env k (cacheSet s1 m.now m.chatId "awaiting_email".toList)
        (.sendMessage m.chatId .emailPrompt)
    else awaitFirst env k s (.sendMessage m.chatId .badPhone)

/-- The email branch of the listener with the statements `k` run at its first
`await`. -/
def awaitingEmailBranchWith (env : Env) (k : State → State) (m : Message) (s : State) :
    Except State State :=
  match m.text with
  | none => .error s
  | some text =>
    let email := trim text
    if env.isEmail email then
      let settings := (mapGet s.userSettings m.userId).getD ⟨none, none, none⟩
      let s1 := { s with userSettings :=
                    mapSet s.userSettings m.userId { settings with email := some email } }
      match awaitFirst env k s1 (.sendMessage m.chatId .contactsUpdated) with
      | .error s2 => .error s2
      | .ok s2 => .ok (cacheDel s2 m.chatId)
    else awaitFirst env k s (.sendMessage m.chatId .badEmail)

/-- The body of `try` in the listener with the statements `k` run at its
first `await`, or when it ends if it awaits nothing. -/
def messageTryWith (env : Env) (k : State → State) (m : Message) (state : Str) (s : State) :
    Except State State :=
  if state = "awaiting_broadcast".toList ∧ isAdmin env m.userId = true then
    broadcastBranchWith env k m s
  else if startsWith state "awaiting_comment_".toList then
    awaitingCommentBranchWith env k m state s
  else if startsWith state "awaiting_schedule_".toList then
    awaitingScheduleBranchWith env k m state s
  else if state = "awaiting_phone".toList then awaitingPhoneBranchWith env k m s
  else if state = "awaiting_email".toList then awaitingEmailBranchWith env k m s
  else .ok (k s)

/-- The listener of `message` with the statements `k` run as soon as it
awaits or returns. What it does after its first `await`, the `catch`
included, comes after `k`. -/
def onMessageWith (env : Env) (k : State → State) (m : Message) (s : State) : State :=
  let r := cacheGet s m.now m.chatId
  match r.2 with
  | none => k r.1
  | some state =>
    if state = [] then k r.1
    else
      match messageTryWith env k m state r.1 with
      | .ok s1 => s1
      | .error s1 => messageCatch env m s1

/-- Whether the library calls the callback of the broadcast command for a
message: the message has a text and the pattern `/📢 Рассылка/` matches it. -/
def matchesBroadcastCommand (m : Message) : Bool :=
  match m.text with
  | none => false
  | some text => includes "📢 Рассылка".toList text

/-- What the library does with a message: the listener of `message` is
called, and for a text that the pattern of the broadcast command matches the
callback of that command is called next, which runs when the listener first
awaits or returns. Any other message is the listener's alone. -/
def processMessage (env : Env) (m : Message) (s : State) : State :=
  if matchesBroadcastCommand m then onMessageWith env (broadcastCommand env m) m s
  else onMessage env m s

/-! ## Inbound events -/

/-- An inbound event: a callback query, a message, or the scheduler running
a job at some clock reading. -/
inductive Event
  | callback (q : CallbackQuery)
  | message (m : Message)
  | timer (job : Nat) (now : Int)

/-- One event handled. -/
def step (env : Env) (s : State) : Event → State
  | .callback q => onCallbackQuery env q s
  | .message m => processMessage env m s
  | .timer j now => fireJob env j now s

/-- The events of a list handled in order. -/
def run (env : Env) (s : State) (events : List Event) : State :=
  events.foldl (step env) s

/-! ## Vocabulary of the statements -/

/-- Everything in a state but the log of platform calls: the five
collections and the job table. -/
def State.stores (s : State) : State := { s with sent := [] }

/-- The four status values of the specification. -/
def knownStatuses : List (Option Str) :=
  [some "pending".toList, some "in_progress".toList, some "completed".toList,
   some "cancelled".toList]

/-- The transition table of the specification (section 4.1), written from
its words for comparison with the code: the four edges it allows. -/
def specTransition (before after : Option Str) : Bool :=
  (before == some "pending".toList && after == some "in_progress".toList) ||
  (before == some "in_progress".toList && after == some "completed".toList) ||
  (before == some "pending".toList && after == some "cancelled".toList) ||
  (before == some "in_progress".toList && after == some "cancelled".toList)

/-- The status stored under a request id, if the request exists. -/
def statusOf (s : State) (id : Int) : Option (Option Str) :=
  (mapGet s.repairRequests id).map (fun r => r.status)

/-- An environment for concrete runs: user 1 is the only operator, every
platform call resolves, every date parses to the instant 100000000. -/
def demoEnv : Env :=
  ⟨[1], fun _ => false, fun _ => false, fun t => t.getD [], fun _ => some 100000000,
   fun _ => true⟩

/-- A callback query from user `user` in their private chat. -/
def press (user : Int) (data : String) (now : Int) : Event :=
  .callback ⟨user, user, some data.toList, now⟩

/-- A text message from user `user` in their private chat. -/
def say (user : Int) (text : String) (now : Int) : Event :=
  .message ⟨user, user, some text.toList, now⟩

/-- The part of a state that the request workflow owns: requests, ledger,
recorded reminders and the job table. -/
def State.requestSide (s : State) :
    List (Int × RepairRequest) × List (Int × Int) × List (Int × Option Nat) × List Job :=
  (s.repairRequests, s.userPoints, s.notifications, s.jobs)

/-- The ways in which one callback query can change the request side of the
state `s` into that of `t`. -/
inductive CallbackEffect (env : Env) (q : CallbackQuery) (s t : State) : Prop
  | unchanged (h : t.requestSide = s.requestSide)
  | service (sv : Service) (hmem : sv ∈ repairServices) (hdata : q.data = some sv.id)
      (h : t.stores = (serviceCreate q sv s).stores)
  | offer (o : Offer) (hmem : o ∈ specialOffers) (hdata : q.data = some o.id)
      (h : t.stores = (offerCreate q o s).stores)
  | status (action : Str) (k : Int) (r : RepairRequest) (hdata : q.data = some action)
      (hpre : startsWith action "status_".toList = true)
      (hk : statusTarget action = some k) (hr : mapGet s.repairRequests k = some r)
      (hadmin : isAdmin env q.userId = true)
      (h : t.stores = (statusWrite s k r (statusRequested action)).stores ∨
           t.stores = (cancelReminder (statusWrite s k r (statusRequested action)) k).stores)

/-- The ways in which one message can change the request side of the state. -/
inductive MessageEffect (env : Env) (m : Message) (s t : State) : Prop
  | unchanged (h : t.requestSide = s.requestSide)
  | comment (k : Int) (r : RepairRequest) (hr : mapGet s.repairRequests k = some r)
      (hadmin : isAdmin env m.userId = true)
      (h : t.requestSide = (commentWrite env m k r s).requestSide)
  | schedule (k : Int) (r : RepairRequest) (time : Int)
      (hr : mapGet s.repairRequests k = some r) (hadmin : isAdmin env m.userId = true)
      (htime : env.momentParse m.text = some time)
      (h : t.requestSide = (scheduleWrite m k r time s).requestSide)

/-- Every stored request carries one of the four status values. -/
def KnownStatuses (s : State) : Prop :=
  ∀ e ∈ s.repairRequests, e.2.status ∈ knownStatuses

/-- An event that, if it is a status callback, requests one of the four
status values. -/
def requestsKnownStatus : Event → Prop
  | .callback q =>
    ∀ action, q.data = some action → startsWith action "status_".toList = true →
      statusRequested action ∈ knownStatuses
  | _ => True

/-- A callback query whose data is the id of a catalogue item: a successful
creation. -/
def isCreation (q : CallbackQuery) : Prop :=
  (∃ sv ∈ repairServices, q.data = some sv.id) ∨ (∃ o ∈ specialOffers, q.data = some o.id)

/-- The ids under which requests are stored, in insertion order. -/
def requestIds (s : State) : List Int := s.repairRequests.map Prod.fst

/-- Job `j` of the job table is marked as cancelled. -/
def JobCancelled (s : State) (j : Nat) : Prop :=
  ∃ job, s.jobs.get? j = some job ∧ job.cancelled = true

/-- Job `j` of the job table is scheduled, neither cancelled nor run. -/
def JobLive (s : State) (j : Nat) : Prop :=
  ∃ job, s.jobs.get? j = some job ∧ job.cancelled = false ∧ job.fired = false

/-- The request stored under `id` exists and belongs to user `u`. -/
def OwnedBy (s : State) (id u : Int) : Prop :=
  ∃ r, mapGet s.repairRequests id = some r ∧ r.userId = u

/-- A state built by hand: request 5 of user 7 is in progress, has the time
100000000 assigned, and its reminder for two hours before is scheduled. -/
def inProgressState : State :=
  { State.empty with
    repairRequests :=
      [(5, ⟨5, 7, "service_1".toList, some "in_progress".toList, 1500, 5, false, none,
        some 100000000⟩)]
    notifications := [(5, some 0)]
    jobs := [⟨7, 5, 92800000, false, false⟩] }

/-- The state in which operator 1 is asked for a time for request 5 of user 7. -/
def awaitingTimeState : State :=
  run demoEnv State.empty [press 7 "service_1" 5, press 1 "schedule_5" 30]

/-- Whether `!limit` holds for a value read from `rateLimits`: it does for
`undefined` and for the number 0. -/
def isFalsy : Option Int → Bool
  | none => true
  | some n => n == 0

/-- The function `rateLimit` on the collection `rateLimits`, at clock reading
`now`: the returned flag and the collection after the call. The difference
`now - limit` is only evaluated for a recorded time that is not falsy. -/
def rateLimit (rateLimits : List (Int × Int)) (userId now : Int) : Bool × List (Int × Int) :=
  let limit := mapGet rateLimits userId
  if isFalsy limit || decide (now - limit.getD 0 > 2000) then
    (true, mapSet rateLimits userId now)
  else (false, rateLimits)

/-- The collection `rateLimits` after a list of calls, each a key and a clock
reading. -/
def rateLimitCalls (rateLimits : List (Int × Int)) : List (Int × Int) → List (Int × Int)
  | [] => rateLimits
  | (k, now) :: rest => rateLimitCalls (rateLimit rateLimits k now).2 rest

/-- Every call for key `k` in the list returns false. -/
def RejectedOn (k : Int) : List (Int × Int) → List (Int × Int) → Prop
  | _, [] => True
  | rateLimits, (k', now) :: rest =>
    (k' = k → (rateLimit rateLimits k' now).1 = false) ∧
      RejectedOn k (rateLimit rateLimits k' now).2 rest

/-- An environment like `demoEnv` in which the platform rejects exactly the
call made after `n` calls were recorded. -/
def flakyEnv (n : Nat) : Env :=
  { demoEnv with delivers := fun i => i != n }

/-- The conversation state of the chat of `m` is `state` and has not expired
at the clock reading of `m`. -/
def Awaits (s : State) (m : Message) (state : Str) : Prop :=
  ∃ expiry, mapGet s.cache m.chatId = some (state, expiry) ∧ m.now ≤ expiry

/-- The message is a malformed answer to what the conversation awaits: a text
that the phone validator rejects in `awaiting_phone`, a text that the email
validator rejects in `awaiting_email`, or, from an operator and for a stored
request in `awaiting_schedule_...`, a message the date parser rejects. -/
def MalformedInput (env : Env) (m : Message) (s : State) : Prop :=
  (∃ text, m.text = some text ∧ Awaits s m "awaiting_phone".toList ∧
    env.isMobilePhone (trim text) = false) ∨
  (∃ text, m.text = some text ∧ Awaits s m "awaiting_email".toList ∧
    env.isEmail (trim text) = false) ∨
  (∃ rest k r, Awaits s m ("awaiting_schedule_".toList ++ rest) ∧ parseInt rest = some k ∧
    mapGet s.repairRequests k = some r ∧ isAdmin env m.userId = true ∧
    env.momentParse m.text = none)

/-- The state `t` has the stored ids and the ledger of `s`, every request
but the one under `target` reads as in `s`, and every request of `t` is
related by `same` to the request of `s` under the same id. -/
def Framed (same : RepairRequest → RepairRequest → Prop) (target : Option Int)
    (s t : State) : Prop :=
  requestIds t = requestIds s ∧ t.userPoints = s.userPoints ∧
  (∀ id, target ≠ some id → mapGet t.repairRequests id = mapGet s.repairRequests id) ∧
  (∀ id r', mapGet t.repairRequests id = some r' →
    ∃ r, mapGet s.repairRequests id = some r ∧ same r r')

/-- Only the status of a request may differ. -/
def statusOnly (r r' : RepairRequest) : Prop := r' = { r with status := r'.status }

/-- Only the comment of a request may differ. -/
def commentOnly (r r' : RepairRequest) : Prop := r' = { r with comment := r'.comment }

/-- Only the assigned time of a request may differ. -/
def scheduledTimeOnly (r r' : RepairRequest) : Prop :=
  r' = { r with scheduledTime := r'.scheduledTime }

/-- The order in which the comparator
`(a, b) => new Date(b.createdAt) - new Date(a.createdAt)` lets `a` stand
before `b`: the result is not positive, `a` is not older than `b`. -/
def newestFirst (a b : RepairRequest) : Prop := b.createdAt ≤ a.createdAt

/-- The comparator is computable. -/
def newestFirstDec : DecidableRel newestFirst :=
  fun a b => inferInstanceAs (Decidable (b.createdAt ≤ a.createdAt))

/-- `Array.prototype.sort` with that comparator. The sort is stable, and a
stable sort has one result: that of insertion sort, which puts an element
before the elements after it that it may stand before. -/
def sortNewestFirst (requests : List RepairRequest) : List RepairRequest :=
  @List.insertionSort RepairRequest newestFirst newestFirstDec requests

/-- `Array.from(repairRequests.values())`. -/
def requestValues (s : State) : List RepairRequest := s.repairRequests.map Prod.snd

/-- The list `userRequests` of the profile handler. -/
def userRequests (s : State) (userId : Int) : List RepairRequest :=
  sortNewestFirst ((requestValues s).filter (fun req => decide (req.userId = userId)))

/-- The figure `totalSpent` of the profile handler:
`userRequests.reduce((sum, req) => sum + req.finalPrice, 0)`. -/
def totalSpent (requests : List RepairRequest) : Int :=
  requests.foldl (fun sum req => sum + req.finalPrice) 0

/-- A value of the map `clients` that the branch `export_clients` builds. -/
structure Client where
  id : Int
  phone : Str
  email : Str
  totalOrders : Nat
  totalSpent : Int
  points : Int
  lastActive : Option Int
deriving DecidableEq, Repr

/-- `Math.max(...values)`; `none` is the `-Infinity` of an empty argument list. -/
def mathMax : List Int → Option Int
  | [] => none
  | x :: xs => some (xs.foldl max x)

/-- The object that the loop of `export_clients` stores for a user id it
has not seen yet. -/
def clientOf (s : State) (userId : Int) : Client :=
  let userRequests := (requestValues s).filter (fun req => decide (req.userId = userId))
  let settings := (mapGet s.userSettings userId).getD ⟨none, none, none⟩
  { id := userId
    phone := settings.phone.getD []
    email := settings.email.getD []
    totalOrders := userRequests.length
    totalSpent := userRequests.foldl (fun sum req => sum + req.finalPrice) 0
    points := getUserPoints s userId
    lastActive := mathMax (userRequests.map (fun req => req.createdAt)) }

/-- One turn of the loop `for (const request of repairRequests.values())` of
`export_clients`: `if (!clients.has(request.userId)) clients.set(...)`. -/
def exportClientsStep (s : State) (clients : List (Int × Client)) (request : RepairRequest) :
    List (Int × Client) :=
  if (mapGet clients request.userId).isSome then clients
  else mapSet clients request.userId (clientOf s request.userId)

/-- The map `clients` of the branch `export_clients` after its loop; the
rows of the file are its values, in this order. -/
def exportClients (s : State) : List (Int × Client) :=
  (requestValues s).foldl (exportClientsStep s) []

/-- The figure `stats.total` of the statistics handler: `allRequests.length`. -/
def statsTotal (s : State) : Nat := (requestValues s).length

/-- The figure `stats.totalRevenue` of the statistics handler:
`allRequests.reduce((sum, req) => sum + req.finalPrice, 0)`. -/
def statsTotalRevenue (s : State) : Int :=
  (requestValues s).foldl (fun sum req => sum + req.finalPrice) 0

/-- The callback data of the four status buttons of `statusKeyboard`, in the
order of the keyboard: the template literals `status_${requestId}_pending`,
`status_${requestId}_in_progress`, `status_${requestId}_completed` and
`status_${requestId}_cancelled`. -/
def statusKeyboard (requestId : Option Int) : List Str :=
  [ "status_".toList ++ numberToString requestId ++ "_pending".toList,
    "status_".toList ++ numberToString requestId ++ "_in_progress".toList,
    "status_".toList ++ numberToString requestId ++ "_completed".toList,
    "status_".toList ++ numberToString requestId ++ "_cancelled".toList ]

/-- The UTF-16 code units of a character: one for a character of the basic
plane, a surrogate pair for any other. -/
def charCodeUnits (c : Char) : List Nat :=
  if c.toNat < 0x10000 then [c.toNat]
  else [0xD800 + (c.toNat - 0x10000) / 0x400, 0xDC00 + (c.toNat - 0x10000) % 0x400]

/-- A string as the sequence of its UTF-16 code units, which is what
`length` counts and what a regular expression without the flag `u` reads. -/
def codeUnits (s : Str) : List Nat := s.flatMap charCodeUnits

/-- The line terminators, the code units that `.` does not match in a
regular expression without the flag `s`. -/
def isLineTerminator (u : Nat) : Bool :=
  u == 0x0A || u == 0x0D || u == 0x2028 || u == 0x2029

/-- The greedy match of `.{0,n}` at the start of the input: the code units up
to the first line terminator, `n` of them at most. -/
def dotRun : Nat → List Nat → List Nat
  | 0, _ => []
  | _ + 1, [] => []
  | n + 1, u :: us => if isLineTerminator u then [] else u :: dotRun n us

/-- The matches of the global regular expression `.{1,n}` in the input, in
order. Where no match starts at the first code unit, the search moves on by
one; after a match it goes on behind the match. Every step takes at least
one code unit off the input, so `fuel` steps do for an input of that length. -/
def matchAllFrom (n : Nat) : Nat → List Nat → List (List Nat)
  | 0, _ => []
  | _ + 1, [] => []
  | fuel + 1, u :: us =>
    if dotRun n (u :: us) = [] then matchAllFrom n fuel us
    else
      dotRun n (u :: us) ::
        matchAllFrom n fuel ((u :: us).drop (dotRun n (u :: us)).length)

/-- The call ``message.match(new RegExp(`.{1,${maxLength}}`, 'g'))``: the
array of the matches, or `null` (here `none`) when there is none. -/
def stringMatch (n : Nat) (message : List Nat) : Option (List (List Nat)) :=
  match matchAllFrom n message.length message with
  | [] => none
  | part :: parts => some (part :: parts)

/-- The constant `maxLength` of the two report handlers. -/
def maxLength : Nat := 4096

/-- The texts that a report handler sends for its message: the parts of the
split when the message is longer than `maxLength`, else the message itself.
With `none` the loop over the parts throws. -/
def splitMessage (message : List Nat) : Option (List (List Nat)) :=
  if message.length > maxLength then stringMatch maxLength message else some [message]

/-- The text with which the report of all requests starts. -/
def allRequestsHeading : Str := "📊 *Все заявки:*\n\n".toList

/-- The text with which the list of clients starts. -/
def clientsHeading : Str := "👥 *Список клиентов:*\n\n".toList

/-! ## Lemmas on the primitives -/

theorem mapGet_mapSet {α : Type} (m : List (Int × α)) (k k' : Int) (v : α) :
    mapGet (mapSet m k v) k' = if k = k' then some v else mapGet m k' := by
  induction m with
  | nil => simp [mapSet, mapGet]
  | cons e rest ih =>
    obtain ⟨a, b⟩ := e
    by_cases h : a = k
    · subst h
      by_cases h' : a = k' <;> simp [mapSet, mapGet, h']
    · by_cases h' : a = k'
      · subst h'
        simp [mapSet, mapGet, h, Ne.symm h]
      · simp [mapSet, mapGet, h, h', ih]

theorem mapGet_mapDelete {α : Type} (m : List (Int × α)) (k k' : Int) :
    mapGet (mapDelete m k) k' = if k = k' then none else mapGet m k' := by
  induction m with
  | nil => simp [mapDelete, mapGet]
  | cons e rest ih =>
    obtain ⟨a, b⟩ := e
    unfold mapDelete at ih ⊢
    simp only [ne_eq, decide_not] at ih ⊢
    by_cases h : a = k
    · subst h
      by_cases h' : a = k'
      · subst h'
        simpa [List.filter] using ih
      · simp [List.filter, mapGet, h', ih]
    · by_cases h' : a = k'
      · subst h'
        simp [List.filter, mapGet, h, Ne.symm h]
      · simp [List.filter, mapGet, h, h', ih]

theorem mapGet_some_mem {α : Type} (m : List (Int × α)) (k : Int) (v : α)
    (h : mapGet m k = some v) : (k, v) ∈ m := by
  induction m with
  | nil => simp [mapGet] at h
  | cons e rest ih =>
    obtain ⟨a, b⟩ := e
    by_cases h' : a = k
    · subst h'
      simp [mapGet] at h
      simp [h]
    · simp [mapGet, h'] at h
      exact List.mem_cons_of_mem _ (ih h)

theorem mem_mapSet {α : Type} (m : List (Int × α)) (k : Int) (v : α) (e : Int × α)
    (h : e ∈ mapSet m k v) : e = (k, v) ∨ e ∈ m := by
  induction m with
  | nil => simpa [mapSet] using h
  | cons x rest ih =>
    obtain ⟨a, b⟩ := x
    by_cases h' : a = k
    · simp [mapSet, h'] at h
      rcases h with h | h
      · exact Or.inl h
      · exact Or.inr (List.mem_cons_of_mem _ h)
    · simp [mapSet, h'] at h
      rcases h with h | h
      · exact Or.inr (by simp [h])
      · rcases ih h with h1 | h1
        · exact Or.inl h1
        · exact Or.inr (List.mem_cons_of_mem _ h1)

theorem mapGet_eq_none_iff {α : Type} (m : List (Int × α)) (k : Int) :
    mapGet m k = none ↔ k ∉ m.map Prod.fst := by
  induction m with
  | nil => simp [mapGet]
  | cons x rest ih =>
    obtain ⟨a, b⟩ := x
    by_cases h' : a = k
    · simp [mapGet, h']
    · simp [mapGet, h', ih, Ne.symm h']

theorem mapSet_of_not_mem {α : Type} (m : List (Int × α)) (k : Int) (v : α)
    (h : k ∉ m.map Prod.fst) : mapSet m k v = m ++ [(k, v)] := by
  induction m with
  | nil => simp [mapSet]
  | cons x rest ih =>
    obtain ⟨a, b⟩ := x
    simp at h
    have h1 : a ≠ k := fun e => h.1 e.symm
    simp [mapSet, h1]
    apply ih
    simpa using h.2

/-! ## Lemmas on platform calls -/

theorem attempt_ok {env : Env} {s t : State} {c : Call} (h : attempt env s c = .ok t) :
    t = logCall s c := by
  unfold attempt at h
  split at h
  · injection h with h; exact h.symm
  · cases h

theorem attempt_error {env : Env} {s t : State} {c : Call}
    (h : attempt env s c = .error t) : t = logCall s c := by
  unfold attempt at h
  split at h
  · cases h
  · injection h with h; exact h.symm

theorem finish_attempt (env : Env) (s : State) (c : Call) :
    finish (attempt env s c) = logCall s c := by
  cases h : attempt env s c with
  | ok t => exact attempt_ok h
  | error t => exact attempt_error h

theorem stores_logCall (s : State) (c : Call) : (logCall s c).stores = s.stores := rfl

theorem stores_attempt (env : Env) (s : State) (c : Call) :
    (finish (attempt env s c)).stores = s.stores := by
  rw [finish_attempt]; rfl

theorem stores_attemptAll (env : Env) (s : State) (cs : List Call) :
    (finish (attemptAll env s cs)).stores = s.stores := by
  induction cs generalizing s with
  | nil => rfl
  | cons c cs ih =>
    unfold attemptAll
    split
    · next s1 h => rw [ih, attempt_ok h]; rfl
    · next s1 h => rw [attempt_error h]; rfl

/-! ## Lemmas on the callback-query handler -/

theorem onCallbackQuery_stores (env : Env) (q : CallbackQuery) (s : State) :
    (onCallbackQuery env q s).stores = (finish (callbackTry env q s)).stores := by
  unfold onCallbackQuery
  cases callbackTry env q s with
  | ok a => rfl
  | error a =>
    dsimp only
    rw [stores_attempt]; rfl

theorem callbackTry_stores (env : Env) (q : CallbackQuery) (action : Str) (s : State)
    (h : q.data = some action) :
    (finish (callbackTry env q s)).stores = (finish (callbackBranches env q action s)).stores := by
  unfold callbackTry
  rw [h]
  dsimp only
  cases hb : callbackBranches env q action s with
  | ok a =>
    dsimp only
    rw [stores_attempt]; rfl
  | error a => rfl

theorem callbackTry_stores_none (env : Env) (q : CallbackQuery) (s : State)
    (h : q.data = none) : (finish (callbackTry env q s)).stores = s.stores := by
  unfold callbackTry
  rw [h]; rfl

theorem helpBranch_stores (env : Env) (q : CallbackQuery) (action : Str) (s : State) :
    (finish (helpBranch env q action s)).stores = s.stores := by
  unfold helpBranch
  split
  · exact stores_attempt _ _ _
  · rfl

theorem updateBranch_stores (env : Env) (q : CallbackQuery) (action : Str) (s : State) :
    (finish (updateBranch env q action s)).stores = s.stores := by
  unfold updateBranch
  dsimp only
  split
  · rfl
  · split
    · exact stores_attempt _ _ _
    · rfl

theorem exportBranch_stores (env : Env) (q : CallbackQuery) (s : State) :
    (finish (exportBranch env q s)).stores = s.stores := by
  unfold exportBranch
  split
  · exact stores_attempt _ _ _
  · rfl

theorem commentBranch_stores (env : Env) (q : CallbackQuery) (action : Str) (s : State) :
    (finish (commentBranch env q action s)).stores =
      if isAdmin env q.userId = true then
        (cacheSet s q.now q.chatId ("awaiting_comment_".toList ++
          numberToString (parseInt (replaceFirst "comment_".toList [] action)))).stores
      else s.stores := by
  unfold commentBranch
  dsimp only
  split
  · exact stores_attempt _ _ _
  · rfl

theorem scheduleBranch_stores (env : Env) (q : CallbackQuery) (action : Str) (s : State) :
    (finish (scheduleBranch env q action s)).stores =
      if isAdmin env q.userId = true then
        (cacheSet s q.now q.chatId ("awaiting_schedule_".toList ++
          numberToString (parseInt (replaceFirst "schedule_".toList [] action)))).stores
      else s.stores := by
  unfold scheduleBranch
  dsimp only
  split
  · exact stores_attempt _ _ _
  · rfl

theorem serviceBranch_stores (env : Env) (q : CallbackQuery) (action : Str) (s : State) :
    (finish (serviceBranch env q action s)).stores =
      match repairServices.find? (fun sv => decide (sv.id = action)) with
      | none => s.stores
      | some service => (serviceCreate q service s).stores := by
  unfold serviceBranch
  cases repairServices.find? (fun sv => decide (sv.id = action)) with
  | none => rfl
  | some service => exact stores_attemptAll _ _ _

theorem offerBranch_stores (env : Env) (q : CallbackQuery) (action : Str) (s : State) :
    (finish (offerBranch env q action s)).stores =
      match specialOffers.find? (fun o => decide (o.id = action)) with
      | none => s.stores
      | some offer => (offerCreate q offer s).stores := by
  unfold offerBranch
  cases specialOffers.find? (fun o => decide (o.id = action)) with
  | none => rfl
  | some offer => exact stores_attemptAll _ _ _

theorem cancelReminder_logCall (s : State) (c : Call) (k : Int) :
    cancelReminder (logCall s c) k = logCall (cancelReminder s k) c := by
  unfold cancelReminder logCall
  dsimp only
  split <;> rfl

/-- The stores after the status branch: the status is written whenever the
request exists and the actor is an operator; the recorded reminder is
cancelled only if the acknowledgement that follows the write resolves. -/
theorem statusBranch_stores (env : Env) (q : CallbackQuery) (action : Str) (s : State) :
    (finish (statusBranch env q action s)).stores =
      match statusTarget action with
      | none => s.stores
      | some k =>
        match mapGet s.repairRequests k with
        | none => s.stores
        | some request =>
          if isAdmin env q.userId = true then
            if env.delivers s.sent.length = true then
              (cancelReminder (statusWrite s k request (statusRequested action)) k).stores
            else (statusWrite s k request (statusRequested action)).stores
          else s.stores := by
  unfold statusBranch
  cases statusTarget action with
  | none => rfl
  | some k =>
    dsimp only
    cases mapGet s.repairRequests k with
    | none => rfl
    | some request =>
      dsimp only
      by_cases ha : isAdmin env q.userId = true
      · simp only [ha, if_true]
        split
        · next s2 h2 =>
          have hd : env.delivers s.sent.length = false := by
            unfold attempt at h2
            by_cases hd : env.delivers (statusWrite s k request (statusRequested action)).sent.length = true
            · simp [hd] at h2
            · simpa [statusWrite] using hd
          rw [attempt_error h2]
          simp [hd, stores_logCall, finish]
        · next s2 h2 =>
          have hd : env.delivers s.sent.length = true := by
            unfold attempt at h2
            by_cases hd : env.delivers (statusWrite s k request (statusRequested action)).sent.length = true
            · simpa [statusWrite] using hd
            · simp [hd] at h2
          rw [stores_attempt, attempt_ok h2, cancelReminder_logCall]
          simp [hd, stores_logCall]
      · simp only [ha]; rfl

theorem requestSide_of_stores {s t : State} (h : s.stores = t.stores) :
    s.requestSide = t.requestSide := by
  have h1 : s.stores.requestSide = t.stores.requestSide := by rw [h]
  exact h1

theorem settingsSwitch_requestSide (env : Env) (q : CallbackQuery) (setting : Str) (s : State) :
    (finish (settingsSwitch env q setting s)).requestSide = s.requestSide := by
  unfold settingsSwitch
  dsimp only
  split
  · rw [finish_attempt]; rfl
  · split
    · rw [finish_attempt]; rfl
    · split
      · rw [finish_attempt]; rfl
      · rfl

theorem settingsBranch_requestSide (env : Env) (q : CallbackQuery) (action : Str) (s : State) :
    (finish (settingsBranch env q action s)).requestSide = s.requestSide := by
  unfold settingsBranch
  have h := settingsSwitch_requestSide env q (replaceFirst "settings_".toList [] action) s
  cases hs : settingsSwitch env q (replaceFirst "settings_".toList [] action) s with
  | error s1 => rw [hs] at h; exact h
  | ok s1 =>
    rw [hs] at h
    dsimp only
    rw [finish_attempt]
    exact h

theorem status_literal (rest : Str) :
    "status_".toList ++ rest = 's' :: 't' :: 'a' :: 't' :: 'u' :: 's' :: '_' :: rest := rfl

theorem service_literal (rest : Str) :
    "service_".toList ++ rest = 's' :: 'e' :: 'r' :: 'v' :: 'i' :: 'c' :: 'e' :: '_' :: rest := rfl

theorem offer_literal (rest : Str) :
    "offer_".toList ++ rest = 'o' :: 'f' :: 'f' :: 'e' :: 'r' :: '_' :: rest := rfl

theorem callbackBranches_status (env : Env) (q : CallbackQuery) (rest : Str) (s : State) :
    callbackBranches env q ("status_".toList ++ rest) s =
      statusBranch env q ("status_".toList ++ rest) s := by
  rw [status_literal]
  simp [callbackBranches, startsWith, String.toList]

theorem callbackBranches_service (env : Env) (q : CallbackQuery) (rest : Str) (s : State) :
    callbackBranches env q ("service_".toList ++ rest) s =
      serviceBranch env q ("service_".toList ++ rest) s := by
  rw [service_literal]
  simp [callbackBranches, startsWith, String.toList]

theorem callbackBranches_offer (env : Env) (q : CallbackQuery) (rest : Str) (s : State) :
    callbackBranches env q ("offer_".toList ++ rest) s =
      offerBranch env q ("offer_".toList ++ rest) s := by
  rw [offer_literal]
  simp [callbackBranches, startsWith, String.toList]

theorem startsWith_iff (a pat : Str) : startsWith a pat = true ↔ ∃ rest, a = pat ++ rest := by
  unfold startsWith
  rw [List.isPrefixOf_iff_prefix]
  constructor
  · rintro ⟨t, ht⟩; exact ⟨t, ht.symm⟩
  · rintro ⟨t, ht⟩; exact ⟨t, ht.symm⟩

theorem callbackBranches_effect (env : Env) (q : CallbackQuery) (action : Str) (s t : State)
    (hdata : q.data = some action)
    (ht : t.stores = (finish (callbackBranches env q action s)).stores) :
    CallbackEffect env q s t := by
  unfold callbackBranches at ht
  by_cases h1 : startsWith action "help_".toList = true
  · rw [if_pos h1, helpBranch_stores] at ht
    exact .unchanged (requestSide_of_stores ht)
  rw [if_neg h1] at ht
  by_cases h2 : action = "back_to_main".toList
  · rw [if_pos h2, stores_attempt] at ht
    exact .unchanged (requestSide_of_stores ht)
  rw [if_neg h2] at ht
  by_cases h3 : action = "back_to_admin".toList
  · rw [if_pos h3, stores_attempt] at ht
    exact .unchanged (requestSide_of_stores ht)
  rw [if_neg h3] at ht
  by_cases h4 : startsWith action "service_".toList = true
  · rw [if_pos h4, serviceBranch_stores] at ht
    cases hf : repairServices.find? (fun sv => decide (sv.id = action)) with
    | none =>
      rw [hf] at ht
      exact .unchanged (requestSide_of_stores ht)
    | some sv =>
      rw [hf] at ht
      have hid : sv.id = action := by simpa using List.find?_some hf
      exact .service sv (List.mem_of_find?_eq_some hf) (by rw [hdata, hid]) ht
  rw [if_neg h4] at ht
  by_cases h5 : startsWith action "offer_".toList = true
  · rw [if_pos h5, offerBranch_stores] at ht
    cases hf : specialOffers.find? (fun o => decide (o.id = action)) with
    | none =>
      rw [hf] at ht
      exact .unchanged (requestSide_of_stores ht)
    | some o =>
      rw [hf] at ht
      have hid : o.id = action := by simpa using List.find?_some hf
      exact .offer o (List.mem_of_find?_eq_some hf) (by rw [hdata, hid]) ht
  rw [if_neg h5] at ht
  by_cases h6 : startsWith action "update_".toList = true
  · rw [if_pos h6, updateBranch_stores] at ht
    exact .unchanged (requestSide_of_stores ht)
  rw [if_neg h6] at ht
  by_cases h7 : startsWith action "status_".toList = true
  · rw [if_pos h7, statusBranch_stores] at ht
    cases hk : statusTarget action with
    | none =>
      rw [hk] at ht
      exact .unchanged (requestSide_of_stores ht)
    | some k =>
      rw [hk] at ht
      dsimp only at ht
      cases hr : mapGet s.repairRequests k with
      | none =>
        rw [hr] at ht
        exact .unchanged (requestSide_of_stores ht)
      | some r =>
        rw [hr] at ht
        dsimp only at ht
        by_cases ha : isAdmin env q.userId = true
        · rw [if_pos ha] at ht
          refine .status action k r hdata h7 hk hr ha ?_
          by_cases hd : env.delivers s.sent.length = true
          · rw [if_pos hd] at ht; exact Or.inr ht
          · rw [if_neg hd] at ht; exact Or.inl ht
        · rw [if_neg ha] at ht
          exact .unchanged (requestSide_of_stores ht)
  rw [if_neg h7] at ht
  by_cases h8 : startsWith action "comment_".toList = true
  · rw [if_pos h8, commentBranch_stores] at ht
    refine .unchanged ?_
    by_cases ha : isAdmin env q.userId = true
    · rw [if_pos ha] at ht; exact (requestSide_of_stores ht).trans rfl
    · rw [if_neg ha] at ht; exact requestSide_of_stores ht
  rw [if_neg h8] at ht
  by_cases h9 : startsWith action "schedule_".toList = true
  · rw [if_pos h9, scheduleBranch_stores] at ht
    refine .unchanged ?_
    by_cases ha : isAdmin env q.userId = true
    · rw [if_pos ha] at ht; exact (requestSide_of_stores ht).trans rfl
    · rw [if_neg ha] at ht; exact requestSide_of_stores ht
  rw [if_neg h9] at ht
  by_cases h10 : action = "export_stats".toList
  · rw [if_pos h10, exportBranch_stores] at ht
    exact .unchanged (requestSide_of_stores ht)
  rw [if_neg h10] at ht
  by_cases h11 : action = "export_clients".toList
  · rw [if_pos h11, exportBranch_stores] at ht
    exact .unchanged (requestSide_of_stores ht)
  rw [if_neg h11] at ht
  by_cases h12 : startsWith action "settings_".toList = true
  · rw [if_pos h12] at ht
    exact .unchanged ((requestSide_of_stores ht).trans (settingsBranch_requestSide env q action s))
  rw [if_neg h12] at ht
  exact .unchanged (requestSide_of_stores ht)

theorem onCallbackQuery_effect (env : Env) (q : CallbackQuery) (s : State) :
    CallbackEffect env q s (onCallbackQuery env q s) := by
  cases hd : q.data with
  | none =>
    refine .unchanged (requestSide_of_stores ?_)
    rw [onCallbackQuery_stores, callbackTry_stores_none env q s hd]
  | some action =>
    apply callbackBranches_effect env q action s _ hd
    rw [onCallbackQuery_stores, callbackTry_stores env q action s hd]

/-! ## Lemmas on the message handler and on timers -/

theorem requestSide_logCall (s : State) (c : Call) :
    (logCall s c).requestSide = s.requestSide := rfl

theorem requestSide_attempt (env : Env) (s : State) (c : Call) :
    (finish (attempt env s c)).requestSide = s.requestSide := by
  rw [finish_attempt]; rfl

theorem requestSide_attemptAll (env : Env) (s : State) (cs : List Call) :
    (finish (attemptAll env s cs)).requestSide = s.requestSide :=
  requestSide_of_stores (stores_attemptAll env s cs)

theorem requestSide_cacheGet (s : State) (now c : Int) :
    (cacheGet s now c).1.requestSide = s.requestSide := by
  unfold cacheGet
  split
  · rfl
  · split <;> rfl

theorem requestSide_components {s t : State} (h : t.requestSide = s.requestSide) :
    t.repairRequests = s.repairRequests ∧ t.userPoints = s.userPoints ∧
      t.notifications = s.notifications ∧ t.jobs = s.jobs := by
  simpa [State.requestSide] using h

theorem commentWrite_congr (env : Env) (m : Message) (k : Int) (r : RepairRequest)
    {s t : State} (h : t.requestSide = s.requestSide) :
    (commentWrite env m k r t).requestSide = (commentWrite env m k r s).requestSide := by
  obtain ⟨h1, h2, h3, h4⟩ := requestSide_components h
  simp [commentWrite, State.requestSide, h1, h2, h3, h4]

theorem scheduleWrite_congr (m : Message) (k : Int) (r : RepairRequest) (time : Int)
    {s t : State} (h : t.requestSide = s.requestSide) :
    (scheduleWrite m k r time t).requestSide = (scheduleWrite m k r time s).requestSide := by
  obtain ⟨h1, h2, h3, h4⟩ := requestSide_components h
  unfold scheduleWrite
  dsimp only
  split
  · simp only [scheduleReminder, scheduleJob, State.requestSide, h1, h2, h3, h4]
    split <;> rfl
  · simp only [State.requestSide, h1, h2, h3, h4]

theorem broadcastLoop_requestSide (env : Env) (message : Str) (s : State) (cs : List Int)
    (a b : Nat) : (broadcastLoop env message s cs a b).1.requestSide = s.requestSide := by
  induction cs generalizing s a b with
  | nil => rfl
  | cons c cs ih =>
    unfold broadcastLoop
    split
    · next s1 h => rw [ih, attempt_ok h]; rfl
    · next s1 h => rw [ih, attempt_error h]; rfl

theorem messageTry_effect (env : Env) (m : Message) (state : Str) (s : State) :
    MessageEffect env m s (finish (messageTry env m state s)) := by
  unfold messageTry
  by_cases h1 : state = "awaiting_broadcast".toList ∧ isAdmin env m.userId = true
  · rw [if_pos h1]
    refine .unchanged ?_
    unfold broadcastBranch
    dsimp only
    split
    · next s1 h =>
      rw [attempt_error h]
      exact broadcastLoop_requestSide _ _ _ _ _ _
    · next s1 h =>
      rw [attempt_ok h]
      exact broadcastLoop_requestSide _ _ _ _ _ _
  rw [if_neg h1]
  by_cases h2 : startsWith state "awaiting_comment_".toList = true
  · rw [if_pos h2]
    unfold awaitingCommentBranch
    cases parseInt (replaceFirst "awaiting_comment_".toList [] state) with
    | none => exact .unchanged rfl
    | some k =>
      dsimp only
      cases hr : mapGet s.repairRequests k with
      | none => exact .unchanged rfl
      | some r =>
        dsimp only
        by_cases ha : isAdmin env m.userId = true
        · rw [if_pos ha]
          refine .comment k r hr ha ?_
          split
          · next s2 h => rw [attempt_error h]; rfl
          · next s2 h => rw [attempt_ok h]; rfl
        · rw [if_neg ha]
          exact .unchanged rfl
  rw [if_neg h2]
  by_cases h3 : startsWith state "awaiting_schedule_".toList = true
  · rw [if_pos h3]
    unfold awaitingScheduleBranch
    cases parseInt (replaceFirst "awaiting_schedule_".toList [] state) with
    | none => exact .unchanged rfl
    | some k =>
      dsimp only
      cases hr : mapGet s.repairRequests k with
      | none => exact .unchanged rfl
      | some r =>
        dsimp only
        by_cases ha : isAdmin env m.userId = true
        · rw [if_pos ha]
          cases hT : env.momentParse m.text with
          | none => exact .unchanged (requestSide_attempt _ _ _)
          | some time =>
            dsimp only
            refine .schedule k r time hr ha hT ?_
            have hall := requestSide_attemptAll env (scheduleWrite m k r time s)
              [.sendMessage r.userId (.timeAssigned k time), .sendMessage m.chatId .timeAssignedAck]
            split
            · next s3 h => rw [h] at hall; exact hall
            · next s3 h => rw [h] at hall; exact hall
        · rw [if_neg ha]
          exact .unchanged rfl
  rw [if_neg h3]
  by_cases h4 : state = "awaiting_phone".toList
  · rw [if_pos h4]
    refine .unchanged ?_
    unfold awaitingPhoneBranch
    split
    · rfl
    · dsimp only
      split
      · rw [finish_attempt]; rfl
      · rw [finish_attempt]; rfl
  rw [if_neg h4]
  by_cases h5 : state = "awaiting_email".toList
  · rw [if_pos h5]
    refine .unchanged ?_
    unfold awaitingEmailBranch
    split
    · rfl
    · dsimp only
      split
      · split
        · next s2 h => rw [attempt_error h]; rfl
        · next s2 h => rw [attempt_ok h]; rfl
      · rw [finish_attempt]; rfl
  rw [if_neg h5]
  exact .unchanged rfl

theorem messageCatch_requestSide (env : Env) (m : Message) (s : State) :
    (messageCatch env m s).requestSide = s.requestSide := by
  unfold messageCatch
  split
  · next s1 h => rw [attempt_error h]; rfl
  · next s1 h => rw [attempt_ok h]; rfl

theorem MessageEffect.congr {env : Env} {m : Message} {s s' t t' : State}
    (h : MessageEffect env m s t) (hs : s.requestSide = s'.requestSide)
    (ht : t'.requestSide = t.requestSide) : MessageEffect env m s' t' := by
  have hrr : s.repairRequests = s'.repairRequests := (requestSide_components hs.symm).1.symm
  cases h with
  | unchanged h => exact .unchanged (ht.trans (h.trans hs))
  | comment k r hr ha h =>
    exact .comment k r (hrr ▸ hr) ha (ht.trans (h.trans (commentWrite_congr env m k r hs)))
  | schedule k r time hr ha hT h =>
    exact .schedule k r time (hrr ▸ hr) ha hT
      (ht.trans (h.trans (scheduleWrite_congr m k r time hs)))

theorem onMessage_effect (env : Env) (m : Message) (s : State) :
    MessageEffect env m s (onMessage env m s) := by
  unfold onMessage
  dsimp only
  have hg := requestSide_cacheGet s m.now m.chatId
  cases (cacheGet s m.now m.chatId).2 with
  | none => exact .unchanged hg
  | some state =>
    dsimp only
    by_cases he : state = []
    · rw [if_pos he]; exact .unchanged hg
    · rw [if_neg he]
      have h := messageTry_effect env m state (cacheGet s m.now m.chatId).1
      cases hres : messageTry env m state (cacheGet s m.now m.chatId).1 with
      | ok s1 =>
        rw [hres] at h
        exact h.congr hg rfl
      | error s1 =>
        rw [hres] at h
        exact h.congr hg (messageCatch_requestSide env m s1)

theorem broadcastCommand_requestSide (env : Env) (m : Message) (s : State) :
    (broadcastCommand env m s).requestSide = s.requestSide := by
  unfold broadcastCommand
  split
  · rw [finish_attempt]; rfl
  · rw [finish_attempt]; rfl

theorem awaitFirst_ok {env : Env} {k : State → State} {s t : State} {c : Call}
    (h : awaitFirst env k s c = .ok t) : t = k (logCall s c) := by
  unfold awaitFirst at h
  split at h
  · next s1 h1 => injection h with h; rw [← h, attempt_ok h1]
  · cases h

theorem awaitFirst_error {env : Env} {k : State → State} {s t : State} {c : Call}
    (h : awaitFirst env k s c = .error t) : t = k (logCall s c) := by
  unfold awaitFirst at h
  split at h
  · cases h
  · next s1 h1 => injection h with h; rw [← h, attempt_error h1]

theorem finish_awaitFirst (env : Env) (k : State → State) (s : State) (c : Call) :
    finish (awaitFirst env k s c) = k (logCall s c) := by
  cases h : awaitFirst env k s c with
  | ok t => exact awaitFirst_ok h
  | error t => exact awaitFirst_error h

theorem awaitFirst_delivered (env : Env) (k : State → State) (s : State) (c : Call)
    (h : env.delivers s.sent.length = true) : awaitFirst env k s c = .ok (k (logCall s c)) := by
  unfold awaitFirst attempt
  rw [if_pos h]

theorem awaitFirst_rejected (env : Env) (k : State → State) (s : State) (c : Call)
    (h : env.delivers s.sent.length = false) :
    awaitFirst env k s c = .error (k (logCall s c)) := by
  unfold awaitFirst attempt
  rw [if_neg (by rw [h]; decide)]

theorem messageTryWith_effect (env : Env) (k : State → State)
    (hk : ∀ s, (k s).requestSide = s.requestSide) (m : Message) (state : Str) (s : State) :
    MessageEffect env m s (finish (messageTryWith env k m state s)) := by
  have hfirst : ∀ (s0 : State) (c : Call),
      (finish (awaitFirst env k s0 c)).requestSide = s0.requestSide := by
    intro s0 c
    rw [finish_awaitFirst, hk]
    rfl
  unfold messageTryWith
  by_cases h1 : state = "awaiting_broadcast".toList ∧ isAdmin env m.userId = true
  · rw [if_pos h1]
    refine .unchanged ?_
    unfold broadcastBranchWith
    dsimp only
    cases (s.repairRequests.map (fun e => e.2.userId)).eraseDups with
    | nil =>
      dsimp only
      have hf := hfirst s (.sendMessage m.chatId (.broadcastDone 0 0))
      cases hres : awaitFirst env k s (.sendMessage m.chatId (.broadcastDone 0 0)) with
      | ok s1 => rw [hres] at hf; exact hf
      | error s1 => rw [hres] at hf; exact hf
    | cons clientId rest =>
      dsimp only
      have hf := hfirst s (.sendMessage clientId (.broadcast (env.sanitizeHtml m.text)))
      cases hres : awaitFirst env k s
          (.sendMessage clientId (.broadcast (env.sanitizeHtml m.text))) with
      | ok s1 =>
        rw [hres] at hf
        dsimp only
        split
        · next s2 h =>
          rw [attempt_error h]
          exact (broadcastLoop_requestSide _ _ _ _ _ _).trans hf
        · next s2 h =>
          rw [attempt_ok h]
          exact (broadcastLoop_requestSide _ _ _ _ _ _).trans hf
      | error s1 =>
        rw [hres] at hf
        dsimp only
        split
        · next s2 h =>
          rw [attempt_error h]
          exact (broadcastLoop_requestSide _ _ _ _ _ _).trans hf
        · next s2 h =>
          rw [attempt_ok h]
          exact (broadcastLoop_requestSide _ _ _ _ _ _).trans hf
  rw [if_neg h1]
  by_cases h2 : startsWith state "awaiting_comment_".toList = true
  · rw [if_pos h2]
    unfold awaitingCommentBranchWith
    cases parseInt (replaceFirst "awaiting_comment_".toList [] state) with
    | none => exact .unchanged (hk s)
    | some id =>
      dsimp only
      cases hr : mapGet s.repairRequests id with
      | none => exact .unchanged (hk s)
      | some r =>
        dsimp only
        by_cases ha : isAdmin env m.userId = true
        · rw [if_pos ha]
          refine .comment id r hr ha ?_
          have hf := hfirst (commentWrite env m id r s) (.sendMessage m.chatId .commentAdded)
          cases hres : awaitFirst env k (commentWrite env m id r s)
              (.sendMessage m.chatId .commentAdded) with
          | ok s2 => rw [hres] at hf; exact hf
          | error s2 => rw [hres] at hf; exact hf
        · rw [if_neg ha]
          exact .unchanged (hk s)
  rw [if_neg h2]
  by_cases h3 : startsWith state "awaiting_schedule_".toList = true
  · rw [if_pos h3]
    unfold awaitingScheduleBranchWith
    cases parseInt (replaceFirst "awaiting_schedule_".toList [] state) with
    | none => exact .unchanged (hk s)
    | some id =>
      dsimp only
      cases hr : mapGet s.repairRequests id with
      | none => exact .unchanged (hk s)
      | some r =>
        dsimp only
        by_cases ha : isAdmin env m.userId = true
        · rw [if_pos ha]
          cases hT : env.momentParse m.text with
          | none => exact .unchanged (hfirst _ _)
          | some time =>
            dsimp only
            refine .schedule id r time hr ha hT ?_
            have hf := hfirst (scheduleWrite m id r time s)
              (.sendMessage r.userId (.timeAssigned id time))
            cases hres : awaitFirst env k (scheduleWrite m id r time s)
                (.sendMessage r.userId (.timeAssigned id time)) with
            | error s2 => rw [hres] at hf; exact hf
            | ok s2 =>
              rw [hres] at hf
              dsimp only
              split
              · next s3 h => rw [attempt_error h]; exact hf
              · next s3 h => rw [attempt_ok h]; exact hf
        · rw [if_neg ha]
          exact .unchanged (hk s)
  rw [if_neg h3]
  by_cases h4 : state = "awaiting_phone".toList
  · rw [if_pos h4]
    refine .unchanged ?_
    unfold awaitingPhoneBranchWith
    split
    · rfl
    · dsimp only
      split
      · exact hfirst _ _
      · exact hfirst _ _
  rw [if_neg h4]
  by_cases h5 : state = "awaiting_email".toList
  · rw [if_pos h5]
    refine .unchanged ?_
    unfold awaitingEmailBranchWith
    split
    · rfl
    · dsimp only
      split
      · split
        · next s2 h => rw [awaitFirst_error h]; exact hk _
        · next s2 h => rw [awaitFirst_ok h]; exact hk _
      · exact hfirst _ _
  rw [if_neg h5]
  exact .unchanged (hk s)

theorem onMessageWith_effect (env : Env) (k : State → State)
    (hk : ∀ s, (k s).requestSide = s.requestSide) (m : Message) (s : State) :
    MessageEffect env m s (onMessageWith env k m s) := by
  unfold onMessageWith
  dsimp only
  have hg := requestSide_cacheGet s m.now m.chatId
  cases (cacheGet s m.now m.chatId).2 with
  | none => exact .unchanged ((hk _).trans hg)
  | some state =>
    dsimp only
    by_cases he : state = []
    · rw [if_pos he]; exact .unchanged ((hk _).trans hg)
    · rw [if_neg he]
      have h := messageTryWith_effect env k hk m state (cacheGet s m.now m.chatId).1
      cases hres : messageTryWith env k m state (cacheGet s m.now m.chatId).1 with
      | ok s1 =>
        rw [hres] at h
        exact h.congr hg rfl
      | error s1 =>
        rw [hres] at h
        exact h.congr hg (messageCatch_requestSide env m s1)

theorem awaitFirst_alone (env : Env) (s : State) (c : Call) :
    awaitFirst env (fun s => s) s c = attempt env s c := by
  unfold awaitFirst
  cases attempt env s c <;> rfl

theorem messageTryWith_alone (env : Env) (m : Message) (state : Str) (s : State) :
    messageTryWith env (fun s => s) m state s = messageTry env m state s := by
  unfold messageTryWith messageTry
  by_cases h1 : state = "awaiting_broadcast".toList ∧ isAdmin env m.userId = true
  · rw [if_pos h1, if_pos h1]
    unfold broadcastBranchWith broadcastBranch
    dsimp only
    cases (s.repairRequests.map (fun e => e.2.userId)).eraseDups with
    | nil =>
      dsimp only
      rw [awaitFirst_alone]
      rfl
    | cons clientId rest =>
      dsimp only
      rw [awaitFirst_alone]
      conv_rhs => unfold broadcastLoop
  rw [if_neg h1, if_neg h1]
  by_cases h2 : startsWith state "awaiting_comment_".toList = true
  · rw [if_pos h2, if_pos h2]
    unfold awaitingCommentBranchWith awaitingCommentBranch
    cases parseInt (replaceFirst "awaiting_comment_".toList [] state) with
    | none => rfl
    | some k =>
      dsimp only
      cases mapGet s.repairRequests k with
      | none => rfl
      | some r =>
        dsimp only
        rw [awaitFirst_alone]
  rw [if_neg h2, if_neg h2]
  by_cases h3 : startsWith state "awaiting_schedule_".toList = true
  · rw [if_pos h3, if_pos h3]
    unfold awaitingScheduleBranchWith awaitingScheduleBranch
    cases parseInt (replaceFirst "awaiting_schedule_".toList [] state) with
    | none => rfl
    | some k =>
      dsimp only
      cases mapGet s.repairRequests k with
      | none => rfl
      | some r =>
        dsimp only
        by_cases ha : isAdmin env m.userId = true
        · rw [if_pos ha, if_pos ha]
          cases env.momentParse m.text with
          | none => exact awaitFirst_alone env s _
          | some time =>
            dsimp only
            rw [awaitFirst_alone]
            unfold attemptAll
            cases attempt env (scheduleWrite m k r time s)
                (.sendMessage r.userId (.timeAssigned k time)) with
            | error s2 => rfl
            | ok s2 =>
              dsimp only
              unfold attemptAll
              cases attempt env s2 (.sendMessage m.chatId .timeAssignedAck) with
              | error s3 => rfl
              | ok s3 => rfl
        · rw [if_neg ha, if_neg ha]
  rw [if_neg h3, if_neg h3]
  by_cases h4 : state = "awaiting_phone".toList
  · rw [if_pos h4, if_pos h4]
    unfold awaitingPhoneBranchWith awaitingPhoneBranch
    cases m.text with
    | none => rfl
    | some text =>
      dsimp only
      rw [awaitFirst_alone, awaitFirst_alone]
  rw [if_neg h4, if_neg h4]
  by_cases h5 : state = "awaiting_email".toList
  · rw [if_pos h5, if_pos h5]
    unfold awaitingEmailBranchWith awaitingEmailBranch
    cases m.text with
    | none => rfl
    | some text =>
      dsimp only
      rw [awaitFirst_alone, awaitFirst_alone]
  rw [if_neg h5, if_neg h5]

/-- With nothing to run at its first `await`, the listener of the dispatch is
the listener `onMessage`. -/
theorem onMessageWith_alone (env : Env) (m : Message) (s : State) :
    onMessageWith env (fun s => s) m s = onMessage env m s := by
  unfold onMessageWith onMessage
  dsimp only
  cases (cacheGet s m.now m.chatId).2 with
  | none => rfl
  | some state =>
    dsimp only
    by_cases he : state = []
    · rw [if_pos he, if_pos he]
    · rw [if_neg he, if_neg he, messageTryWith_alone]

theorem processMessage_effect (env : Env) (m : Message) (s : State) :
    MessageEffect env m s (processMessage env m s) := by
  unfold processMessage
  split
  · exact onMessageWith_effect env _ (broadcastCommand_requestSide env m) m s
  · exact onMessage_effect env m s

/-! ## The status callback (C1, C2) -/

theorem cancelReminder_repairRequests (s : State) (k : Int) :
    (cancelReminder s k).repairRequests = s.repairRequests := by
  unfold cancelReminder
  split <;> rfl

theorem repairRequests_of_stores {s t : State} (h : s.stores = t.stores) :
    s.repairRequests = t.repairRequests := (requestSide_components (requestSide_of_stores h)).1

/-- C1 (refuted as stated). A completed request goes back to pending when an
operator presses the pending button, and the specification's table has no
such edge. -/
theorem C1_completed_to_pending :
    statusOf (run demoEnv State.empty
      [press 7 "service_1" 5, press 1 "status_5_completed" 10]) 5
        = some (some "completed".toList) ∧
    statusOf (run demoEnv State.empty
      [press 7 "service_1" 5, press 1 "status_5_completed" 10,
       press 1 "status_5_pending" 20]) 5 = some (some "pending".toList) ∧
    specTransition (some "completed".toList) (some "pending".toList) = false := by
  decide

/-- C1 (amended). A `status_` callback from an operator whose id field names a
stored request sets that request's status to the requested text, whatever the
status was before; for any other actor, any other id and every other request
the store of requests reads as before. -/
theorem C1_status_callback_assigns (env : Env) (chat user now : Int) (rest : Str) (s : State)
    (id : Int) :
    mapGet (onCallbackQuery env ⟨chat, user, some ("status_".toList ++ rest), now⟩ s).repairRequests
        id =
      if isAdmin env user = true ∧ statusTarget ("status_".toList ++ rest) = some id then
        (mapGet s.repairRequests id).map
          (fun r => { r with status := statusRequested ("status_".toList ++ rest) })
      else mapGet s.repairRequests id := by
  have hst := (onCallbackQuery_stores env ⟨chat, user, some ("status_".toList ++ rest), now⟩ s).trans
    (callbackTry_stores env _ _ s rfl)
  rw [callbackBranches_status, statusBranch_stores] at hst
  cases ht : statusTarget ("status_".toList ++ rest) with
  | none =>
    rw [ht] at hst
    rw [repairRequests_of_stores hst]
    simp
  | some k =>
    rw [ht] at hst
    dsimp only at hst
    cases hr : mapGet s.repairRequests k with
    | none =>
      rw [hr] at hst
      rw [repairRequests_of_stores hst]
      by_cases hk : k = id
      · subst hk; simp [hr]
      · simp [hk]
    | some request =>
      rw [hr] at hst
      dsimp only at hst
      by_cases ha : isAdmin env user = true
      · rw [if_pos ha] at hst
        have hrr : (onCallbackQuery env ⟨chat, user, some ("status_".toList ++ rest), now⟩
            s).repairRequests = mapSet s.repairRequests k
              { request with status := statusRequested ("status_".toList ++ rest) } := by
          by_cases hd : env.delivers s.sent.length = true
          · rw [if_pos hd] at hst
            rw [repairRequests_of_stores hst, cancelReminder_repairRequests]; rfl
          · rw [if_neg hd] at hst
            rw [repairRequests_of_stores hst]; rfl
        rw [hrr, mapGet_mapSet]
        by_cases hk : k = id
        · subst hk; simp [ha, hr]
        · simp [ha, hk]
      · rw [if_neg ha] at hst
        rw [repairRequests_of_stores hst]
        simp [ha]

theorem serviceCreate_repairRequests (q : CallbackQuery) (sv : Service) (s : State) :
    (serviceCreate q sv s).repairRequests = mapSet s.repairRequests q.now
      ⟨q.now, q.userId, sv.id, some "pending".toList, sv.price, q.now, false, none, none⟩ := by
  unfold serviceCreate scheduleReminder scheduleJob addUserPoints
  dsimp only
  split <;> rfl

theorem offerCreate_repairRequests (q : CallbackQuery) (o : Offer) (s : State) :
    (offerCreate q o s).repairRequests = mapSet s.repairRequests q.now
      ⟨q.now, q.userId, o.id, some "pending".toList, o.price, q.now, true, none, none⟩ := by
  unfold offerCreate scheduleReminder scheduleJob addUserPoints
  dsimp only
  split <;> rfl

theorem scheduleWrite_repairRequests (m : Message) (k : Int) (r : RepairRequest) (time : Int)
    (s : State) :
    (scheduleWrite m k r time s).repairRequests =
      mapSet s.repairRequests k { r with scheduledTime := some time } := by
  unfold scheduleWrite scheduleReminder scheduleJob
  dsimp only
  split
  · split <;> rfl
  · rfl

theorem reminderCallback_stores (env : Env) (s : State) (userId requestId : Int) :
    (reminderCallback env s userId requestId).stores = s.stores := by
  unfold reminderCallback
  split
  · split
    · exact stores_attempt _ _ _
    · rfl
  · rfl

/-- A timer changes no collection; in the job table it can only mark the job as run. -/
theorem fireJob_collections (env : Env) (j : Nat) (now : Int) (s : State) :
    (fireJob env j now s).repairRequests = s.repairRequests ∧
    (fireJob env j now s).userPoints = s.userPoints ∧
    (fireJob env j now s).userSettings = s.userSettings ∧
    (fireJob env j now s).notifications = s.notifications ∧
    (fireJob env j now s).cache = s.cache := by
  unfold fireJob
  split
  · exact ⟨rfl, rfl, rfl, rfl, rfl⟩
  · split
    · exact ⟨rfl, rfl, rfl, rfl, rfl⟩
    · next job _ _ =>
      have h := reminderCallback_stores env
        { s with jobs := s.jobs.set j { job with fired := true } } job.userId job.requestId
      have h' := congrArg (fun t => (t.repairRequests, t.userPoints, t.userSettings,
        t.notifications, t.cache)) h
      simp only [State.stores, Prod.mk.injEq] at h'
      exact h'

theorem knownStatuses_mapSet {s : State} (h : KnownStatuses s) (k : Int) (r : RepairRequest)
    (hr : r.status ∈ knownStatuses) (t : State)
    (ht : t.repairRequests = mapSet s.repairRequests k r) : KnownStatuses t := by
  intro e he
  rw [ht] at he
  rcases mem_mapSet _ _ _ _ he with h1 | h1
  · rw [h1]; exact hr
  · exact h e h1

theorem knownStatuses_of_get {s : State} (h : KnownStatuses s) {k : Int} {r : RepairRequest}
    (hr : mapGet s.repairRequests k = some r) : r.status ∈ knownStatuses :=
  h (k, r) (mapGet_some_mem _ _ _ hr)

theorem knownStatuses_step (env : Env) (s : State) (e : Event) (h : KnownStatuses s)
    (he : requestsKnownStatus e) : KnownStatuses (step env s e) := by
  cases e with
  | callback q =>
    show KnownStatuses (onCallbackQuery env q s)
    cases onCallbackQuery_effect env q s with
    | unchanged h1 =>
      intro e1 he1
      rw [(requestSide_components h1).1] at he1
      exact h e1 he1
    | service sv _ _ h1 =>
      refine knownStatuses_mapSet h q.now _ ?_ _ ((repairRequests_of_stores h1).trans
        (serviceCreate_repairRequests q sv s))
      show some "pending".toList ∈ knownStatuses
      decide
    | offer o _ _ h1 =>
      refine knownStatuses_mapSet h q.now _ ?_ _ ((repairRequests_of_stores h1).trans
        (offerCreate_repairRequests q o s))
      show some "pending".toList ∈ knownStatuses
      decide
    | status action k r hdata hpre hk hr hadmin h1 =>
      refine knownStatuses_mapSet h k { r with status := statusRequested action } (he action hdata hpre) _ ?_
      rcases h1 with h1 | h1
      · exact repairRequests_of_stores h1
      · exact (repairRequests_of_stores h1).trans (cancelReminder_repairRequests _ _)
  | message m =>
    show KnownStatuses (processMessage env m s)
    cases processMessage_effect env m s with
    | unchanged h1 =>
      intro e1 he1
      rw [(requestSide_components h1).1] at he1
      exact h e1 he1
    | comment k r hr _ h1 =>
      have hst : r.status ∈ knownStatuses := knownStatuses_of_get h hr
      exact knownStatuses_mapSet h k { r with comment := some (env.sanitizeHtml m.text) } hst _
        (requestSide_components h1).1
    | schedule k r time hr _ _ h1 =>
      have hst : r.status ∈ knownStatuses := knownStatuses_of_get h hr
      exact knownStatuses_mapSet h k { r with scheduledTime := some time } hst _
        ((requestSide_components h1).1.trans (scheduleWrite_repairRequests m k r time s))
  | timer j now =>
    intro e1 he1
    have h1 : (step env s (.timer j now)).repairRequests = s.repairRequests :=
      (fireJob_collections env j now s).1
    rw [h1] at he1
    exact h e1 he1

/-- C2 (refuted as stated). A status callback from an operator with a text
that is no status value leaves that text as the status of a stored request. -/
theorem C2_unknown_status_stored :
    statusOf (run demoEnv State.empty
      [press 7 "service_1" 5, press 1 "status_5_archived" 10]) 5
        = some (some "archived".toList) ∧
    some "archived".toList ∉ knownStatuses := by
  decide

/-- C2 (amended). From the empty store, as long as every status callback
requests one of the four status values, every stored request has one of the
four status values. -/
theorem C2_known_statuses_kept (env : Env) (events : List Event)
    (h : ∀ e ∈ events, requestsKnownStatus e) :
    ∀ entry ∈ (run env State.empty events).repairRequests,
      entry.2.status ∈ knownStatuses := by
  have key : ∀ (evs : List Event) (s : State), KnownStatuses s →
      (∀ e ∈ evs, requestsKnownStatus e) → KnownStatuses (run env s evs) := by
    intro evs
    induction evs with
    | nil => intro s hs _; exact hs
    | cons e rest ih =>
      intro s hs hall
      exact ih (step env s e) (knownStatuses_step env s e hs (hall e (List.mem_cons_self _ _)))
        (fun e' he' => hall e' (List.mem_cons_of_mem _ he'))
  exact key events State.empty (fun e he => by cases he) h

/-- C2, at a concrete run: a request is created, completed and cancelled; it
is stored with the status cancelled, one of the four values. -/
theorem C2_known_statuses_kept_witness :
    (5, (⟨5, 7, "service_1".toList, some "cancelled".toList, 1500, 5, false, none, none⟩ :
        RepairRequest)) ∈
      (run demoEnv State.empty
        [press 7 "service_1" 5, press 1 "status_5_completed" 10,
         press 1 "status_5_cancelled" 20]).repairRequests ∧
    some "cancelled".toList ∈ knownStatuses :=
  ⟨by decide,
    C2_known_statuses_kept demoEnv
      [press 7 "service_1" 5, press 1 "status_5_completed" 10, press 1 "status_5_cancelled" 20]
      (by
        intro e he
        simp only [List.mem_cons, List.mem_singleton, List.not_mem_nil, or_false] at he
        rcases he with rfl | rfl | rfl
        · intro action hd hp
          simp only [press, Option.some.injEq] at hd
          subst hd
          revert hp; decide
        · intro action hd _
          simp only [press, Option.some.injEq] at hd
          subst hd
          decide
        · intro action hd _
          simp only [press, Option.some.injEq] at hd
          subst hd
          decide)
      (5, ⟨5, 7, "service_1".toList, some "cancelled".toList, 1500, 5, false, none, none⟩)
      (by decide)⟩

theorem scheduleReminder_ahead (s : State) (now userId requestId time : Int) (h : now ≤ time) :
    scheduleReminder s now userId requestId time =
      { s with
        jobs := s.jobs ++ [⟨userId, requestId, time, false, false⟩]
        notifications := mapSet s.notifications requestId (some s.jobs.length) } := by
  unfold scheduleReminder scheduleJob
  rw [if_pos h]

theorem serviceCreate_eq (q : CallbackQuery) (sv : Service) (s : State) :
    serviceCreate q sv s =
      { repairRequests := mapSet s.repairRequests q.now
          ⟨q.now, q.userId, sv.id, some "pending".toList, sv.price, q.now, false, none, none⟩
        userPoints := mapSet s.userPoints q.userId
          (getUserPoints s q.userId + mathFloorTenth sv.price)
        userSettings := s.userSettings
        notifications := mapSet s.notifications q.now (some s.jobs.length)
        cache := s.cache
        jobs := s.jobs ++ [⟨q.userId, q.now, q.now + 86400000, false, false⟩]
        sent := s.sent } := by
  unfold serviceCreate
  dsimp only
  rw [scheduleReminder_ahead _ _ _ _ _ (by omega)]
  rfl

theorem offerCreate_eq (q : CallbackQuery) (o : Offer) (s : State) :
    offerCreate q o s =
      { repairRequests := mapSet s.repairRequests q.now
          ⟨q.now, q.userId, o.id, some "pending".toList, o.price, q.now, true, none, none⟩
        userPoints := mapSet s.userPoints q.userId (getUserPoints s q.userId + o.points)
        userSettings := s.userSettings
        notifications := mapSet s.notifications q.now (some s.jobs.length)
        cache := s.cache
        jobs := s.jobs ++ [⟨q.userId, q.now, q.now + 86400000, false, false⟩]
        sent := s.sent } := by
  unfold offerCreate
  dsimp only
  rw [scheduleReminder_ahead _ _ _ _ _ (by omega)]
  rfl

theorem service_id_shape (sv : Service) (h : sv ∈ repairServices) :
    (∃ rest, sv.id = "service_".toList ++ rest) ∧
      repairServices.find? (fun x => decide (x.id = sv.id)) = some sv := by
  simp only [repairServices, List.mem_cons, List.mem_singleton, List.not_mem_nil, or_false] at h
  rcases h with rfl | rfl | rfl | rfl | rfl | rfl
  · exact ⟨⟨['1'], rfl⟩, by decide⟩
  · exact ⟨⟨['2'], rfl⟩, by decide⟩
  · exact ⟨⟨['3'], rfl⟩, by decide⟩
  · exact ⟨⟨['4'], rfl⟩, by decide⟩
  · exact ⟨⟨['5'], rfl⟩, by decide⟩
  · exact ⟨⟨['6'], rfl⟩, by decide⟩

theorem offer_id_shape (o : Offer) (h : o ∈ specialOffers) :
    (∃ rest, o.id = "offer_".toList ++ rest) ∧
      specialOffers.find? (fun x => decide (x.id = o.id)) = some o := by
  simp only [specialOffers, List.mem_cons, List.mem_singleton, List.not_mem_nil, or_false] at h
  rcases h with rfl | rfl | rfl
  · exact ⟨⟨['1'], rfl⟩, by decide⟩
  · exact ⟨⟨['2'], rfl⟩, by decide⟩
  · exact ⟨⟨['3'], rfl⟩, by decide⟩

/-- The stores after a callback whose data is the id of a standard service. -/
theorem onCallbackQuery_service (env : Env) (chat user now : Int) (sv : Service)
    (h : sv ∈ repairServices) (s : State) :
    (onCallbackQuery env ⟨chat, user, some sv.id, now⟩ s).stores =
      (serviceCreate ⟨chat, user, some sv.id, now⟩ sv s).stores := by
  obtain ⟨⟨rest, hrest⟩, hfind⟩ := service_id_shape sv h
  rw [onCallbackQuery_stores, callbackTry_stores env _ sv.id s rfl]
  have hb : callbackBranches env ⟨chat, user, some sv.id, now⟩ sv.id s =
      serviceBranch env ⟨chat, user, some sv.id, now⟩ sv.id s := by
    rw [hrest]; exact callbackBranches_service env _ rest s
  rw [hb, serviceBranch_stores, hfind]

/-- The stores after a callback whose data is the id of a special offer. -/
theorem onCallbackQuery_offer (env : Env) (chat user now : Int) (o : Offer)
    (h : o ∈ specialOffers) (s : State) :
    (onCallbackQuery env ⟨chat, user, some o.id, now⟩ s).stores =
      (offerCreate ⟨chat, user, some o.id, now⟩ o s).stores := by
  obtain ⟨⟨rest, hrest⟩, hfind⟩ := offer_id_shape o h
  rw [onCallbackQuery_stores, callbackTry_stores env _ o.id s rfl]
  have hb : callbackBranches env ⟨chat, user, some o.id, now⟩ o.id s =
      offerBranch env ⟨chat, user, some o.id, now⟩ o.id s := by
    rw [hrest]; exact callbackBranches_offer env _ rest s
  rw [hb, offerBranch_stores, hfind]

theorem userPoints_of_stores {s t : State} (h : s.stores = t.stores) :
    s.userPoints = t.userPoints := (requestSide_components (requestSide_of_stores h)).2.1

theorem getUserPoints_of_stores {s t : State} (h : s.stores = t.stores) (u : Int) :
    getUserPoints s u = getUserPoints t u := by
  unfold getUserPoints
  rw [userPoints_of_stores h]

/-- C3. Creating a request credits the acting user with `floor(price / 10)`
points for a standard service and with the offer's own points for a special
offer, and leaves every other user's balance as it was. -/
theorem C3_creation_credits_points (env : Env) (chat user now : Int) (s : State) :
    (∀ sv ∈ repairServices, ∀ u : Int,
      getUserPoints (onCallbackQuery env ⟨chat, user, some sv.id, now⟩ s) u =
        if u = user then getUserPoints s u + Int.floor ((sv.price : ℚ) / 10)
        else getUserPoints s u) ∧
    (∀ o ∈ specialOffers, ∀ u : Int,
      getUserPoints (onCallbackQuery env ⟨chat, user, some o.id, now⟩ s) u =
        if u = user then getUserPoints s u + o.points else getUserPoints s u) := by
  constructor
  · intro sv hsv u
    rw [getUserPoints_of_stores (onCallbackQuery_service env chat user now sv hsv s),
      serviceCreate_eq]
    unfold getUserPoints
    simp only [mapGet_mapSet]
    by_cases hu : u = user
    · subst hu; simp [mathFloorTenth]
    · simp [hu, Ne.symm hu]
  · intro o ho u
    rw [getUserPoints_of_stores (onCallbackQuery_offer env chat user now o ho s),
      offerCreate_eq]
    unfold getUserPoints
    simp only [mapGet_mapSet]
    by_cases hu : u = user
    · subst hu; simp
    · simp [hu, Ne.symm hu]

/-- C3, at the two examples of the claim: 150 points for the service priced
1500 and 450 points for the first offer. -/
theorem C3_creation_credits_points_witness :
    getUserPoints (onCallbackQuery demoEnv ⟨7, 7, some "service_1".toList, 5⟩ State.empty) 7
        = 150 ∧
    getUserPoints (onCallbackQuery demoEnv ⟨7, 7, some "offer_1".toList, 5⟩ State.empty) 7
        = 450 := by
  have h := C3_creation_credits_points demoEnv 7 7 5 State.empty
  constructor
  · have h1 := h.1 ⟨"service_1".toList, 1500⟩ (by decide) 7
    rw [h1]
    norm_num [getUserPoints, State.empty, mapGet]
  · have h2 := h.2 ⟨"offer_1".toList, 3000, 450⟩ (by decide) 7
    rw [h2]
    norm_num [getUserPoints, State.empty, mapGet]

theorem count_key_mapSet {α : Type} (m : List (Int × α)) (k : Int) (v : α)
    (h : (m.map Prod.fst).Nodup) :
    ((mapSet m k v).filter (fun e => decide (e.1 = k))).length = 1 := by
  induction m with
  | nil => simp [mapSet]
  | cons x rest ih =>
    obtain ⟨a, b⟩ := x
    simp only [List.map_cons, List.nodup_cons] at h
    by_cases hk : a = k
    · subst hk
      have hnone : rest.filter (fun e => decide (e.1 = a)) = [] := by
        rw [List.filter_eq_nil_iff]
        intro e he hea
        simp only [decide_eq_true_eq] at hea
        exact h.1 (hea ▸ List.mem_map_of_mem Prod.fst he)
      simp [mapSet, List.filter, hnone]
    · simp [mapSet, hk, List.filter, ih h.2]

theorem notifications_of_stores {s t : State} (h : s.stores = t.stores) :
    s.notifications = t.notifications := (requestSide_components (requestSide_of_stores h)).2.2.1

theorem jobs_of_stores {s t : State} (h : s.stores = t.stores) :
    s.jobs = t.jobs := (requestSide_components (requestSide_of_stores h)).2.2.2

/-- C4. A callback naming a standard service or a special offer stores, under
the id `now`, a pending request of the acting user with the catalogue price
and the flag of its namespace; the reminder map then holds for that id the
one job just entered in the job table, due 24 hours after `now`. A
`service_` or `offer_` callback that names no catalogue item changes no
store. -/
theorem C4_creation_stores_request (env : Env) (chat user now : Int) (s : State) :
    (∀ sv ∈ repairServices,
      let t := onCallbackQuery env ⟨chat, user, some sv.id, now⟩ s
      mapGet t.repairRequests now =
        some ⟨now, user, sv.id, some "pending".toList, sv.price, now, false, none, none⟩ ∧
      mapGet t.notifications now = some (some s.jobs.length) ∧
      t.jobs = s.jobs ++ [⟨user, now, now + 86400000, false, false⟩] ∧
      ((s.notifications.map Prod.fst).Nodup →
        (t.notifications.filter (fun e => decide (e.1 = now))).length = 1)) ∧
    (∀ o ∈ specialOffers,
      let t := onCallbackQuery env ⟨chat, user, some o.id, now⟩ s
      mapGet t.repairRequests now =
        some ⟨now, user, o.id, some "pending".toList, o.price, now, true, none, none⟩ ∧
      mapGet t.notifications now = some (some s.jobs.length) ∧
      t.jobs = s.jobs ++ [⟨user, now, now + 86400000, false, false⟩] ∧
      ((s.notifications.map Prod.fst).Nodup →
        (t.notifications.filter (fun e => decide (e.1 = now))).length = 1)) ∧
    (∀ rest : Str, (∀ sv ∈ repairServices, sv.id ≠ "service_".toList ++ rest) →
      (onCallbackQuery env ⟨chat, user, some ("service_".toList ++ rest), now⟩ s).stores
        = s.stores) ∧
    (∀ rest : Str, (∀ o ∈ specialOffers, o.id ≠ "offer_".toList ++ rest) →
      (onCallbackQuery env ⟨chat, user, some ("offer_".toList ++ rest), now⟩ s).stores
        = s.stores) := by
  refine ⟨?_, ?_, ?_, ?_⟩
  · intro sv hsv
    have hst := onCallbackQuery_service env chat user now sv hsv s
    rw [serviceCreate_eq] at hst
    dsimp only
    rw [repairRequests_of_stores hst, notifications_of_stores hst, jobs_of_stores hst]
    refine ⟨?_, ?_, rfl, ?_⟩
    · simp [State.stores, mapGet_mapSet]
    · simp [State.stores, mapGet_mapSet]
    · intro hnd
      exact count_key_mapSet s.notifications now _ hnd
  · intro o ho
    have hst := onCallbackQuery_offer env chat user now o ho s
    rw [offerCreate_eq] at hst
    dsimp only
    rw [repairRequests_of_stores hst, notifications_of_stores hst, jobs_of_stores hst]
    refine ⟨?_, ?_, rfl, ?_⟩
    · simp [State.stores, mapGet_mapSet]
    · simp [State.stores, mapGet_mapSet]
    · intro hnd
      exact count_key_mapSet s.notifications now _ hnd
  · intro rest hno
    rw [onCallbackQuery_stores, callbackTry_stores env _ _ s rfl, callbackBranches_service,
      serviceBranch_stores]
    have hf : repairServices.find? (fun sv => decide (sv.id = "service_".toList ++ rest))
        = none := by
      rw [List.find?_eq_none]
      intro sv hsv
      simpa using hno sv hsv
    rw [hf]
  · intro rest hno
    rw [onCallbackQuery_stores, callbackTry_stores env _ _ s rfl, callbackBranches_offer,
      offerBranch_stores]
    have hf : specialOffers.find? (fun o => decide (o.id = "offer_".toList ++ rest))
        = none := by
      rw [List.find?_eq_none]
      intro o ho
      simpa using hno o ho
    rw [hf]

/-- C4, at the end-to-end scenario of the specification: user 7 orders the
service priced 1500 at clock reading 5. -/
theorem C4_creation_stores_request_witness :
    mapGet (onCallbackQuery demoEnv ⟨7, 7, some "service_1".toList, 5⟩
        State.empty).repairRequests 5 =
      some ⟨5, 7, "service_1".toList, some "pending".toList, 1500, 5, false, none, none⟩ ∧
    (onCallbackQuery demoEnv ⟨7, 7, some "service_1".toList, 5⟩ State.empty).jobs =
      [⟨7, 5, 86400005, false, false⟩] ∧
    (onCallbackQuery demoEnv ⟨7, 7, some "service_9".toList, 5⟩ State.empty).stores =
      State.empty.stores := by
  have h := C4_creation_stores_request demoEnv 7 7 5 State.empty
  have h1 := h.1 ⟨"service_1".toList, 1500⟩ (by decide)
  have h3 := h.2.2.1 ['9'] (by decide)
  exact ⟨h1.1, h1.2.2.1, h3⟩

/-- A creation at a clock reading that is no stored id appends one request
under that reading and touches no stored request. -/
theorem creation_appends (env : Env) (q : CallbackQuery) (s : State) (hq : isCreation q)
    (hfresh : q.now ∉ requestIds s) :
    ∃ r : RepairRequest, r.userId = q.userId ∧
      (onCallbackQuery env q s).repairRequests = s.repairRequests ++ [(q.now, r)] := by
  obtain ⟨chat, user, data, now⟩ := q
  rcases hq with ⟨sv, hsv, hd⟩ | ⟨o, ho, hd⟩
  · simp only at hd
    subst hd
    have hst := onCallbackQuery_service env chat user now sv hsv s
    rw [serviceCreate_eq] at hst
    refine ⟨_, ?_, (repairRequests_of_stores hst).trans (mapSet_of_not_mem _ _ _ hfresh)⟩
    rfl
  · simp only at hd
    subst hd
    have hst := onCallbackQuery_offer env chat user now o ho s
    rw [offerCreate_eq] at hst
    refine ⟨_, ?_, (repairRequests_of_stores hst).trans (mapSet_of_not_mem _ _ _ hfresh)⟩
    rfl

theorem mapGet_append_of_mem {α : Type} (m : List (Int × α)) (k k' : Int) (v : α)
    (h : k ∈ m.map Prod.fst) : mapGet (m ++ [(k', v)]) k = mapGet m k := by
  induction m with
  | nil => simp at h
  | cons x rest ih =>
    obtain ⟨a, b⟩ := x
    by_cases ha : a = k
    · simp [mapGet, ha]
    · have h' : k ∈ rest.map Prod.fst := by
        simp only [List.map_cons, List.mem_cons] at h
        rcases h with h | h
        · exact absurd h.symm ha
        · exact h
      simp [mapGet, ha, ih h']

/-- C5 (refuted as stated). Two creations at the same clock reading, which a
non-decreasing clock allows, share one id: the store holds one request after
two successful creations, and the first user's request is gone. -/
theorem C5_same_reading_collides :
    (run demoEnv State.empty
      [press 7 "service_1" 5, press 8 "service_2" 5]).repairRequests.length = 1 ∧
    (mapGet (run demoEnv State.empty [press 7 "service_1" 5]).repairRequests 5).map
      (fun r => r.userId) = some 7 ∧
    (mapGet (run demoEnv State.empty
      [press 7 "service_1" 5, press 8 "service_2" 5]).repairRequests 5).map
      (fun r => r.userId) = some 8 := by
  decide

/-- C5 (amended). Creations at strictly increasing clock readings, all later
than every stored id, are stored under their readings behind the requests
already there: the ids are the old ids followed by the readings, so the
store grows by one per creation, and every request stored before reads as
before. -/
theorem C5_increasing_readings_fresh_ids (env : Env) (qs : List CallbackQuery) (s : State)
    (hcreate : ∀ q ∈ qs, isCreation q)
    (hinc : qs.Pairwise (fun a b => a.now < b.now))
    (hlater : ∀ q ∈ qs, ∀ k ∈ requestIds s, k < q.now) :
    requestIds (run env s (qs.map Event.callback)) = requestIds s ++ qs.map (fun q => q.now) ∧
    ∀ k ∈ requestIds s,
      mapGet (run env s (qs.map Event.callback)).repairRequests k = mapGet s.repairRequests k := by
  induction qs generalizing s with
  | nil => simp [run]
  | cons q rest ih =>
    have hfresh : q.now ∉ requestIds s := fun hmem =>
      lt_irrefl _ (hlater q (List.mem_cons_self _ _) q.now hmem)
    obtain ⟨r, _, hrr⟩ := creation_appends env q s (hcreate q (List.mem_cons_self _ _)) hfresh
    have hids : requestIds (onCallbackQuery env q s) = requestIds s ++ [q.now] := by
      unfold requestIds
      rw [hrr]; simp
    rw [List.pairwise_cons] at hinc
    have ih' := ih (onCallbackQuery env q s)
      (fun q' hq' => hcreate q' (List.mem_cons_of_mem _ hq')) hinc.2
      (by
        intro q' hq' k hk
        rw [hids, List.mem_append, List.mem_singleton] at hk
        rcases hk with hk | hk
        · exact hlater q' (List.mem_cons_of_mem _ hq') k hk
        · rw [hk]; exact hinc.1 q' hq')
    have hrun : run env s ((q :: rest).map Event.callback) =
        run env (onCallbackQuery env q s) (rest.map Event.callback) := rfl
    rw [hrun]
    refine ⟨?_, ?_⟩
    · rw [ih'.1, hids]; simp
    · intro k hk
      rw [ih'.2 k (by rw [hids]; exact List.mem_append_left _ hk), hrr]
      exact mapGet_append_of_mem _ _ _ _ hk

/-- C5, at a concrete run: three creations at the readings 5, 6 and 9. -/
theorem C5_increasing_readings_fresh_ids_witness :
    requestIds (run demoEnv State.empty
      ([⟨7, 7, some "service_1".toList, 5⟩, ⟨8, 8, some "offer_2".toList, 6⟩,
        ⟨7, 7, some "service_1".toList, 9⟩].map Event.callback)) = [5, 6, 9] :=
  (C5_increasing_readings_fresh_ids demoEnv
    [⟨7, 7, some "service_1".toList, 5⟩, ⟨8, 8, some "offer_2".toList, 6⟩,
      ⟨7, 7, some "service_1".toList, 9⟩] State.empty
    (by
      intro q hq
      simp only [List.mem_cons, List.mem_singleton, List.not_mem_nil, or_false] at hq
      rcases hq with rfl | rfl | rfl
      · exact Or.inl ⟨⟨"service_1".toList, 1500⟩, by decide, rfl⟩
      · exact Or.inr ⟨⟨"offer_2".toList, 2500, 250⟩, by decide, rfl⟩
      · exact Or.inl ⟨⟨"service_1".toList, 1500⟩, by decide, rfl⟩)
    (by simp)
    (by intro q _ k hk; simp [requestIds, State.empty] at hk)).1

/-! ## Rejected status callbacks (C6) -/

theorem stores_components {s t : State} (h : t.stores = s.stores) :
    t.repairRequests = s.repairRequests ∧ t.notifications = s.notifications ∧
      t.userPoints = s.userPoints ∧ t.cache = s.cache ∧ t.userSettings = s.userSettings ∧
      t.jobs = s.jobs := by
  have h' := congrArg (fun x => (x.repairRequests, x.notifications, x.userPoints, x.cache,
    x.userSettings, x.jobs)) h
  simpa [State.stores] using h'

/-- C6. A `status_` callback whose id field names no stored request, or whose
actor is not in the operator list, leaves the request store, the reminder
store, the ledger and the conversation-state store as they were, and with
them the settings and the job table. -/
theorem C6_status_callback_rejected (env : Env) (chat user now : Int) (rest : Str) (s : State)
    (h : mapGetNum s.repairRequests (statusTarget ("status_".toList ++ rest)) = none ∨
      isAdmin env user = false) :
    let t := onCallbackQuery env ⟨chat, user, some ("status_".toList ++ rest), now⟩ s
    t.repairRequests = s.repairRequests ∧ t.notifications = s.notifications ∧
      t.userPoints = s.userPoints ∧ t.cache = s.cache ∧ t.userSettings = s.userSettings ∧
      t.jobs = s.jobs := by
  apply stores_components
  rw [onCallbackQuery_stores, callbackTry_stores env _ _ s rfl, callbackBranches_status,
    statusBranch_stores]
  cases ht : statusTarget ("status_".toList ++ rest) with
  | none => rfl
  | some k =>
    dsimp only
    cases hr : mapGet s.repairRequests k with
    | none => rfl
    | some r =>
      dsimp only
      rcases h with h | h
      · rw [ht] at h
        simp only [mapGetNum] at h
        rw [hr] at h
        cases h
      · have ha : ¬ (isAdmin env user = true) := by rw [h]; decide
        rw [if_neg ha]

/-- C6, at a concrete state: the owner of request 5, who is no operator,
presses a status button. -/
theorem C6_status_callback_rejected_witness :
    (onCallbackQuery demoEnv ⟨7, 7, some ("status_".toList ++ "5_completed".toList), 10⟩
      (run demoEnv State.empty [press 7 "service_1" 5])).repairRequests =
      (run demoEnv State.empty [press 7 "service_1" 5]).repairRequests :=
  (C6_status_callback_rejected demoEnv 7 7 10 "5_completed".toList
    (run demoEnv State.empty [press 7 "service_1" 5]) (Or.inr (by decide))).1

/-! ## Reminders (C7, C8, C9, C10) -/

theorem jobCancelled_of_jobs {s t : State} (h : t.jobs = s.jobs) {j : Nat}
    (hc : JobCancelled s j) : JobCancelled t j := by
  unfold JobCancelled at *
  rw [h]; exact hc

theorem jobCancelled_append {s t : State} (extra : List Job) (h : t.jobs = s.jobs ++ extra)
    {j : Nat} (hc : JobCancelled s j) : JobCancelled t j := by
  obtain ⟨job, hj, hcan⟩ := hc
  refine ⟨job, ?_, hcan⟩
  rw [h]
  simp only [List.get?_eq_getElem?] at hj ⊢
  have hlt : j < s.jobs.length := by
    by_contra hge
    rw [List.getElem?_eq_none (by omega)] at hj
    cases hj
  rw [List.getElem?_append_left hlt]
  exact hj

theorem cancelJob_get (jobs : List Job) (i j : Nat) (job : Job) (h : jobs.get? j = some job) :
    (cancelJob jobs i).get? j =
      some (if i = j then { job with cancelled := true } else job) := by
  unfold cancelJob
  cases hi : jobs.get? i with
  | none =>
    have hne : i ≠ j := by
      intro e; rw [e, h] at hi; cases hi
    rw [if_neg hne]
    exact h
  | some ji =>
    simp only [List.get?_eq_getElem?] at h hi ⊢
    by_cases hij : i = j
    · subst hij
      rw [hi] at h
      injection h with h
      subst h
      have hlt : i < jobs.length := by
        by_contra hge
        rw [List.getElem?_eq_none (by omega)] at hi
        cases hi
      simp [List.getElem?_set_self, hlt]
    · simp [List.getElem?_set_ne hij, hij, h]

theorem jobCancelled_cancelJob {s t : State} (i : Nat) (h : t.jobs = cancelJob s.jobs i)
    {j : Nat} (hc : JobCancelled s j) : JobCancelled t j := by
  obtain ⟨job, hj, hcan⟩ := hc
  refine ⟨if i = j then { job with cancelled := true } else job, ?_, ?_⟩
  · rw [h]; exact cancelJob_get _ _ _ _ hj
  · split <;> simp [hcan]

theorem cancelReminder_jobs (s : State) (k : Int) :
    (cancelReminder s k).jobs = s.jobs ∨ ∃ i, (cancelReminder s k).jobs = cancelJob s.jobs i := by
  unfold cancelReminder
  split
  · next i _ => exact Or.inr ⟨i, rfl⟩
  · exact Or.inl rfl

theorem scheduleWrite_jobs (m : Message) (k : Int) (r : RepairRequest) (time : Int) (s : State) :
    ∃ extra, (scheduleWrite m k r time s).jobs = s.jobs ++ extra := by
  unfold scheduleWrite scheduleReminder scheduleJob
  dsimp only
  split
  · split
    · exact ⟨_, rfl⟩
    · exact ⟨[], by simp⟩
  · exact ⟨[], by simp⟩

theorem reminderCallback_jobs (env : Env) (s : State) (userId requestId : Int) :
    (reminderCallback env s userId requestId).jobs = s.jobs :=
  (stores_components (reminderCallback_stores env s userId requestId)).2.2.2.2.2

/-- A cancelled job is never run: the timer leaves the state as it is. -/
theorem fireJob_cancelled (env : Env) (j : Nat) (now : Int) (s : State)
    (h : JobCancelled s j) : fireJob env j now s = s := by
  obtain ⟨job, hj, hcan⟩ := h
  unfold fireJob
  rw [hj]
  simp [hcan]

theorem fireJob_jobs (env : Env) (i : Nat) (now : Int) (s : State) :
    (fireJob env i now s).jobs = s.jobs ∨
      ∃ job, s.jobs.get? i = some job ∧
        (fireJob env i now s).jobs = s.jobs.set i { job with fired := true } := by
  unfold fireJob
  split
  · exact Or.inl rfl
  · next job hj =>
    split
    · exact Or.inl rfl
    · exact Or.inr ⟨job, hj, reminderCallback_jobs _ _ _ _⟩

theorem jobCancelled_step (env : Env) (s : State) (e : Event) (j : Nat)
    (h : JobCancelled s j) : JobCancelled (step env s e) j := by
  cases e with
  | callback q =>
    show JobCancelled (onCallbackQuery env q s) j
    cases onCallbackQuery_effect env q s with
    | unchanged h1 => exact jobCancelled_of_jobs (requestSide_components h1).2.2.2 h
    | service sv _ _ h1 =>
      rw [serviceCreate_eq] at h1
      exact jobCancelled_append _ (jobs_of_stores h1) h
    | offer o _ _ h1 =>
      rw [offerCreate_eq] at h1
      exact jobCancelled_append _ (jobs_of_stores h1) h
    | status action k r _ _ _ _ _ h1 =>
      rcases h1 with h1 | h1
      · exact jobCancelled_of_jobs (jobs_of_stores h1) h
      · rcases cancelReminder_jobs (statusWrite s k r (statusRequested action)) k with h2 | ⟨i, h2⟩
        · exact jobCancelled_of_jobs ((jobs_of_stores h1).trans h2) h
        · exact jobCancelled_cancelJob i ((jobs_of_stores h1).trans h2) h
  | message m =>
    show JobCancelled (processMessage env m s) j
    cases processMessage_effect env m s with
    | unchanged h1 => exact jobCancelled_of_jobs (requestSide_components h1).2.2.2 h
    | comment k r _ _ h1 => exact jobCancelled_of_jobs (requestSide_components h1).2.2.2 h
    | schedule k r time _ _ _ h1 =>
      obtain ⟨extra, hx⟩ := scheduleWrite_jobs m k r time s
      exact jobCancelled_append extra ((requestSide_components h1).2.2.2.trans hx) h
  | timer i now =>
    show JobCancelled (fireJob env i now s) j
    rcases fireJob_jobs env i now s with h1 | ⟨job, hi, h1⟩
    · exact jobCancelled_of_jobs h1 h
    · obtain ⟨jobj, hj, hcan⟩ := h
      refine ⟨if i = j then { jobj with fired := true } else jobj, ?_, ?_⟩
      · rw [h1]
        simp only [List.get?_eq_getElem?] at hj hi ⊢
        by_cases hij : i = j
        · subst hij
          rw [hi] at hj
          injection hj with hj
          subst hj
          have hlt : i < s.jobs.length := by
            by_contra hge
            rw [List.getElem?_eq_none (by omega)] at hi
            cases hi
          simp [List.getElem?_set_self, hlt]
        · simp [List.getElem?_set_ne hij, hij, hj]
      · split <;> simp [hcan]

theorem jobCancelled_run (env : Env) (events : List Event) (s : State) (j : Nat)
    (h : JobCancelled s j) : JobCancelled (run env s events) j := by
  induction events generalizing s with
  | nil => exact h
  | cons e rest ih => exact ih (step env s e) (jobCancelled_step env s e j h)

/-- A timer for a request that is absent or not pending sends nothing. -/
theorem fireJob_not_pending (env : Env) (j : Nat) (now : Int) (s : State) (job : Job)
    (hj : s.jobs.get? j = some job)
    (hst : statusOf s job.requestId ≠ some (some "pending".toList)) :
    (fireJob env j now s).sent = s.sent := by
  unfold fireJob
  rw [hj]
  dsimp only
  split
  · rfl
  · unfold reminderCallback
    dsimp only
    unfold statusOf at hst
    cases hr : mapGet s.repairRequests job.requestId with
    | none => rfl
    | some r =>
      rw [hr] at hst
      have hne : ¬ (r.status = some "pending".toList) := fun e => hst (by simp [e])
      dsimp only
      rw [if_neg hne]

theorem cancelReminder_recorded (s : State) (k : Int) (j : Nat)
    (hj : mapGet s.notifications k = some (some j)) :
    cancelReminder s k =
      { s with jobs := cancelJob s.jobs j, notifications := mapDelete s.notifications k } := by
  unfold cancelReminder
  rw [hj]

/-- C7 (refuted as stated). Request 5 is completed by the operator, which
cancels its reminder; the operator then sets it back to pending and assigns a
time, and the reminder armed for that time fires and writes to the owner. -/
theorem C7_later_reminder_still_sent :
    statusOf (run demoEnv State.empty
      [press 7 "service_1" 5, press 1 "status_5_completed" 10]) 5
        = some (some "completed".toList) ∧
    (run demoEnv State.empty
      [press 7 "service_1" 5, press 1 "status_5_completed" 10, press 1 "status_5_pending" 20,
       press 1 "schedule_5" 30, say 1 "01.01.2030 10:00" 40,
       .timer 1 92800000]).sent.getLast? = some (.sendMessage 7 (.reminder 5)) := by
  decide

/-- C7 (amended). When an operator's status callback for a request with a
recorded reminder is acknowledged, the reminder map has no entry for the
request any more and the recorded job is cancelled for good: after any later
events a timer for it changes nothing. A timer of any job for that request
sends nothing whenever the request's status at that moment is not pending;
the status right after the callback is the requested one. -/
theorem C7_status_callback_cancels_reminder (env : Env) (chat user now : Int) (rest : Str)
    (s : State) (k : Int) (r : RepairRequest) (j : Nat) (job : Job)
    (hk : statusTarget ("status_".toList ++ rest) = some k)
    (hr : mapGet s.repairRequests k = some r) (ha : isAdmin env user = true)
    (hj : mapGet s.notifications k = some (some j)) (hjob : s.jobs.get? j = some job)
    (hd : env.delivers s.sent.length = true) :
    let t := onCallbackQuery env ⟨chat, user, some ("status_".toList ++ rest), now⟩ s
    mapGet t.notifications k = none ∧
    t.jobs.get? j = some { job with cancelled := true } ∧
    (∀ (events : List Event) (time : Int),
      fireJob env j time (run env t events) = run env t events) ∧
    statusOf t k = some (statusRequested ("status_".toList ++ rest)) ∧
    (∀ (s2 : State) (j2 : Nat) (job2 : Job) (time : Int), s2.jobs.get? j2 = some job2 →
      job2.requestId = k → statusOf s2 k ≠ some (some "pending".toList) →
      (fireJob env j2 time s2).sent = s2.sent) := by
  have hst := (onCallbackQuery_stores env ⟨chat, user, some ("status_".toList ++ rest), now⟩ s).trans
    (callbackTry_stores env _ _ s rfl)
  rw [callbackBranches_status, statusBranch_stores, hk] at hst
  dsimp only at hst
  rw [hr] at hst
  dsimp only at hst
  rw [if_pos ha, if_pos hd, cancelReminder_recorded _ k j (by exact hj)] at hst
  have hjobs := jobs_of_stores hst
  have hnot := notifications_of_stores hst
  have hrr := repairRequests_of_stores hst
  simp only [State.stores, statusWrite] at hjobs hnot hrr
  have hget : (onCallbackQuery env ⟨chat, user, some ("status_".toList ++ rest), now⟩ s).jobs.get? j
      = some { job with cancelled := true } := by
    rw [hjobs, cancelJob_get _ _ _ _ hjob, if_pos rfl]
  dsimp only
  refine ⟨?_, hget, ?_, ?_, ?_⟩
  · rw [hnot, mapGet_mapDelete, if_pos rfl]
  · intro events time
    exact fireJob_cancelled env j time _ (jobCancelled_run env events _ j ⟨_, hget, rfl⟩)
  · unfold statusOf
    rw [hrr, mapGet_mapSet, if_pos rfl]
    rfl
  · intro s2 j2 job2 time hj2 hid hne
    exact fireJob_not_pending env j2 time s2 job2 hj2 (by rw [hid]; exact hne)

/-- C7, at a concrete run: request 5 of user 7 is completed by operator 1. -/
theorem C7_status_callback_cancels_reminder_witness :
    mapGet (onCallbackQuery demoEnv ⟨1, 1, some ("status_".toList ++ "5_completed".toList), 10⟩
      (run demoEnv State.empty [press 7 "service_1" 5])).notifications 5 = none :=
  (C7_status_callback_cancels_reminder demoEnv 1 1 10 "5_completed".toList
    (run demoEnv State.empty [press 7 "service_1" 5]) 5
    ⟨5, 7, "service_1".toList, some "pending".toList, 1500, 5, false, none, none⟩ 0
    ⟨7, 5, 86400005, false, false⟩ (by decide) (by decide) (by decide) (by decide) (by decide)
    (by decide)).1

/-- C8 (refuted as stated). After a creation and an assigned time the job
table holds two jobs for request 5, both scheduled and neither cancelled:
the one armed at creation and the one armed for the assigned time. -/
theorem C8_two_live_timers :
    (run demoEnv State.empty
      [press 7 "service_1" 5, press 1 "schedule_5" 30, say 1 "01.01.2030 10:00" 40]).jobs =
      [⟨7, 5, 86400005, false, false⟩, ⟨7, 5, 92800000, false, false⟩] := by
  decide

/-- C8 (amended). A second call of `scheduleReminder` for a request id, with
a time not in the past, leaves the reminder map with the job armed last as
its one entry for the id, and that job is scheduled; the job recorded before
(like any job `j0` of the table) is left in the job table as it was, so if it
was live it is still live and two live timers exist for the id. -/
theorem C8_second_reminder_keeps_first (s : State) (now userId requestId time : Int)
    (j0 : Nat) (hnow : now ≤ time) :
    let t := scheduleReminder s now userId requestId time
    mapGet t.notifications requestId = some (some s.jobs.length) ∧
    t.jobs.get? s.jobs.length = some ⟨userId, requestId, time, false, false⟩ ∧
    ((s.notifications.map Prod.fst).Nodup →
      (t.notifications.filter (fun e => decide (e.1 = requestId))).length = 1) ∧
    (∀ job0, s.jobs.get? j0 = some job0 → t.jobs.get? j0 = some job0 ∧ j0 ≠ s.jobs.length) ∧
    (JobLive s j0 → JobLive t j0 ∧ JobLive t s.jobs.length ∧ j0 ≠ s.jobs.length) := by
  have hfirst : ∀ job0, s.jobs.get? j0 = some job0 →
      (s.jobs ++ [(⟨userId, requestId, time, false, false⟩ : Job)]).get? j0 = some job0 ∧
        j0 ≠ s.jobs.length := by
    intro job0 h0
    simp only [List.get?_eq_getElem?] at h0 ⊢
    have hlt : j0 < s.jobs.length := by
      by_contra hge
      rw [List.getElem?_eq_none (by omega)] at h0
      cases h0
    exact ⟨by rw [List.getElem?_append_left hlt]; exact h0, by omega⟩
  have hnew : (s.jobs ++ [(⟨userId, requestId, time, false, false⟩ : Job)]).get? s.jobs.length
      = some ⟨userId, requestId, time, false, false⟩ := by
    simp
  dsimp only
  rw [scheduleReminder_ahead s now userId requestId time hnow]
  dsimp only
  refine ⟨?_, hnew, ?_, hfirst, ?_⟩
  · rw [mapGet_mapSet, if_pos rfl]
  · intro hnd
    exact count_key_mapSet s.notifications requestId _ hnd
  · rintro ⟨job0, h0, hc, hf⟩
    exact ⟨⟨job0, (hfirst job0 h0).1, hc, hf⟩, ⟨_, hnew, rfl, rfl⟩, (hfirst job0 h0).2⟩

/-- C8, at a concrete state: the reminder of request 5, armed at creation,
and a second reminder armed for the same request. -/
theorem C8_second_reminder_keeps_first_witness :
    (scheduleReminder (run demoEnv State.empty [press 7 "service_1" 5]) 40 7 5 92800000).jobs.get? 0
      = some ⟨7, 5, 86400005, false, false⟩ :=
  ((C8_second_reminder_keeps_first (run demoEnv State.empty [press 7 "service_1" 5])
    40 7 5 92800000 0 (by decide)).2.2.2.1 ⟨7, 5, 86400005, false, false⟩
      (by decide)).1

theorem ownedBy_of_requests {s t : State} (h : t.repairRequests = s.repairRequests)
    {id u : Int} (ho : OwnedBy s id u) : OwnedBy t id u := by
  unfold OwnedBy at *
  rw [h]; exact ho

theorem ownedBy_mapSet {s t : State} {id u : Int} (ho : OwnedBy s id u) (k : Int)
    (r r' : RepairRequest) (hr : mapGet s.repairRequests k = some r)
    (huser : r'.userId = r.userId)
    (h : t.repairRequests = mapSet s.repairRequests k r') : OwnedBy t id u := by
  obtain ⟨r0, h0, hu⟩ := ho
  unfold OwnedBy
  rw [h, mapGet_mapSet]
  by_cases hk : k = id
  · subst hk
    rw [if_pos rfl]
    rw [hr] at h0
    injection h0 with h0
    subst h0
    exact ⟨r', rfl, huser.trans hu⟩
  · rw [if_neg hk]
    exact ⟨r0, h0, hu⟩

theorem ownedBy_mapSet_other {s t : State} {id u : Int} (ho : OwnedBy s id u) (k : Int)
    (r' : RepairRequest) (hk : k ≠ id)
    (h : t.repairRequests = mapSet s.repairRequests k r') : OwnedBy t id u := by
  obtain ⟨r0, h0, hu⟩ := ho
  unfold OwnedBy
  rw [h, mapGet_mapSet, if_neg hk]
  exact ⟨r0, h0, hu⟩

theorem ownedBy_step (env : Env) (s : State) (e : Event) (id u : Int) (ho : OwnedBy s id u)
    (he : ∀ q, e = .callback q → isCreation q → q.now ≠ id) :
    OwnedBy (step env s e) id u := by
  cases e with
  | callback q =>
    show OwnedBy (onCallbackQuery env q s) id u
    cases onCallbackQuery_effect env q s with
    | unchanged h1 => exact ownedBy_of_requests (requestSide_components h1).1 ho
    | service sv hmem hdata h1 =>
      rw [serviceCreate_eq] at h1
      exact ownedBy_mapSet_other ho q.now _ (he q rfl (Or.inl ⟨sv, hmem, hdata⟩))
        (repairRequests_of_stores h1)
    | offer o hmem hdata h1 =>
      rw [offerCreate_eq] at h1
      exact ownedBy_mapSet_other ho q.now _ (he q rfl (Or.inr ⟨o, hmem, hdata⟩))
        (repairRequests_of_stores h1)
    | status action k r _ _ _ hr _ h1 =>
      refine ownedBy_mapSet ho k r { r with status := statusRequested action } hr rfl ?_
      rcases h1 with h1 | h1
      · exact repairRequests_of_stores h1
      · exact (repairRequests_of_stores h1).trans (cancelReminder_repairRequests _ _)
  | message m =>
    show OwnedBy (processMessage env m s) id u
    cases processMessage_effect env m s with
    | unchanged h1 => exact ownedBy_of_requests (requestSide_components h1).1 ho
    | comment k r hr _ h1 =>
      exact ownedBy_mapSet ho k r { r with comment := some (env.sanitizeHtml m.text) } hr rfl
        (requestSide_components h1).1
    | schedule k r time hr _ _ h1 =>
      exact ownedBy_mapSet ho k r { r with scheduledTime := some time } hr rfl
        ((requestSide_components h1).1.trans (scheduleWrite_repairRequests m k r time s))
  | timer j now =>
    exact ownedBy_of_requests (fireJob_collections env j now s).1 ho

theorem ownedBy_run (env : Env) (events : List Event) (s : State) (id u : Int)
    (ho : OwnedBy s id u)
    (he : ∀ q, Event.callback q ∈ events → isCreation q → q.now ≠ id) :
    OwnedBy (run env s events) id u := by
  induction events generalizing s with
  | nil => exact ho
  | cons e rest ih =>
    refine ih (step env s e) (ownedBy_step env s e id u ho ?_) ?_
    · intro q hq hc
      exact he q (by rw [hq]; exact List.mem_cons_self _ _) hc
    · intro q hq hc
      exact he q (List.mem_cons_of_mem _ hq) hc

/-- What a timer sends when its job is live and due: one reminder to the
user the job was armed for if the request is stored with status pending,
nothing otherwise. -/
theorem fireJob_live (env : Env) (j : Nat) (now : Int) (s : State) (job : Job)
    (hj : s.jobs.get? j = some job) (hc : job.cancelled = false) (hf : job.fired = false)
    (hdue : job.time ≤ now) :
    (fireJob env j now s).sent =
      if statusOf s job.requestId = some (some "pending".toList) then
        s.sent ++ [.sendMessage job.userId (.reminder job.requestId)]
      else s.sent := by
  by_cases hst : statusOf s job.requestId = some (some "pending".toList)
  · rw [if_pos hst]
    unfold fireJob
    rw [hj]
    dsimp only
    have hguard : ¬ ((job.cancelled || job.fired || decide (now < job.time)) = true) := by
      simp [hc, hf, hdue]
    rw [if_neg hguard]
    unfold reminderCallback
    dsimp only
    unfold statusOf at hst
    cases hr : mapGet s.repairRequests job.requestId with
    | none => rw [hr] at hst; cases hst
    | some r =>
      rw [hr] at hst
      have hp : r.status = some "pending".toList := by simpa using hst
      dsimp only
      rw [if_pos hp, finish_attempt]
      rfl
  · rw [if_neg hst]
    exact fireJob_not_pending env j now s job hj hst

theorem creation_arms (env : Env) (q : CallbackQuery) (s : State) (hq : isCreation q) :
    (onCallbackQuery env q s).jobs =
        s.jobs ++ [⟨q.userId, q.now, q.now + 86400000, false, false⟩] ∧
      OwnedBy (onCallbackQuery env q s) q.now q.userId := by
  obtain ⟨chat, user, data, now⟩ := q
  rcases hq with ⟨sv, hsv, hd⟩ | ⟨o, ho, hd⟩
  · simp only at hd
    subst hd
    have hst := onCallbackQuery_service env chat user now sv hsv s
    rw [serviceCreate_eq] at hst
    refine ⟨jobs_of_stores hst,
      ⟨now, user, sv.id, some "pending".toList, sv.price, now, false, none, none⟩, ?_, rfl⟩
    rw [repairRequests_of_stores hst]
    simp only [State.stores]
    rw [mapGet_mapSet, if_pos rfl]
  · simp only at hd
    subst hd
    have hst := onCallbackQuery_offer env chat user now o ho s
    rw [offerCreate_eq] at hst
    refine ⟨jobs_of_stores hst,
      ⟨now, user, o.id, some "pending".toList, o.price, now, true, none, none⟩, ?_, rfl⟩
    rw [repairRequests_of_stores hst]
    simp only [State.stores]
    rw [mapGet_mapSet, if_pos rfl]

/-- C9 (refuted as stated). Users 7 and 8 each create a request at clock
reading 5. The store then holds one request under the id 5, it belongs to
user 8 and is pending, and the reminder armed at the first creation is
still scheduled for user 7: when it fires one day later, its message goes to
user 7, who owns no request. -/
theorem C9_reminder_sent_to_first_creator :
    (mapGet (run demoEnv State.empty
      [press 7 "service_1" 5, press 8 "service_2" 5]).repairRequests 5).map
      (fun r => (r.userId, r.status)) = some (8, some "pending".toList) ∧
    (run demoEnv State.empty
      [press 7 "service_1" 5, press 8 "service_2" 5]).repairRequests.length = 1 ∧
    (run demoEnv State.empty
      [press 7 "service_1" 5, press 8 "service_2" 5]).jobs.get? 0 =
      some ⟨7, 5, 86400005, false, false⟩ ∧
    (run demoEnv State.empty
      [press 7 "service_1" 5, press 8 "service_2" 5, .timer 0 86400005]).sent =
    (run demoEnv State.empty
      [press 7 "service_1" 5, press 8 "service_2" 5]).sent ++
      [.sendMessage 7 (.reminder 5)] := by
  decide

/-- C9 (amended). The reminder armed at a creation is a job for the creating
user, due 24 hours later, and the request just stored belongs to that user.
When the job, still live after any later events, is run at or after its
time, exactly one reminder is sent to the creating user if a request is
stored under the id with status pending, and nothing is sent otherwise; the
run of the job changes no collection. If no later creation happened at the
same clock reading, a request is still stored under the id and the creating
user is its owner, so that the reminder goes to the owner of the request
exactly when that request is pending. -/
theorem C9_creation_reminder_fires (env : Env) (q : CallbackQuery) (s : State)
    (hq : isCreation q) (events : List Event) (time : Int)
    (hdue : q.now + 86400000 ≤ time) :
    let s1 := onCallbackQuery env q s
    let s2 := run env s1 events
    let t := fireJob env s.jobs.length time s2
    s1.jobs.get? s.jobs.length = some ⟨q.userId, q.now, q.now + 86400000, false, false⟩ ∧
    OwnedBy s1 q.now q.userId ∧
    (s2.jobs.get? s.jobs.length = some ⟨q.userId, q.now, q.now + 86400000, false, false⟩ →
      (statusOf s2 q.now = some (some "pending".toList) →
        t.sent = s2.sent ++ [.sendMessage q.userId (.reminder q.now)]) ∧
      (statusOf s2 q.now ≠ some (some "pending".toList) → t.sent = s2.sent)) ∧
    (t.repairRequests = s2.repairRequests ∧ t.userPoints = s2.userPoints ∧
      t.userSettings = s2.userSettings ∧ t.notifications = s2.notifications ∧
      t.cache = s2.cache) ∧
    ((∀ q', Event.callback q' ∈ events → isCreation q' → q'.now ≠ q.now) →
      ∃ r, mapGet s2.repairRequests q.now = some r ∧ r.userId = q.userId ∧
        (s2.jobs.get? s.jobs.length =
            some ⟨q.userId, q.now, q.now + 86400000, false, false⟩ →
          (r.status = some "pending".toList →
            t.sent = s2.sent ++ [.sendMessage r.userId (.reminder q.now)]) ∧
          (r.status ≠ some "pending".toList → t.sent = s2.sent))) := by
  obtain ⟨harm, hown⟩ := creation_arms env q s hq
  dsimp only
  have hfire : (run env (onCallbackQuery env q s) events).jobs.get? s.jobs.length =
      some ⟨q.userId, q.now, q.now + 86400000, false, false⟩ →
      (fireJob env s.jobs.length time (run env (onCallbackQuery env q s) events)).sent =
        if statusOf (run env (onCallbackQuery env q s) events) q.now =
            some (some "pending".toList) then
          (run env (onCallbackQuery env q s) events).sent ++
            [.sendMessage q.userId (.reminder q.now)]
        else (run env (onCallbackQuery env q s) events).sent := fun hlive =>
    fireJob_live env s.jobs.length time (run env (onCallbackQuery env q s) events)
      ⟨q.userId, q.now, q.now + 86400000, false, false⟩ hlive rfl rfl hdue
  refine ⟨?_, hown, ?_, fireJob_collections env _ time _, ?_⟩
  · rw [harm]; simp
  · intro hlive
    constructor
    · intro hp
      rw [hfire hlive, if_pos hp]
    · intro hp
      rw [hfire hlive, if_neg hp]
  · intro hfresh
    obtain ⟨r, hr, hu⟩ := ownedBy_run env events _ q.now q.userId hown hfresh
    refine ⟨r, hr, hu, ?_⟩
    intro hlive
    have hst : statusOf (run env (onCallbackQuery env q s) events) q.now = some r.status := by
      unfold statusOf
      rw [hr]
      rfl
    constructor
    · intro hp
      rw [hfire hlive, if_pos (by rw [hst, hp]), hu]
    · intro hp
      rw [hfire hlive, if_neg (by rw [hst]; intro h; exact hp (Option.some.inj h))]

/-- C9, at a concrete run: user 7 creates request 5, the operator looks at
it, and the reminder fires one day later while the request is pending. No
other request was created at reading 5, and the reminder goes to user 7. -/
theorem C9_creation_reminder_fires_witness :
    (fireJob demoEnv 0 86400005
        (run demoEnv (onCallbackQuery demoEnv ⟨7, 7, some "service_1".toList, 5⟩ State.empty)
          [press 1 "update_5" 10])).sent =
      (run demoEnv (onCallbackQuery demoEnv ⟨7, 7, some "service_1".toList, 5⟩ State.empty)
          [press 1 "update_5" 10]).sent ++ [.sendMessage 7 (.reminder 5)] ∧
    ∃ r, mapGet (run demoEnv
        (onCallbackQuery demoEnv ⟨7, 7, some "service_1".toList, 5⟩ State.empty)
          [press 1 "update_5" 10]).repairRequests 5 = some r ∧ r.userId = 7 :=
  have h := C9_creation_reminder_fires demoEnv ⟨7, 7, some "service_1".toList, 5⟩ State.empty
    (Or.inl ⟨⟨"service_1".toList, 1500⟩, by decide, rfl⟩) [press 1 "update_5" 10]
    86400005 (by decide)
  ⟨(h.2.2.1 (by decide)).1 (by decide),
    (h.2.2.2.2 (by
      intro q' hq' _
      rw [List.mem_singleton] at hq'
      have hnow : q'.now = 10 := by
        injection hq' with hq'
        rw [hq']
      rw [hnow]
      decide)).imp (fun _ hr => ⟨hr.1, hr.2.1⟩)⟩

theorem replaceFirst_leading (pat rep rest : Str) :
    replaceFirst pat rep (pat ++ rest) = rep ++ rest := by
  cases pat with
  | nil =>
    cases rest with
    | nil => simp [replaceFirst]
    | cons c cs => simp [replaceFirst]
  | cons p ps =>
    have hpre : (p :: ps).isPrefixOf (p :: (ps ++ rest)) = true := by
      rw [List.isPrefixOf_iff_prefix]
      exact List.prefix_append (p :: ps) rest
    show replaceFirst (p :: ps) rep (p :: (ps ++ rest)) = rep ++ rest
    unfold replaceFirst
    rw [if_pos hpre]
    have hdrop : (p :: (ps ++ rest)).drop (p :: ps).length = rest :=
      List.drop_left (p :: ps) rest
    rw [hdrop]

theorem schedule_state_literal (rest : Str) :
    "awaiting_schedule_".toList ++ rest =
      'a' :: 'w' :: 'a' :: 'i' :: 't' :: 'i' :: 'n' :: 'g' :: '_' :: 's' :: 'c' :: 'h' :: 'e' ::
        'd' :: 'u' :: 'l' :: 'e' :: '_' :: rest := rfl

theorem messageTry_schedule (env : Env) (m : Message) (rest : Str) (s : State) :
    messageTry env m ("awaiting_schedule_".toList ++ rest) s =
      awaitingScheduleBranch env m ("awaiting_schedule_".toList ++ rest) s := by
  rw [schedule_state_literal]
  simp [messageTry, startsWith, String.toList]

/-- The request side after a message that assigns a valid time: the
conversation awaits a time for the stored request `k`, the sender is an
operator and the text parses. -/
theorem onMessage_schedule (env : Env) (m : Message) (s : State) (rest : Str) (expiry : Int)
    (k : Int) (r : RepairRequest) (time : Int)
    (hcache : mapGet s.cache m.chatId = some ("awaiting_schedule_".toList ++ rest, expiry))
    (hexp : m.now ≤ expiry) (hparse : parseInt rest = some k)
    (hr : mapGet s.repairRequests k = some r) (ha : isAdmin env m.userId = true)
    (htime : env.momentParse m.text = some time) :
    (onMessage env m s).requestSide = (scheduleWrite m k r time s).requestSide := by
  have hget : cacheGet s m.now m.chatId = (s, some ("awaiting_schedule_".toList ++ rest)) := by
    unfold cacheGet
    rw [hcache]
    dsimp only
    rw [if_neg (by omega)]
  unfold onMessage
  rw [hget]
  dsimp only
  have hne : ¬ ("awaiting_schedule_".toList ++ rest = []) := by
    rw [schedule_state_literal]; simp
  rw [if_neg hne, messageTry_schedule]
  unfold awaitingScheduleBranch
  rw [replaceFirst_leading, List.nil_append, hparse]
  dsimp only
  rw [hr]
  dsimp only
  rw [if_pos ha, htime]
  dsimp only
  have hall := requestSide_attemptAll env (scheduleWrite m k r time s)
    [.sendMessage r.userId (.timeAssigned k time), .sendMessage m.chatId .timeAssignedAck]
  cases hres : attemptAll env (scheduleWrite m k r time s)
    [.sendMessage r.userId (.timeAssigned k time), .sendMessage m.chatId .timeAssignedAck] with
  | ok s3 =>
    rw [hres] at hall
    exact hall
  | error s3 =>
    rw [hres] at hall
    dsimp only
    rw [messageCatch_requestSide]
    exact hall

/-- C10 (refuted as stated). The pre-schedule reminder of a request that is
in progress sends nothing when it fires: in a run where the operator presses
the in-progress button and then assigns a time, and in a state whose stored
status is the text `in_progress` itself. -/
theorem C10_in_progress_not_reminded :
    (fireJob demoEnv 1 92800000 (run demoEnv State.empty
      [press 7 "service_1" 5, press 1 "status_5_in_progress" 10, press 1 "schedule_5" 30,
       say 1 "01.01.2030 10:00" 40])).sent =
      (run demoEnv State.empty
      [press 7 "service_1" 5, press 1 "status_5_in_progress" 10, press 1 "schedule_5" 30,
       say 1 "01.01.2030 10:00" 40]).sent ∧
    (run demoEnv State.empty
      [press 7 "service_1" 5, press 1 "status_5_in_progress" 10, press 1 "schedule_5" 30,
       say 1 "01.01.2030 10:00" 40]).jobs.get? 1 = some ⟨7, 5, 92800000, false, false⟩ ∧
    (fireJob demoEnv 0 92800000 inProgressState).jobs = [⟨7, 5, 92800000, false, true⟩] ∧
    (fireJob demoEnv 0 92800000 inProgressState).sent = [] := by
  decide

/-- C10 (amended). A message that assigns a valid time more than two hours
ahead arms, for the owner of the request, a job due two hours before the
assigned time and records it for the request. When that job, still live, is
run at or after its time, one reminder is sent to the owner exactly when the
request's status is pending; for in_progress, completed, cancelled or any
other status nothing is sent. -/
theorem C10_schedule_reminder_fires (env : Env) (m : Message) (s : State) (rest : Str)
    (expiry : Int) (k : Int) (r : RepairRequest) (time : Int)
    (hcache : mapGet s.cache m.chatId = some ("awaiting_schedule_".toList ++ rest, expiry))
    (hexp : m.now ≤ expiry) (hparse : parseInt rest = some k)
    (hr : mapGet s.repairRequests k = some r) (ha : isAdmin env m.userId = true)
    (htime : env.momentParse m.text = some time) (hahead : m.now < time - 7200000) :
    let s1 := onMessage env m s
    s1.jobs.get? s.jobs.length = some ⟨r.userId, k, time - 7200000, false, false⟩ ∧
    mapGet s1.notifications k = some (some s.jobs.length) ∧
    ∀ (s2 : State) (now : Int),
      s2.jobs.get? s.jobs.length = some ⟨r.userId, k, time - 7200000, false, false⟩ →
      time - 7200000 ≤ now →
      (fireJob env s.jobs.length now s2).sent =
        if statusOf s2 k = some (some "pending".toList) then
          s2.sent ++ [.sendMessage r.userId (.reminder k)]
        else s2.sent := by
  have hside := onMessage_schedule env m s rest expiry k r time hcache hexp hparse hr ha htime
  have hw : scheduleWrite m k r time s =
      scheduleReminder
        { s with repairRequests :=
            mapSet s.repairRequests k { r with scheduledTime := some time } }
        m.now r.userId k (time - 7200000) := by
    unfold scheduleWrite
    dsimp only
    rw [if_pos hahead]
  rw [hw, scheduleReminder_ahead _ _ _ _ _ (le_of_lt hahead)] at hside
  obtain ⟨_, _, hnot, hjobs⟩ := requestSide_components hside
  dsimp only at hnot hjobs ⊢
  refine ⟨?_, ?_, ?_⟩
  · rw [hjobs]; simp
  · rw [hnot, mapGet_mapSet, if_pos rfl]
  · intro s2 now hlive hdue
    exact fireJob_live env s.jobs.length now s2 ⟨r.userId, k, time - 7200000, false, false⟩
      hlive rfl rfl hdue

/-- C10, at a concrete run: the operator assigns a time to the pending
request 5, and the reminder armed for two hours before fires. -/
theorem C10_schedule_reminder_fires_witness :
    (fireJob demoEnv 1 92800000
        (onMessage demoEnv ⟨1, 1, some "01.01.2030 10:00".toList, 40⟩ awaitingTimeState)).sent =
      (onMessage demoEnv ⟨1, 1, some "01.01.2030 10:00".toList, 40⟩ awaitingTimeState).sent ++
        [.sendMessage 7 (.reminder 5)] :=
  ((C10_schedule_reminder_fires demoEnv ⟨1, 1, some "01.01.2030 10:00".toList, 40⟩
    awaitingTimeState ['5'] 3600030 5
    ⟨5, 7, "service_1".toList, some "pending".toList, 1500, 5, false, none, none⟩ 100000000
    (by decide) (by decide) (by decide) (by decide) (by decide) (by decide) (by decide)).2.2
    (onMessage demoEnv ⟨1, 1, some "01.01.2030 10:00".toList, 40⟩ awaitingTimeState) 92800000
    (by decide) (by decide)).trans (if_pos (by decide))

/-! ## The rate limiter and the ledger (C11, C12, C13, C14) -/

/-- When `rateLimit` accepts: no record, the recorded time 0, or a recorded
time more than 2000 ms back. -/
theorem rateLimit_accepts (m : List (Int × Int)) (k now : Int) :
    (rateLimit m k now).1 = true ↔
      (mapGet m k = none ∨ mapGet m k = some 0 ∨
        ∃ l, mapGet m k = some l ∧ now - l > 2000) := by
  unfold rateLimit
  dsimp only
  cases h : mapGet m k with
  | none => simp [isFalsy]
  | some l =>
    by_cases h0 : l = 0
    · subst h0; simp [isFalsy]
    · by_cases hw : now - l > 2000
      · simp [isFalsy, h0, hw]
      · simp [isFalsy, h0, hw]

theorem rateLimit_store (m : List (Int × Int)) (k now : Int) :
    (rateLimit m k now).2 = if (rateLimit m k now).1 = true then mapSet m k now else m := by
  unfold rateLimit
  dsimp only
  split <;> simp

/-- C11 (the code departs from the claim). A call at clock reading 0 is
accepted and records 0; the next call for the same key one millisecond
later is accepted too, although a record exists and the difference is not
greater than 2000. -/
theorem C11_record_zero_reads_as_absent :
    rateLimit [] 7 0 = (true, [(7, 0)]) ∧
    rateLimit [(7, 0)] 7 1 = (true, [(7, 1)]) ∧
    mapGet [((7 : Int), (0 : Int))] 7 = some 0 ∧
    ¬ ((1 : Int) - 0 > 2000) := by
  decide

theorem rateLimitCalls_rejected (k : Int) (calls : List (Int × Int)) (m : List (Int × Int))
    (h : RejectedOn k m calls) : mapGet (rateLimitCalls m calls) k = mapGet m k := by
  induction calls generalizing m with
  | nil => rfl
  | cons c rest ih =>
    obtain ⟨k', now⟩ := c
    obtain ⟨h1, h2⟩ := h
    show mapGet (rateLimitCalls (rateLimit m k' now).2 rest) k = mapGet m k
    rw [ih _ h2, rateLimit_store]
    by_cases hk : k' = k
    · rw [h1 hk]; simp
    · split
      · rw [mapGet_mapSet, if_neg hk]
      · rfl

/-- C12. A call that returns false leaves the collection as it was; every
call leaves the records of the other keys as they were; and after a call for
a key was accepted at time `t`, whatever calls follow, if those for the key
are all rejected then a call for it later than `t + 2000` is accepted. -/
theorem C12_rejected_calls_change_nothing (m : List (Int × Int)) (k now : Int) :
    ((rateLimit m k now).1 = false → (rateLimit m k now).2 = m) ∧
    (∀ k', k' ≠ k → mapGet (rateLimit m k now).2 k' = mapGet m k') ∧
    (∀ (calls : List (Int × Int)) (later : Int), (rateLimit m k now).1 = true →
      RejectedOn k (rateLimit m k now).2 calls → now + 2000 < later →
      (rateLimit (rateLimitCalls (rateLimit m k now).2 calls) k later).1 = true) := by
  refine ⟨?_, ?_, ?_⟩
  · intro h
    rw [rateLimit_store, h]; simp
  · intro k' hk
    rw [rateLimit_store]
    split
    · rw [mapGet_mapSet, if_neg (Ne.symm hk)]
    · rfl
  · intro calls later hacc hrej hlater
    rw [rateLimit_accepts, rateLimitCalls_rejected k calls _ hrej, rateLimit_store, hacc]
    simp only [if_true, mapGet_mapSet]
    right; right
    exact ⟨now, rfl, by omega⟩

/-- C12, at a concrete run: a call accepted at 1000, one rejected at 2000,
and the call at 3001 is accepted. -/
theorem C12_rejected_calls_change_nothing_witness :
    (rateLimit [] 7 1000).1 = true ∧ (rateLimit [(7, 1000)] 7 2000).1 = false ∧
    (rateLimit (rateLimitCalls (rateLimit [] 7 1000).2 [(7, 2000)]) 7 3001).1 = true :=
  ⟨by decide, by decide,
    (C12_rejected_calls_change_nothing [] 7 1000).2.2 [(7, 2000)] 3001 (by decide)
      ⟨fun _ => by decide, trivial⟩ (by decide)⟩

/-- C13. `getUserPoints` is 0 for a user without an entry; after
`addUserPoints(u, p, reason)` the balance of `u` is the balance before plus
`p`, which is also the value returned, and every other balance is as before. -/
theorem C13_points_ledger (s : State) (u p : Int) :
    (mapGet s.userPoints u = none → getUserPoints s u = 0) ∧
    getUserPoints (addUserPoints s u p).1 u = getUserPoints s u + p ∧
    getUserPoints (addUserPoints s u p).1 u = (addUserPoints s u p).2 ∧
    (∀ v, v ≠ u → getUserPoints (addUserPoints s u p).1 v = getUserPoints s v) := by
  refine ⟨?_, ?_, ?_, ?_⟩
  · intro h
    unfold getUserPoints
    rw [h]; rfl
  · unfold addUserPoints getUserPoints
    dsimp only
    rw [mapGet_mapSet, if_pos rfl]; rfl
  · unfold addUserPoints getUserPoints
    dsimp only
    rw [mapGet_mapSet, if_pos rfl]; rfl
  · intro v hv
    unfold addUserPoints getUserPoints
    dsimp only
    rw [mapGet_mapSet, if_neg (Ne.symm hv)]

theorem catalogue_points_nonneg :
    (∀ sv ∈ repairServices, 0 ≤ mathFloorTenth sv.price) ∧
      (∀ o ∈ specialOffers, 0 ≤ o.points) := by
  constructor
  · intro sv hsv
    unfold mathFloorTenth
    apply Int.floor_nonneg.mpr
    have hp : (0 : Int) ≤ sv.price := by
      simp only [repairServices, List.mem_cons, List.mem_singleton, List.not_mem_nil,
        or_false] at hsv
      rcases hsv with rfl | rfl | rfl | rfl | rfl | rfl <;> decide
    have : (0 : ℚ) ≤ (sv.price : ℚ) := by exact_mod_cast hp
    positivity
  · intro o ho
    simp only [specialOffers, List.mem_cons, List.mem_singleton, List.not_mem_nil,
      or_false] at ho
    rcases ho with rfl | rfl | rfl <;> decide

theorem getUserPoints_credit (m : List (Int × Int)) (user pts u : Int) (hp : 0 ≤ pts)
    (s t : State) (hs : s.userPoints = m)
    (ht : t.userPoints = mapSet m user (getUserPoints s user + pts)) :
    getUserPoints s u ≤ getUserPoints t u := by
  unfold getUserPoints at *
  rw [ht, mapGet_mapSet, hs]
  by_cases hu : user = u
  · subst hu
    rw [if_pos rfl]
    simp only [Option.getD_some]
    omega
  · rw [if_neg hu]

theorem status_userPoints {s t : State} {k : Int} {r : RepairRequest} {st : Option Str}
    (h : t.stores = (statusWrite s k r st).stores ∨
      t.stores = (cancelReminder (statusWrite s k r st) k).stores) :
    t.userPoints = s.userPoints := by
  rcases h with h | h
  · exact (userPoints_of_stores h).trans rfl
  · refine (userPoints_of_stores h).trans ?_
    unfold cancelReminder
    split <;> rfl

theorem scheduleWrite_userPoints (m : Message) (k : Int) (r : RepairRequest) (time : Int)
    (s : State) : (scheduleWrite m k r time s).userPoints = s.userPoints := by
  unfold scheduleWrite scheduleReminder scheduleJob
  dsimp only
  split
  · split <;> rfl
  · rfl

/-- How one event can change the ledger: not at all, or by a credit of a
non-negative number of points to one user. -/
theorem userPoints_step (env : Env) (s : State) (e : Event) :
    (step env s e).userPoints = s.userPoints ∨
      ∃ user pts, 0 ≤ pts ∧
        (step env s e).userPoints = mapSet s.userPoints user (getUserPoints s user + pts) := by
  cases e with
  | callback q =>
    show (onCallbackQuery env q s).userPoints = s.userPoints ∨ _
    cases onCallbackQuery_effect env q s with
    | unchanged h1 => exact Or.inl (requestSide_components h1).2.1
    | service sv hmem _ h1 =>
      rw [serviceCreate_eq] at h1
      exact Or.inr ⟨q.userId, mathFloorTenth sv.price, catalogue_points_nonneg.1 sv hmem,
        userPoints_of_stores h1⟩
    | offer o hmem _ h1 =>
      rw [offerCreate_eq] at h1
      exact Or.inr ⟨q.userId, o.points, catalogue_points_nonneg.2 o hmem,
        userPoints_of_stores h1⟩
    | status action k r _ _ _ _ _ h1 => exact Or.inl (status_userPoints h1)
  | message m =>
    show (processMessage env m s).userPoints = s.userPoints ∨ _
    cases processMessage_effect env m s with
    | unchanged h1 => exact Or.inl (requestSide_components h1).2.1
    | comment k r _ _ h1 => exact Or.inl (requestSide_components h1).2.1
    | schedule k r time _ _ _ h1 =>
      exact Or.inl ((requestSide_components h1).2.1.trans (scheduleWrite_userPoints m k r time s))
  | timer j now =>
    exact Or.inl (fireJob_collections env j now s).2.1

theorem getUserPoints_step (env : Env) (s : State) (e : Event) (u : Int) :
    getUserPoints s u ≤ getUserPoints (step env s e) u := by
  rcases userPoints_step env s e with h | ⟨user, pts, hp, h⟩
  · unfold getUserPoints
    rw [h]
  · exact getUserPoints_credit s.userPoints user pts u hp s _ rfl h

theorem pointsNonneg_step (env : Env) (s : State) (e : Event)
    (h : ∀ entry ∈ s.userPoints, 0 ≤ entry.2) :
    ∀ entry ∈ (step env s e).userPoints, 0 ≤ entry.2 := by
  have hget : ∀ u, 0 ≤ getUserPoints s u := by
    intro u
    unfold getUserPoints
    cases hg : mapGet s.userPoints u with
    | none => simp
    | some v => exact h (u, v) (mapGet_some_mem _ _ _ hg)
  rcases userPoints_step env s e with h1 | ⟨user, pts, hp, h1⟩
  · rw [h1]; exact h
  · rw [h1]
    intro entry he
    rcases mem_mapSet _ _ _ _ he with h2 | h2
    · rw [h2]
      have := hget user
      show 0 ≤ getUserPoints s user + pts
      omega
    · exact h entry h2

/-- C14. No inbound event, callback, message or timer, lowers the loyalty
balance of any user, and in every state reachable from the empty store every
balance is non-negative. -/
theorem C14_balances_never_decrease (env : Env) :
    (∀ (s : State) (e : Event) (u : Int), getUserPoints s u ≤ getUserPoints (step env s e) u) ∧
    (∀ (events : List Event) (u : Int), 0 ≤ getUserPoints (run env State.empty events) u) ∧
    (∀ (events : List Event), ∀ entry ∈ (run env State.empty events).userPoints,
      0 ≤ entry.2) := by
  have mono : ∀ (events : List Event) (s : State) (u : Int),
      getUserPoints s u ≤ getUserPoints (run env s events) u := by
    intro events
    induction events with
    | nil => intro s u; exact le_refl _
    | cons e rest ih =>
      intro s u
      exact le_trans (getUserPoints_step env s e u) (ih (step env s e) u)
  have inv : ∀ (events : List Event) (s : State), (∀ entry ∈ s.userPoints, 0 ≤ entry.2) →
      ∀ entry ∈ (run env s events).userPoints, 0 ≤ entry.2 := by
    intro events
    induction events with
    | nil => intro s hs; exact hs
    | cons e rest ih =>
      intro s hs
      exact ih (step env s e) (pointsNonneg_step env s e hs)
  exact ⟨getUserPoints_step env, fun events u => mono events State.empty u,
    fun events => inv events State.empty (fun entry he => by cases he)⟩

/-! ## Platform failures and operator input (C15, C16, C17, C18, C19) -/

/-- C15 (the code departs from the claim). Operator 1 completes request 5,
and the acknowledgement that the handler awaits right after the status write
is rejected: the new status is recorded, but the reminder of the request is
still in the reminder map and its job is still scheduled. When the
acknowledgement resolves, the same run removes the entry and cancels the job. -/
theorem C15_status_written_reminder_kept :
    statusOf (run (flakyEnv 3) State.empty
      [press 7 "service_1" 5, press 1 "status_5_completed" 10]) 5
        = some (some "completed".toList) ∧
    mapGet (run (flakyEnv 3) State.empty
      [press 7 "service_1" 5, press 1 "status_5_completed" 10]).notifications 5
        = some (some 0) ∧
    (run (flakyEnv 3) State.empty
      [press 7 "service_1" 5, press 1 "status_5_completed" 10]).jobs
        = [⟨7, 5, 86400005, false, false⟩] ∧
    (run (flakyEnv 3) State.empty [press 7 "service_1" 5]).sent.length = 3 ∧
    mapGet (run demoEnv State.empty
      [press 7 "service_1" 5, press 1 "status_5_completed" 10]).notifications 5 = none ∧
    (run demoEnv State.empty
      [press 7 "service_1" 5, press 1 "status_5_completed" 10]).jobs
        = [⟨7, 5, 86400005, true, false⟩] := by
  decide

theorem onMessage_active (env : Env) (m : Message) (s : State) (st : Str) (expiry : Int)
    (hcache : mapGet s.cache m.chatId = some (st, expiry)) (hexp : m.now ≤ expiry)
    (hne : st ≠ []) :
    onMessage env m s =
      match messageTry env m st s with
      | .ok s1 => s1
      | .error s1 => messageCatch env m s1 := by
  have hget : cacheGet s m.now m.chatId = (s, some st) := by
    unfold cacheGet
    rw [hcache]
    dsimp only
    rw [if_neg (by omega)]
  unfold onMessage
  rw [hget]
  dsimp only
  rw [if_neg hne]

theorem onMessage_expired (env : Env) (m : Message) (s : State) (st : Str) (expiry : Int)
    (hcache : mapGet s.cache m.chatId = some (st, expiry)) (hexp : expiry < m.now) :
    onMessage env m s = { s with cache := mapDelete s.cache m.chatId } := by
  have hget : cacheGet s m.now m.chatId =
      ({ s with cache := mapDelete s.cache m.chatId }, none) := by
    unfold cacheGet
    rw [hcache]
    dsimp only
    rw [if_pos hexp]
  unfold onMessage
  rw [hget]

theorem comment_state_literal (rest : Str) :
    "awaiting_comment_".toList ++ rest =
      'a' :: 'w' :: 'a' :: 'i' :: 't' :: 'i' :: 'n' :: 'g' :: '_' :: 'c' :: 'o' :: 'm' :: 'm' ::
        'e' :: 'n' :: 't' :: '_' :: rest := rfl

theorem messageTry_comment (env : Env) (m : Message) (rest : Str) (s : State) :
    messageTry env m ("awaiting_comment_".toList ++ rest) s =
      awaitingCommentBranch env m ("awaiting_comment_".toList ++ rest) s := by
  rw [comment_state_literal]
  simp [messageTry, startsWith, String.toList]

/-- The request side after the comment branch. -/
theorem awaitingCommentBranch_requestSide (env : Env) (m : Message) (rest : Str) (s : State) :
    (finish (awaitingCommentBranch env m ("awaiting_comment_".toList ++ rest) s)).requestSide =
      match parseInt rest with
      | none => s.requestSide
      | some k =>
        match mapGet s.repairRequests k with
        | none => s.requestSide
        | some r =>
          if isAdmin env m.userId = true then (commentWrite env m k r s).requestSide
          else s.requestSide := by
  unfold awaitingCommentBranch
  rw [replaceFirst_leading, List.nil_append]
  cases parseInt rest with
  | none => rfl
  | some k =>
    dsimp only
    cases mapGet s.repairRequests k with
    | none => rfl
    | some r =>
      dsimp only
      by_cases ha : isAdmin env m.userId = true
      · rw [if_pos ha, if_pos ha]
        split
        · next s2 h => rw [attempt_error h]; rfl
        · next s2 h => rw [attempt_ok h]; rfl
      · rw [if_neg ha, if_neg ha]; rfl

/-- The request side after the schedule branch. -/
theorem awaitingScheduleBranch_requestSide (env : Env) (m : Message) (rest : Str) (s : State) :
    (finish (awaitingScheduleBranch env m ("awaiting_schedule_".toList ++ rest) s)).requestSide =
      match parseInt rest with
      | none => s.requestSide
      | some k =>
        match mapGet s.repairRequests k with
        | none => s.requestSide
        | some r =>
          if isAdmin env m.userId = true then
            match env.momentParse m.text with
            | some time => (scheduleWrite m k r time s).requestSide
            | none => s.requestSide
          else s.requestSide := by
  unfold awaitingScheduleBranch
  rw [replaceFirst_leading, List.nil_append]
  cases parseInt rest with
  | none => rfl
  | some k =>
    dsimp only
    cases mapGet s.repairRequests k with
    | none => rfl
    | some r =>
      dsimp only
      by_cases ha : isAdmin env m.userId = true
      · rw [if_pos ha, if_pos ha]
        cases env.momentParse m.text with
        | none => exact requestSide_attempt _ _ _
        | some time =>
          dsimp only
          have hall := requestSide_attemptAll env (scheduleWrite m k r time s)
            [.sendMessage r.userId (.timeAssigned k time), .sendMessage m.chatId .timeAssignedAck]
          split
          · next s3 h => rw [h] at hall; exact hall
          · next s3 h => rw [h] at hall; exact hall
      · rw [if_neg ha, if_neg ha]; rfl

/-- The request side after a message, in terms of the `try` body: nothing
changes unless the conversation state is present and not expired. -/
theorem onMessage_requestSide (env : Env) (m : Message) (s : State) (st : Str) (expiry : Int)
    (hcache : mapGet s.cache m.chatId = some (st, expiry)) :
    (onMessage env m s).requestSide = s.requestSide ∨
      (onMessage env m s).requestSide = (finish (messageTry env m st s)).requestSide := by
  by_cases hexp : m.now ≤ expiry
  · by_cases hne : st = []
    · left
      unfold onMessage
      have hget : cacheGet s m.now m.chatId = (s, some st) := by
        unfold cacheGet
        rw [hcache]
        dsimp only
        rw [if_neg (by omega)]
      rw [hget]
      dsimp only
      rw [if_pos hne]
    · right
      rw [onMessage_active env m s st expiry hcache hexp hne]
      cases messageTry env m st s with
      | ok s1 => rfl
      | error s1 => exact messageCatch_requestSide env m s1
  · left
    rw [onMessage_expired env m s st expiry hcache (by omega)]
    rfl

theorem onMessage_comment (env : Env) (m : Message) (s : State) (rest : Str) (expiry : Int)
    (k : Int) (r : RepairRequest)
    (hcache : mapGet s.cache m.chatId = some ("awaiting_comment_".toList ++ rest, expiry))
    (hexp : m.now ≤ expiry) (hparse : parseInt rest = some k)
    (hr : mapGet s.repairRequests k = some r) (ha : isAdmin env m.userId = true) :
    (onMessage env m s).requestSide = (commentWrite env m k r s).requestSide := by
  have hne : "awaiting_comment_".toList ++ rest ≠ [] := by
    rw [comment_state_literal]; simp
  rw [onMessage_active env m s _ expiry hcache hexp hne]
  have hb := awaitingCommentBranch_requestSide env m rest s
  rw [hparse] at hb
  dsimp only at hb
  rw [hr] at hb
  dsimp only at hb
  rw [if_pos ha] at hb
  rw [messageTry_comment]
  cases hres : awaitingCommentBranch env m ("awaiting_comment_".toList ++ rest) s with
  | ok s1 => rw [hres] at hb; exact hb
  | error s1 =>
    rw [hres] at hb
    dsimp only
    rw [messageCatch_requestSide]
    exact hb

/-- C16 (refuted as stated). Request 5 is completed; the operator then adds
a comment and assigns a time, and both are recorded on the completed
request. -/
theorem C16_completed_request_edited :
    (mapGet (run demoEnv State.empty
      [press 7 "service_1" 5, press 1 "status_5_completed" 10, press 1 "comment_5" 20,
       say 1 "late note" 30, press 1 "schedule_5" 40,
       say 1 "01.01.2030 10:00" 50]).repairRequests 5) =
      some ⟨5, 7, "service_1".toList, some "completed".toList, 1500, 5, false,
        some "late note".toList, some 100000000⟩ ∧
    (mapGet (run demoEnv State.empty
      [press 7 "service_1" 5, press 1 "status_5_completed" 10]).repairRequests 5) =
      some ⟨5, 7, "service_1".toList, some "completed".toList, 1500, 5, false, none, none⟩ := by
  decide

/-- C16 (amended). A message changes no request when its sender is not an
operator, and it never brings a request into being. When the conversation
awaits a comment, or a time, for a stored request and the sender is an
operator, the comment is set to the sanitised text, and the time to the
parsed one, whatever the status of the request. -/
theorem C16_comment_schedule_need_operator (env : Env) (m : Message) (s : State) :
    (isAdmin env m.userId = false →
      (onMessage env m s).repairRequests = s.repairRequests) ∧
    (∀ id, mapGet s.repairRequests id = none →
      mapGet (onMessage env m s).repairRequests id = none) ∧
    (∀ (rest : Str) (expiry k : Int) (r : RepairRequest),
      mapGet s.cache m.chatId = some ("awaiting_comment_".toList ++ rest, expiry) →
      m.now ≤ expiry → parseInt rest = some k → mapGet s.repairRequests k = some r →
      isAdmin env m.userId = true →
      mapGet (onMessage env m s).repairRequests k =
        some { r with comment := some (env.sanitizeHtml m.text) }) ∧
    (∀ (rest : Str) (expiry k : Int) (r : RepairRequest) (time : Int),
      mapGet s.cache m.chatId = some ("awaiting_schedule_".toList ++ rest, expiry) →
      m.now ≤ expiry → parseInt rest = some k → mapGet s.repairRequests k = some r →
      isAdmin env m.userId = true → env.momentParse m.text = some time →
      mapGet (onMessage env m s).repairRequests k =
        some { r with scheduledTime := some time }) := by
  refine ⟨?_, ?_, ?_, ?_⟩
  · intro hna
    have hna' : ¬ (isAdmin env m.userId = true) := by rw [hna]; decide
    cases onMessage_effect env m s with
    | unchanged h1 => exact (requestSide_components h1).1
    | comment k r _ ha _ => exact absurd ha hna'
    | schedule k r time _ ha _ _ => exact absurd ha hna'
  · intro id hid
    cases onMessage_effect env m s with
    | unchanged h1 => rw [(requestSide_components h1).1]; exact hid
    | comment k r hr _ h1 =>
      have hk : k ≠ id := by
        intro e; rw [e, hid] at hr; cases hr
      rw [(requestSide_components h1).1]
      show mapGet (mapSet s.repairRequests k _) id = none
      rw [mapGet_mapSet, if_neg hk]; exact hid
    | schedule k r time hr _ _ h1 =>
      have hk : k ≠ id := by
        intro e; rw [e, hid] at hr; cases hr
      rw [(requestSide_components h1).1, scheduleWrite_repairRequests, mapGet_mapSet,
        if_neg hk]
      exact hid
  · intro rest expiry k r hcache hexp hparse hr ha
    rw [(requestSide_components (onMessage_comment env m s rest expiry k r hcache hexp hparse
      hr ha)).1]
    show mapGet (mapSet s.repairRequests k _) k = _
    rw [mapGet_mapSet, if_pos rfl]
  · intro rest expiry k r time hcache hexp hparse hr ha htime
    rw [(requestSide_components (onMessage_schedule env m s rest expiry k r time hcache hexp
      hparse hr ha htime)).1, scheduleWrite_repairRequests, mapGet_mapSet, if_pos rfl]

/-- C17. When the conversation awaits a time for the stored request `k`, the
sender is an operator and the text parses to the time `T`, the request's
`scheduledTime` becomes `T`. If `T - 2h` is strictly after the clock reading,
one job due at `T - 2h` is entered for the owner and recorded for the
request; otherwise the job table and the reminder map are left as they were. -/
theorem C17_schedule_recorded (env : Env) (m : Message) (s : State) (rest : Str)
    (expiry : Int) (k : Int) (r : RepairRequest) (time : Int)
    (hcache : mapGet s.cache m.chatId = some ("awaiting_schedule_".toList ++ rest, expiry))
    (hexp : m.now ≤ expiry) (hparse : parseInt rest = some k)
    (hr : mapGet s.repairRequests k = some r) (ha : isAdmin env m.userId = true)
    (htime : env.momentParse m.text = some time) :
    let t := onMessage env m s
    mapGet t.repairRequests k = some { r with scheduledTime := some time } ∧
    (m.now < time - 7200000 →
      t.jobs = s.jobs ++ [⟨r.userId, k, time - 7200000, false, false⟩] ∧
      mapGet t.notifications k = some (some s.jobs.length)) ∧
    (¬ (m.now < time - 7200000) → t.jobs = s.jobs ∧ t.notifications = s.notifications) := by
  have hside := onMessage_schedule env m s rest expiry k r time hcache hexp hparse hr ha htime
  obtain ⟨hrr, _, hnot, hjobs⟩ := requestSide_components hside
  dsimp only
  refine ⟨?_, ?_, ?_⟩
  · rw [hrr, scheduleWrite_repairRequests, mapGet_mapSet, if_pos rfl]
  · intro hahead
    have hw : scheduleWrite m k r time s =
        scheduleReminder
          { s with repairRequests :=
              mapSet s.repairRequests k { r with scheduledTime := some time } }
          m.now r.userId k (time - 7200000) := by
      unfold scheduleWrite
      dsimp only
      rw [if_pos hahead]
    rw [hw, scheduleReminder_ahead _ _ _ _ _ (le_of_lt hahead)] at hnot hjobs
    dsimp only at hnot hjobs
    exact ⟨hjobs, by rw [hnot, mapGet_mapSet, if_pos rfl]⟩
  · intro hnear
    have hw : scheduleWrite m k r time s =
        { s with repairRequests :=
            mapSet s.repairRequests k { r with scheduledTime := some time } } := by
      unfold scheduleWrite
      dsimp only
      rw [if_neg hnear]
    rw [hw] at hnot hjobs
    exact ⟨hjobs, hnot⟩

/-- C17, at a concrete run: the operator assigns the time 100000000 to
request 5 at clock reading 40, far more than two hours ahead. -/
theorem C17_schedule_recorded_witness :
    mapGet (onMessage demoEnv ⟨1, 1, some "01.01.2030 10:00".toList, 40⟩
        awaitingTimeState).repairRequests 5 =
      some ⟨5, 7, "service_1".toList, some "pending".toList, 1500, 5, false, none,
        some 100000000⟩ ∧
    (onMessage demoEnv ⟨1, 1, some "01.01.2030 10:00".toList, 40⟩ awaitingTimeState).jobs =
      awaitingTimeState.jobs ++ [⟨7, 5, 92800000, false, false⟩] :=
  have h := C17_schedule_recorded demoEnv ⟨1, 1, some "01.01.2030 10:00".toList, 40⟩
    awaitingTimeState ['5'] 3600030 5
    ⟨5, 7, "service_1".toList, some "pending".toList, 1500, 5, false, none, none⟩ 100000000
    (by decide) (by decide) (by decide) (by decide) (by decide) (by decide)
  ⟨h.1, (h.2.1 (by decide)).1⟩

theorem messageTry_phone (env : Env) (m : Message) (s : State) :
    messageTry env m "awaiting_phone".toList s = awaitingPhoneBranch env m s := by
  simp [messageTry, startsWith, String.toList]

theorem messageTry_email (env : Env) (m : Message) (s : State) :
    messageTry env m "awaiting_email".toList s = awaitingEmailBranch env m s := by
  simp [messageTry, startsWith, String.toList]

theorem attempt_delivered (env : Env) (s : State) (c : Call)
    (h : env.delivers s.sent.length = true) : attempt env s c = .ok (logCall s c) := by
  unfold attempt
  rw [if_pos h]

theorem onMessageWith_active (env : Env) (k : State → State) (m : Message) (s : State)
    (st : Str) (h : Awaits s m st) (hne : st ≠ []) :
    (∀ s1, messageTryWith env k m st s = .ok s1 → onMessageWith env k m s = s1) ∧
    (∀ s1, messageTryWith env k m st s = .error s1 →
      onMessageWith env k m s = messageCatch env m s1) := by
  obtain ⟨expiry, hcache, hexp⟩ := h
  have hget : cacheGet s m.now m.chatId = (s, some st) := by
    unfold cacheGet
    rw [hcache]
    dsimp only
    rw [if_neg (by omega)]
  unfold onMessageWith
  rw [hget]
  dsimp only
  rw [if_neg hne]
  constructor
  · intro s1 h1
    rw [h1]
  · intro s1 h1
    rw [h1]

theorem messageTryWith_phone (env : Env) (k : State → State) (m : Message) (s : State) :
    messageTryWith env k m "awaiting_phone".toList s = awaitingPhoneBranchWith env k m s := by
  simp [messageTryWith, startsWith, String.toList]

theorem messageTryWith_email (env : Env) (k : State → State) (m : Message) (s : State) :
    messageTryWith env k m "awaiting_email".toList s = awaitingEmailBranchWith env k m s := by
  simp [messageTryWith, startsWith, String.toList]

theorem messageTryWith_schedule (env : Env) (k : State → State) (m : Message) (rest : Str)
    (s : State) :
    messageTryWith env k m ("awaiting_schedule_".toList ++ rest) s =
      awaitingScheduleBranchWith env k m ("awaiting_schedule_".toList ++ rest) s := by
  rw [schedule_state_literal]
  simp [messageTryWith, startsWith, String.toList]

theorem processMessage_plain (env : Env) (m : Message) (s : State)
    (h : matchesBroadcastCommand m = false) : processMessage env m s = onMessage env m s := by
  unfold processMessage
  rw [h]
  rfl

theorem processMessage_command (env : Env) (m : Message) (s : State)
    (h : matchesBroadcastCommand m = true) :
    processMessage env m s = onMessageWith env (broadcastCommand env m) m s := by
  unfold processMessage
  rw [if_pos h]

/-- The listener answers a malformed input with one reply, which is the
first and only call it awaits inside `try`. -/
theorem malformed_reply (env : Env) (m : Message) (s : State) (h : MalformedInput env m s) :
    ∃ (st : Str) (c : Call), Awaits s m st ∧ st ≠ [] ∧
      messageTry env m st s = attempt env s c ∧
      ∀ k : State → State, messageTryWith env k m st s = awaitFirst env k s c := by
  rcases h with ⟨text, htext, haw, hbad⟩ | ⟨text, htext, haw, hbad⟩ |
    ⟨rest, id, r, haw, hparse, hr, ha, hbad⟩
  · refine ⟨_, .sendMessage m.chatId .badPhone, haw, by decide, ?_, ?_⟩
    · rw [messageTry_phone]
      unfold awaitingPhoneBranch
      rw [htext]
      dsimp only
      rw [hbad]
      simp only [Bool.false_eq_true, if_false]
    · intro k
      rw [messageTryWith_phone]
      unfold awaitingPhoneBranchWith
      rw [htext]
      dsimp only
      rw [hbad]
      simp only [Bool.false_eq_true, if_false]
  · refine ⟨_, .sendMessage m.chatId .badEmail, haw, by decide, ?_, ?_⟩
    · rw [messageTry_email]
      unfold awaitingEmailBranch
      rw [htext]
      dsimp only
      rw [hbad]
      simp only [Bool.false_eq_true, if_false]
    · intro k
      rw [messageTryWith_email]
      unfold awaitingEmailBranchWith
      rw [htext]
      dsimp only
      rw [hbad]
      simp only [Bool.false_eq_true, if_false]
  · have hne : "awaiting_schedule_".toList ++ rest ≠ [] := by
      rw [schedule_state_literal]; simp
    refine ⟨_, .sendMessage m.chatId .badDate, haw, hne, ?_, ?_⟩
    · rw [messageTry_schedule]
      unfold awaitingScheduleBranch
      rw [replaceFirst_leading, List.nil_append, hparse]
      dsimp only
      rw [hr]
      dsimp only
      rw [if_pos ha, hbad]
    · intro k
      rw [messageTryWith_schedule]
      unfold awaitingScheduleBranchWith
      rw [replaceFirst_leading, List.nil_append, hparse]
      dsimp only
      rw [hr]
      dsimp only
      rw [if_pos ha, hbad]

theorem attempt_rejected (env : Env) (s : State) (c : Call)
    (h : env.delivers s.sent.length = false) : attempt env s c = .error (logCall s c) := by
  unfold attempt
  rw [if_neg (by rw [h]; decide)]

/-- What the `catch` of the listener leaves behind: the conversation state is
deleted when the error notice is accepted, and nothing is changed when the
notice is rejected as well. -/
theorem messageCatch_stores (env : Env) (m : Message) (s : State) :
    (env.delivers s.sent.length = true →
      (messageCatch env m s).stores = (cacheDel s m.chatId).stores) ∧
    (env.delivers s.sent.length = false → (messageCatch env m s).stores = s.stores) := by
  constructor
  · intro h
    unfold messageCatch
    rw [attempt_delivered env s _ h]
    rfl
  · intro h
    unfold messageCatch
    rw [attempt_rejected env s _ h]
    rfl

/-- C18 (refuted as stated), in two runs. User 7 is asked for a phone number
and answers with a text the validator rejects; the reply that asks to try
again is rejected by the platform, the `catch` of the listener runs, and the
conversation state, present before the message, is gone after it. Operator 1
is asked for a phone number and presses the button of the broadcast command;
the validator rejects that text, every call is accepted, and the conversation
state is `awaiting_broadcast` after the message. -/
theorem C18_state_cleared_on_failed_reply :
    (run (flakyEnv 3) State.empty [press 7 "settings_contacts" 5]).cache =
      [(7, ("awaiting_phone".toList, 3600005))] ∧
    (run (flakyEnv 3) State.empty [press 7 "settings_contacts" 5]).sent.length = 3 ∧
    (flakyEnv 3).isMobilePhone (trim "abc".toList) = false ∧
    (run (flakyEnv 3) State.empty
      [press 7 "settings_contacts" 5, say 7 "abc" 10]).cache = [] ∧
    (run demoEnv State.empty [press 1 "settings_contacts" 5]).cache =
      [(1, ("awaiting_phone".toList, 3600005))] ∧
    demoEnv.isMobilePhone (trim "📢 Рассылка".toList) = false ∧
    (run demoEnv State.empty
      [press 1 "settings_contacts" 5, say 1 "📢 Рассылка" 10]).cache =
      [(1, ("awaiting_broadcast".toList, 3600010))] := by
  decide

/-- C18 (amended). For a malformed answer (see `MalformedInput`) to a
conversation state that is present and not expired, the message event leaves
the following behind. If the text is not the broadcast command: every
collection, the conversation state included, is as before when the platform
accepts the reply; the conversation state is deleted and nothing else changes
when it rejects the reply and accepts the error notice; every collection is
as before when it rejects both. If the text is the broadcast command and the
reply is accepted: in an operator's chat the conversation state becomes
`awaiting_broadcast` and nothing else changes, in any other chat every
collection is as before. In `awaiting_schedule_...` a message for a request
that is not stored, or from a sender who is no operator, changes nothing.
With a text that is not the broadcast command and an accepted reply, a valid
phone is stored and the state becomes `awaiting_email`, and a valid email is
stored and the state is removed. -/
theorem C18_invalid_input_keeps_state (env : Env) (m : Message) (s : State) :
    (MalformedInput env m s → matchesBroadcastCommand m = false →
      (env.delivers s.sent.length = true → (step env s (.message m)).stores = s.stores) ∧
      (env.delivers s.sent.length = false → env.delivers (s.sent.length + 1) = true →
        (step env s (.message m)).stores = (cacheDel s m.chatId).stores) ∧
      (env.delivers s.sent.length = false → env.delivers (s.sent.length + 1) = false →
        (step env s (.message m)).stores = s.stores)) ∧
    (MalformedInput env m s → matchesBroadcastCommand m = true →
      env.delivers s.sent.length = true →
      (isAdmin env m.chatId = true →
        (step env s (.message m)).stores =
          (cacheSet s m.now m.chatId "awaiting_broadcast".toList).stores) ∧
      (isAdmin env m.chatId = false → (step env s (.message m)).stores = s.stores)) ∧
    (∀ rest, Awaits s m ("awaiting_schedule_".toList ++ rest) →
      mapGetNum s.repairRequests (parseInt rest) = none ∨ isAdmin env m.userId = false →
      matchesBroadcastCommand m = false → (step env s (.message m)).stores = s.stores) ∧
    (∀ text, m.text = some text → Awaits s m "awaiting_phone".toList →
      env.isMobilePhone (trim text) = true → matchesBroadcastCommand m = false →
      env.delivers s.sent.length = true →
      (step env s (.message m)).cache =
        mapSet s.cache m.chatId ("awaiting_email".toList, m.now + 3600000) ∧
      (step env s (.message m)).userSettings = mapSet s.userSettings m.userId
        { (mapGet s.userSettings m.userId).getD ⟨none, none, none⟩ with
          phone := some (trim text) } ∧
      (step env s (.message m)).repairRequests = s.repairRequests) ∧
    (∀ text, m.text = some text → Awaits s m "awaiting_email".toList →
      env.isEmail (trim text) = true → matchesBroadcastCommand m = false →
      env.delivers s.sent.length = true →
      (step env s (.message m)).cache = mapDelete s.cache m.chatId ∧
      (step env s (.message m)).userSettings = mapSet s.userSettings m.userId
        { (mapGet s.userSettings m.userId).getD ⟨none, none, none⟩ with
          email := some (trim text) } ∧
      (step env s (.message m)).repairRequests = s.repairRequests) := by
  have hlen : ∀ c : Call, (logCall s c).sent.length = s.sent.length + 1 := by
    intro c
    simp [logCall]
  refine ⟨?_, ?_, ?_, ?_, ?_⟩
  · intro hmal hplain
    obtain ⟨st, c, ⟨expiry, hcache, hexp⟩, hne, hc, _⟩ := malformed_reply env m s hmal
    have hstep : step env s (.message m) = onMessage env m s :=
      processMessage_plain env m s hplain
    rw [hstep, onMessage_active env m s st expiry hcache hexp hne, hc]
    refine ⟨?_, ?_, ?_⟩
    · intro hdel
      rw [attempt_delivered env s c hdel]
      rfl
    · intro hrej hnotice
      rw [attempt_rejected env s c hrej]
      exact (messageCatch_stores env m (logCall s c)).1 (by rw [hlen]; exact hnotice)
    · intro hrej hnotice
      rw [attempt_rejected env s c hrej]
      exact (messageCatch_stores env m (logCall s c)).2 (by rw [hlen]; exact hnotice)
  · intro hmal hcmd hdel
    obtain ⟨st, c, haw, hne, _, hc⟩ := malformed_reply env m s hmal
    have hstep : step env s (.message m) = onMessageWith env (broadcastCommand env m) m s :=
      processMessage_command env m s hcmd
    rw [hstep, (onMessageWith_active env _ m s st haw hne).1 _
      ((hc _).trans (awaitFirst_delivered env _ s c hdel))]
    unfold broadcastCommand
    constructor
    · intro ha
      rw [if_pos ha, finish_attempt]
      rfl
    · intro ha
      rw [if_neg (by rw [ha]; decide), finish_attempt]
      rfl
  · intro rest haw hno hplain
    have hstep : step env s (.message m) = onMessage env m s :=
      processMessage_plain env m s hplain
    have hne : "awaiting_schedule_".toList ++ rest ≠ [] := by
      rw [schedule_state_literal]; simp
    obtain ⟨expiry, hcache, hexp⟩ := haw
    rw [hstep, onMessage_active env m s _ expiry hcache hexp hne, messageTry_schedule]
    unfold awaitingScheduleBranch
    rw [replaceFirst_leading, List.nil_append]
    cases hp : parseInt rest with
    | none => rfl
    | some k =>
      dsimp only
      cases hr : mapGet s.repairRequests k with
      | none => rfl
      | some r =>
        dsimp only
        rcases hno with hno | hno
        · rw [hp] at hno
          rw [show mapGetNum s.repairRequests (some k) = mapGet s.repairRequests k from rfl,
            hr] at hno
          cases hno
        · rw [if_neg (by rw [hno]; decide)]
  · intro text htext haw hgood hplain hdel
    have hstep : step env s (.message m) = onMessage env m s :=
      processMessage_plain env m s hplain
    obtain ⟨expiry, hcache, hexp⟩ := haw
    rw [hstep, onMessage_active env m s _ expiry hcache hexp (by decide), messageTry_phone]
    unfold awaitingPhoneBranch
    rw [htext]
    dsimp only
    rw [hgood]
    simp only [if_true]
    rw [attempt_delivered env _ _ (by exact hdel)]
    exact ⟨rfl, rfl, rfl⟩
  · intro text htext haw hgood hplain hdel
    have hstep : step env s (.message m) = onMessage env m s :=
      processMessage_plain env m s hplain
    obtain ⟨expiry, hcache, hexp⟩ := haw
    rw [hstep, onMessage_active env m s _ expiry hcache hexp (by decide), messageTry_email]
    unfold awaitingEmailBranch
    rw [htext]
    dsimp only
    rw [hgood]
    simp only [if_true]
    rw [attempt_delivered env _ _ (by exact hdel)]
    exact ⟨rfl, rfl, rfl⟩

/-- C18, at two concrete messages. User 7 is asked for a phone number and
answers with a text the validator rejects, and the reply is accepted: nothing
changes. Operator 1 does the same with the button of the broadcast command:
the conversation state becomes `awaiting_broadcast`. -/
theorem C18_invalid_input_keeps_state_witness :
    (step demoEnv (run demoEnv State.empty [press 7 "settings_contacts" 5])
        (say 7 "abc" 10)).stores =
      (run demoEnv State.empty [press 7 "settings_contacts" 5]).stores ∧
    (step demoEnv (run demoEnv State.empty [press 1 "settings_contacts" 5])
        (say 1 "📢 Рассылка" 10)).stores =
      (cacheSet (run demoEnv State.empty [press 1 "settings_contacts" 5]) 10 1
        "awaiting_broadcast".toList).stores :=
  ⟨((C18_invalid_input_keeps_state demoEnv ⟨7, 7, some "abc".toList, 10⟩
      (run demoEnv State.empty [press 7 "settings_contacts" 5])).1
      (Or.inl ⟨"abc".toList, rfl, ⟨3600005, by decide, by decide⟩, by decide⟩)
      (by decide)).1 (by decide),
   ((C18_invalid_input_keeps_state demoEnv ⟨1, 1, some "📢 Рассылка".toList, 10⟩
      (run demoEnv State.empty [press 1 "settings_contacts" 5])).2.1
      (Or.inl ⟨"📢 Рассылка".toList, rfl, ⟨3600005, by decide, by decide⟩, by decide⟩)
      (by decide) (by decide)).1 (by decide)⟩

theorem keys_mapSet_of_get {α : Type} (m : List (Int × α)) (k : Int) (v0 v : α)
    (h : mapGet m k = some v0) : (mapSet m k v).map Prod.fst = m.map Prod.fst := by
  induction m with
  | nil => simp [mapGet] at h
  | cons x rest ih =>
    obtain ⟨a, b⟩ := x
    by_cases ha : a = k
    · simp [mapSet, ha]
    · simp only [mapGet, if_neg ha] at h
      simp [mapSet, ha, ih h]

theorem framed_of_same (same : RepairRequest → RepairRequest → Prop)
    (hrefl : ∀ r, same r r) (target : Option Int) {s t : State}
    (hrr : t.repairRequests = s.repairRequests) (hup : t.userPoints = s.userPoints) :
    Framed same target s t := by
  refine ⟨?_, hup, ?_, ?_⟩
  · unfold requestIds; rw [hrr]
  · intro id _; rw [hrr]
  · intro id r' h
    rw [hrr] at h
    exact ⟨r', h, hrefl r'⟩

theorem framed_of_mapSet (same : RepairRequest → RepairRequest → Prop)
    (hrefl : ∀ r, same r r) {s t : State} (k : Int) (r0 r1 : RepairRequest)
    (h0 : mapGet s.repairRequests k = some r0) (hsame : same r0 r1)
    (hrr : t.repairRequests = mapSet s.repairRequests k r1)
    (hup : t.userPoints = s.userPoints) : Framed same (some k) s t := by
  refine ⟨?_, hup, ?_, ?_⟩
  · unfold requestIds
    rw [hrr]; exact keys_mapSet_of_get _ _ _ _ h0
  · intro id hid
    have hne : k ≠ id := fun e => hid (by rw [e])
    rw [hrr, mapGet_mapSet, if_neg hne]
  · intro id r' h
    rw [hrr, mapGet_mapSet] at h
    by_cases hk : k = id
    · subst hk
      rw [if_pos rfl] at h
      injection h with h
      subst h
      exact ⟨r0, h0, hsame⟩
    · rw [if_neg hk] at h
      exact ⟨r', h, hrefl r'⟩

theorem comment_literal (rest : Str) :
    "comment_".toList ++ rest = 'c' :: 'o' :: 'm' :: 'm' :: 'e' :: 'n' :: 't' :: '_' :: rest :=
  rfl

theorem schedule_literal (rest : Str) :
    "schedule_".toList ++ rest =
      's' :: 'c' :: 'h' :: 'e' :: 'd' :: 'u' :: 'l' :: 'e' :: '_' :: rest := rfl

theorem callbackBranches_comment (env : Env) (q : CallbackQuery) (rest : Str) (s : State) :
    callbackBranches env q ("comment_".toList ++ rest) s =
      commentBranch env q ("comment_".toList ++ rest) s := by
  rw [comment_literal]
  simp [callbackBranches, startsWith, String.toList]

theorem callbackBranches_schedule (env : Env) (q : CallbackQuery) (rest : Str) (s : State) :
    callbackBranches env q ("schedule_".toList ++ rest) s =
      scheduleBranch env q ("schedule_".toList ++ rest) s := by
  rw [schedule_literal]
  simp [callbackBranches, startsWith, String.toList]

theorem cancelReminder_requests_points (s : State) (k : Int) :
    (cancelReminder s k).repairRequests = s.repairRequests ∧
      (cancelReminder s k).userPoints = s.userPoints := by
  unfold cancelReminder
  split <;> exact ⟨rfl, rfl⟩

/-- C19. A status callback changes at most the status of the request it
names, a message received while a comment is awaited at most the comment of
the request the conversation names, and a message received while a time is
awaited at most the assigned time of that request; all other fields of that
request (id, userId, serviceId, isSpecialOffer, finalPrice, createdAt among
them), all other requests, the list of stored ids and the ledger are as
before. The callbacks that open the comment and the time dialogue change no
request and no balance. -/
theorem C19_status_comment_schedule_frame (env : Env) (s : State) :
    (∀ (chat user now : Int) (rest : Str),
      Framed statusOnly (statusTarget ("status_".toList ++ rest)) s
        (onCallbackQuery env ⟨chat, user, some ("status_".toList ++ rest), now⟩ s)) ∧
    (∀ (m : Message) (rest : Str) (expiry : Int),
      mapGet s.cache m.chatId = some ("awaiting_comment_".toList ++ rest, expiry) →
      Framed commentOnly (parseInt rest) s (onMessage env m s)) ∧
    (∀ (m : Message) (rest : Str) (expiry : Int),
      mapGet s.cache m.chatId = some ("awaiting_schedule_".toList ++ rest, expiry) →
      Framed scheduledTimeOnly (parseInt rest) s (onMessage env m s)) ∧
    (∀ (chat user now : Int) (rest : Str),
      (onCallbackQuery env ⟨chat, user, some ("comment_".toList ++ rest), now⟩
          s).repairRequests = s.repairRequests ∧
      (onCallbackQuery env ⟨chat, user, some ("comment_".toList ++ rest), now⟩
          s).userPoints = s.userPoints ∧
      (onCallbackQuery env ⟨chat, user, some ("schedule_".toList ++ rest), now⟩
          s).repairRequests = s.repairRequests ∧
      (onCallbackQuery env ⟨chat, user, some ("schedule_".toList ++ rest), now⟩
          s).userPoints = s.userPoints) := by
  refine ⟨?_, ?_, ?_, ?_⟩
  · intro chat user now rest
    have hst := (onCallbackQuery_stores env
      ⟨chat, user, some ("status_".toList ++ rest), now⟩ s).trans
      (callbackTry_stores env _ _ s rfl)
    rw [callbackBranches_status, statusBranch_stores] at hst
    cases ht : statusTarget ("status_".toList ++ rest) with
    | none =>
      rw [ht] at hst
      exact framed_of_same statusOnly (fun _ => rfl) none (repairRequests_of_stores hst)
        (userPoints_of_stores hst)
    | some k =>
      rw [ht] at hst
      dsimp only at hst
      cases hr : mapGet s.repairRequests k with
      | none =>
        rw [hr] at hst
        exact framed_of_same statusOnly (fun _ => rfl) _ (repairRequests_of_stores hst)
          (userPoints_of_stores hst)
      | some r =>
        rw [hr] at hst
        dsimp only at hst
        by_cases ha : isAdmin env user = true
        · rw [if_pos ha] at hst
          have hboth : (onCallbackQuery env ⟨chat, user, some ("status_".toList ++ rest), now⟩
              s).repairRequests = mapSet s.repairRequests k
                { r with status := statusRequested ("status_".toList ++ rest) } ∧
              (onCallbackQuery env ⟨chat, user, some ("status_".toList ++ rest), now⟩
                s).userPoints = s.userPoints := by
            by_cases hd : env.delivers s.sent.length = true
            · rw [if_pos hd] at hst
              have hc := cancelReminder_requests_points
                (statusWrite s k r (statusRequested ("status_".toList ++ rest))) k
              exact ⟨(repairRequests_of_stores hst).trans hc.1,
                (userPoints_of_stores hst).trans hc.2⟩
            · rw [if_neg hd] at hst
              exact ⟨repairRequests_of_stores hst, (userPoints_of_stores hst).trans rfl⟩
          exact framed_of_mapSet statusOnly (fun _ => rfl) k r
            { r with status := statusRequested ("status_".toList ++ rest) } hr rfl
            hboth.1 hboth.2
        · rw [if_neg ha] at hst
          exact framed_of_same statusOnly (fun _ => rfl) _ (repairRequests_of_stores hst)
            (userPoints_of_stores hst)
  · intro m rest expiry hcache
    rcases onMessage_requestSide env m s _ expiry hcache with h | h
    · exact framed_of_same commentOnly (fun _ => rfl) _ (requestSide_components h).1
        (requestSide_components h).2.1
    · rw [messageTry_comment, awaitingCommentBranch_requestSide] at h
      cases hp : parseInt rest with
      | none =>
        rw [hp] at h
        exact framed_of_same commentOnly (fun _ => rfl) _ (requestSide_components h).1
          (requestSide_components h).2.1
      | some k =>
        rw [hp] at h
        dsimp only at h
        cases hr : mapGet s.repairRequests k with
        | none =>
          rw [hr] at h
          exact framed_of_same commentOnly (fun _ => rfl) _ (requestSide_components h).1
            (requestSide_components h).2.1
        | some r =>
          rw [hr] at h
          dsimp only at h
          by_cases ha : isAdmin env m.userId = true
          · rw [if_pos ha] at h
            exact framed_of_mapSet commentOnly (fun _ => rfl) k r
              { r with comment := some (env.sanitizeHtml m.text) } hr rfl
              (requestSide_components h).1 (requestSide_components h).2.1
          · rw [if_neg ha] at h
            exact framed_of_same commentOnly (fun _ => rfl) _ (requestSide_components h).1
              (requestSide_components h).2.1
  · intro m rest expiry hcache
    rcases onMessage_requestSide env m s _ expiry hcache with h | h
    · exact framed_of_same scheduledTimeOnly (fun _ => rfl) _ (requestSide_components h).1
        (requestSide_components h).2.1
    · rw [messageTry_schedule, awaitingScheduleBranch_requestSide] at h
      cases hp : parseInt rest with
      | none =>
        rw [hp] at h
        exact framed_of_same scheduledTimeOnly (fun _ => rfl) _ (requestSide_components h).1
          (requestSide_components h).2.1
      | some k =>
        rw [hp] at h
        dsimp only at h
        cases hr : mapGet s.repairRequests k with
        | none =>
          rw [hr] at h
          exact framed_of_same scheduledTimeOnly (fun _ => rfl) _ (requestSide_components h).1
            (requestSide_components h).2.1
        | some r =>
          rw [hr] at h
          dsimp only at h
          by_cases ha : isAdmin env m.userId = true
          · rw [if_pos ha] at h
            cases hT : env.momentParse m.text with
            | none =>
              rw [hT] at h
              exact framed_of_same scheduledTimeOnly (fun _ => rfl) _
                (requestSide_components h).1 (requestSide_components h).2.1
            | some time =>
              rw [hT] at h
              dsimp only at h
              exact framed_of_mapSet scheduledTimeOnly (fun _ => rfl) k r
                { r with scheduledTime := some time } hr rfl
                ((requestSide_components h).1.trans (scheduleWrite_repairRequests m k r time s))
                ((requestSide_components h).2.1.trans (scheduleWrite_userPoints m k r time s))
          · rw [if_neg ha] at h
            exact framed_of_same scheduledTimeOnly (fun _ => rfl) _
              (requestSide_components h).1 (requestSide_components h).2.1
  · intro chat user now rest
    have hc := (onCallbackQuery_stores env
      ⟨chat, user, some ("comment_".toList ++ rest), now⟩ s).trans
      (callbackTry_stores env _ _ s rfl)
    rw [callbackBranches_comment, commentBranch_stores] at hc
    have hs := (onCallbackQuery_stores env
      ⟨chat, user, some ("schedule_".toList ++ rest), now⟩ s).trans
      (callbackTry_stores env _ _ s rfl)
    rw [callbackBranches_schedule, scheduleBranch_stores] at hs
    have hc' : (onCallbackQuery env ⟨chat, user, some ("comment_".toList ++ rest), now⟩
        s).requestSide = s.requestSide := by
      by_cases ha : isAdmin env user = true
      · rw [if_pos ha] at hc; exact (requestSide_of_stores hc).trans rfl
      · rw [if_neg ha] at hc; exact requestSide_of_stores hc
    have hs' : (onCallbackQuery env ⟨chat, user, some ("schedule_".toList ++ rest), now⟩
        s).requestSide = s.requestSide := by
      by_cases ha : isAdmin env user = true
      · rw [if_pos ha] at hs; exact (requestSide_of_stores hs).trans rfl
      · rw [if_neg ha] at hs; exact requestSide_of_stores hs
    exact ⟨(requestSide_components hc').1, (requestSide_components hc').2.1,
      (requestSide_components hs').1, (requestSide_components hs').2.1⟩

/-! ## The profile query (C20) -/

theorem foldl_finalPrice (requests : List RepairRequest) (start : Int) :
    requests.foldl (fun sum req => sum + req.finalPrice) start =
      start + (requests.map (fun req => req.finalPrice)).sum := by
  induction requests generalizing start with
  | nil => simp
  | cons r rest ih =>
    simp only [List.foldl_cons, List.map_cons, List.sum_cons]
    rw [ih]
    omega

theorem sortNewestFirst_perm (requests : List RepairRequest) :
    List.Perm (sortNewestFirst requests) requests :=
  @List.perm_insertionSort _ newestFirst newestFirstDec requests

theorem sortNewestFirst_sorted (requests : List RepairRequest) :
    List.Sorted newestFirst (sortNewestFirst requests) := by
  haveI : IsTotal RepairRequest newestFirst :=
    ⟨fun a b => le_total b.createdAt a.createdAt⟩
  haveI : IsTrans RepairRequest newestFirst :=
    ⟨fun a b c hab hbc => le_trans hbc hab⟩
  exact @List.sorted_insertionSort _ newestFirst newestFirstDec _ _ requests

/-- C20. The list computed for a user's profile is a rearrangement of the
stored requests of that user, each stored request of the user in it once and
no other request in it; it is in non-increasing order of `createdAt`; and
the total spent is the sum of `finalPrice` over that list, which is the sum
over the stored requests of the user. -/
theorem C20_profile_requests (s : State) (u : Int) :
    List.Perm (userRequests s u)
      ((requestValues s).filter (fun req => decide (req.userId = u))) ∧
    (∀ r, r ∈ userRequests s u ↔ (r ∈ requestValues s ∧ r.userId = u)) ∧
    List.Sorted (fun a b : RepairRequest => b.createdAt ≤ a.createdAt) (userRequests s u) ∧
    totalSpent (userRequests s u) = ((userRequests s u).map (fun req => req.finalPrice)).sum ∧
    totalSpent (userRequests s u) =
      (((requestValues s).filter (fun req => decide (req.userId = u))).map
        (fun req => req.finalPrice)).sum := by
  have hperm := sortNewestFirst_perm
    ((requestValues s).filter (fun req => decide (req.userId = u)))
  have hsum : totalSpent (userRequests s u) =
      ((userRequests s u).map (fun req => req.finalPrice)).sum := by
    unfold totalSpent
    rw [foldl_finalPrice]
    omega
  refine ⟨hperm, ?_, sortNewestFirst_sorted _, hsum, ?_⟩
  · intro r
    unfold userRequests
    rw [hperm.mem_iff, List.mem_filter]
    simp
  · rw [hsum]
    exact (hperm.map _).sum_eq

/-- The requests of user 7 in a store with three requests, two of them of
user 7: the newer one comes first and the total is 3500. -/
theorem profile_example :
    userRequests (run demoEnv State.empty
      [press 7 "service_1" 5, press 8 "offer_1" 6, press 7 "service_2" 9]) 7 =
      [⟨9, 7, "service_2".toList, some "pending".toList, 2000, 9, false, none, none⟩,
       ⟨5, 7, "service_1".toList, some "pending".toList, 1500, 5, false, none, none⟩] ∧
    totalSpent (userRequests (run demoEnv State.empty
      [press 7 "service_1" 5, press 8 "offer_1" 6, press 7 "service_2" 9]) 7) = 3500 := by
  decide

/-! ## Concrete runs of the ledger and operator theorems (C13, C14, C16, C19) -/

/-- C13, at a concrete ledger: user 7 has no entry, reads 0, and reads 150
after a credit of 150. -/
theorem C13_points_ledger_witness :
    getUserPoints State.empty 7 = 0 ∧
    getUserPoints (addUserPoints State.empty 7 150).1 7 = getUserPoints State.empty 7 + 150 ∧
    getUserPoints (addUserPoints State.empty 7 150).1 8 = getUserPoints State.empty 8 :=
  ⟨(C13_points_ledger State.empty 7 150).1 rfl, (C13_points_ledger State.empty 7 150).2.1,
    (C13_points_ledger State.empty 7 150).2.2.2 8 (by decide)⟩

/-- C14, at a concrete run: user 7 takes offer 1 and is credited 450. -/
theorem C14_balances_never_decrease_witness :
    getUserPoints State.empty 7 ≤
      getUserPoints (step demoEnv State.empty (press 7 "offer_1" 5)) 7 ∧
    0 ≤ getUserPoints (run demoEnv State.empty [press 7 "offer_1" 5]) 7 ∧
    (0 : Int) ≤ (((7 : Int), (450 : Int)) : Int × Int).2 :=
  ⟨(C14_balances_never_decrease demoEnv).1 State.empty (press 7 "offer_1" 5) 7,
    (C14_balances_never_decrease demoEnv).2.1 [press 7 "offer_1" 5] 7,
    (C14_balances_never_decrease demoEnv).2.2 [press 7 "offer_1" 5] (7, 450)
      (by
        have h : (run demoEnv State.empty [press 7 "offer_1" 5]).userPoints = [(7, 450)] := by
          decide
        rw [h]
        exact List.mem_singleton.mpr rfl)⟩

/-- C16, at a concrete run: a comment is awaited for request 5; the text of
user 7, no operator, changes no request, and the text of operator 1 becomes
the comment. -/
theorem C16_comment_schedule_need_operator_witness :
    (onMessage demoEnv ⟨1, 7, some "note".toList, 30⟩
        (run demoEnv State.empty [press 7 "service_1" 5, press 1 "comment_5" 20])).repairRequests =
      (run demoEnv State.empty [press 7 "service_1" 5, press 1 "comment_5" 20]).repairRequests ∧
    mapGet (onMessage demoEnv ⟨1, 1, some "note".toList, 30⟩
        (run demoEnv State.empty [press 7 "service_1" 5, press 1 "comment_5" 20])).repairRequests
        5 =
      some ⟨5, 7, "service_1".toList, some "pending".toList, 1500, 5, false,
        some "note".toList, none⟩ :=
  ⟨(C16_comment_schedule_need_operator demoEnv ⟨1, 7, some "note".toList, 30⟩
      (run demoEnv State.empty [press 7 "service_1" 5, press 1 "comment_5" 20])).1 (by decide),
    (C16_comment_schedule_need_operator demoEnv ⟨1, 1, some "note".toList, 30⟩
      (run demoEnv State.empty [press 7 "service_1" 5, press 1 "comment_5" 20])).2.2.1
      ['5'] 3600020 5
      ⟨5, 7, "service_1".toList, some "pending".toList, 1500, 5, false, none, none⟩
      (by decide) (by decide) (by decide) (by decide) (by decide)⟩

/-- C19, at a concrete run: a comment is awaited for request 5 and the
operator sends the text. -/
theorem C19_status_comment_schedule_frame_witness :
    Framed commentOnly (parseInt ['5'])
      (run demoEnv State.empty [press 7 "service_1" 5, press 1 "comment_5" 20])
      (onMessage demoEnv ⟨1, 1, some "note".toList, 30⟩
        (run demoEnv State.empty [press 7 "service_1" 5, press 1 "comment_5" 20])) :=
  (C19_status_comment_schedule_frame demoEnv
    (run demoEnv State.empty [press 7 "service_1" 5, press 1 "comment_5" 20])).2.1
    ⟨1, 1, some "note".toList, 30⟩ ['5'] 3600020 (by decide)

/-! ## The client rollup (C21) -/

theorem exportClientsStep_keys (s : State) (clients : List (Int × Client))
    (request : RepairRequest) :
    (exportClientsStep s clients request).map Prod.fst =
      if request.userId ∈ clients.map Prod.fst then clients.map Prod.fst
      else clients.map Prod.fst ++ [request.userId] := by
  unfold exportClientsStep
  by_cases h : request.userId ∈ clients.map Prod.fst
  · have hsome : (mapGet clients request.userId).isSome = true := by
      cases hg : mapGet clients request.userId with
      | none => exact absurd h ((mapGet_eq_none_iff _ _).mp hg)
      | some v => rfl
    rw [if_pos hsome, if_pos h]
  · have hnone : mapGet clients request.userId = none := (mapGet_eq_none_iff _ _).mpr h
    rw [hnone, if_neg h, mapSet_of_not_mem _ _ _ h]
    simp

theorem exportClientsStep_mem (s : State) (clients : List (Int × Client))
    (request : RepairRequest) (e : Int × Client) (he : e ∈ exportClientsStep s clients request) :
    e ∈ clients ∨ e.2 = clientOf s e.1 := by
  unfold exportClientsStep at he
  split at he
  · exact Or.inl he
  · rcases mem_mapSet _ _ _ _ he with h | h
    · right; rw [h]
    · exact Or.inl h

/-- What the loop of `export_clients` keeps true, from any map it starts with. -/
theorem exportClients_loop (s : State) (requests : List RepairRequest) :
    ∀ clients : List (Int × Client), (clients.map Prod.fst).Nodup →
      ((requests.foldl (exportClientsStep s) clients).map Prod.fst).Nodup ∧
      (∀ u, u ∈ (requests.foldl (exportClientsStep s) clients).map Prod.fst ↔
        (u ∈ clients.map Prod.fst ∨ ∃ r ∈ requests, r.userId = u)) ∧
      (∀ e ∈ requests.foldl (exportClientsStep s) clients,
        e ∈ clients ∨ e.2 = clientOf s e.1) := by
  induction requests with
  | nil =>
    intro clients hnd
    exact ⟨hnd, fun u => by simp, fun e he => Or.inl he⟩
  | cons r rest ih =>
    intro clients hnd
    have hkeys := exportClientsStep_keys s clients r
    have hnd1 : ((exportClientsStep s clients r).map Prod.fst).Nodup := by
      rw [hkeys]
      split
      · exact hnd
      · rename_i hnot
        exact List.Nodup.append hnd (List.nodup_singleton _)
          (by
            intro a ha hb
            rw [List.mem_singleton] at hb
            exact hnot (hb ▸ ha))
    obtain ⟨h1, h2, h3⟩ := ih (exportClientsStep s clients r) hnd1
    refine ⟨h1, ?_, ?_⟩
    · intro u
      rw [List.foldl_cons, h2 u, hkeys]
      by_cases hin : r.userId ∈ clients.map Prod.fst
      · rw [if_pos hin]
        constructor
        · rintro (h | ⟨x, hx, hxu⟩)
          · exact Or.inl h
          · exact Or.inr ⟨x, List.mem_cons_of_mem _ hx, hxu⟩
        · rintro (h | ⟨x, hx, hxu⟩)
          · exact Or.inl h
          · rcases List.mem_cons.mp hx with hx | hx
            · left; rw [← hxu, hx]; exact hin
            · exact Or.inr ⟨x, hx, hxu⟩
      · rw [if_neg hin]
        constructor
        · rintro (h | ⟨x, hx, hxu⟩)
          · rcases List.mem_append.mp h with h | h
            · exact Or.inl h
            · rw [List.mem_singleton] at h
              exact Or.inr ⟨r, List.mem_cons_self _ _, h.symm⟩
          · exact Or.inr ⟨x, List.mem_cons_of_mem _ hx, hxu⟩
        · rintro (h | ⟨x, hx, hxu⟩)
          · exact Or.inl (List.mem_append.mpr (Or.inl h))
          · rcases List.mem_cons.mp hx with hx | hx
            · left
              rw [← hxu, hx]
              exact List.mem_append.mpr (Or.inr (List.mem_singleton.mpr rfl))
            · exact Or.inr ⟨x, hx, hxu⟩
    · intro e he
      rcases h3 e he with h | h
      · exact exportClientsStep_mem s clients r e h
      · exact Or.inr h

/-- Grouping a list of requests by a list of distinct user ids that has every
user id of the list: the sums of the groups add up to the sum of the list. -/
theorem sum_by_user {M : Type} [AddCommMonoid M] (f : RepairRequest → M) :
    ∀ (users : List Int) (requests : List RepairRequest), users.Nodup →
      (∀ r ∈ requests, r.userId ∈ users) →
      (users.map (fun u =>
        ((requests.filter (fun req => decide (req.userId = u))).map f).sum)).sum =
        (requests.map f).sum := by
  intro users requests hnd
  induction requests with
  | nil => intro _; simp
  | cons r rest ih =>
    intro hall
    have ihr := ih (fun x hx => hall x (List.mem_cons_of_mem _ hx))
    have hr : r.userId ∈ users := hall r (List.mem_cons_self _ _)
    have key : ∀ (us : List Int), us.Nodup →
        (us.map (fun u =>
          (((r :: rest).filter (fun req => decide (req.userId = u))).map f).sum)).sum =
        (if r.userId ∈ us then f r else 0) +
          (us.map (fun u =>
            ((rest.filter (fun req => decide (req.userId = u))).map f).sum)).sum := by
      intro us
      induction us with
      | nil => intro _; simp
      | cons u us ihu =>
        intro hnd1
        have hu : u ∉ us := (List.nodup_cons.mp hnd1).1
        have ihu1 := ihu (List.nodup_cons.mp hnd1).2
        simp only [List.map_cons, List.sum_cons]
        rw [ihu1]
        by_cases hru : r.userId = u
        · have hnot : r.userId ∉ us := hru ▸ hu
          have hmem : r.userId ∈ u :: us := hru ▸ List.mem_cons_self _ _
          rw [if_neg hnot, if_pos hmem, List.filter_cons_of_pos (by simpa using hru)]
          simp only [List.map_cons, List.sum_cons, zero_add, add_assoc]
        · rw [List.filter_cons_of_neg (by simpa using hru)]
          by_cases hin : r.userId ∈ us
          · have hmem : r.userId ∈ u :: us := List.mem_cons_of_mem _ hin
            rw [if_pos hin, if_pos hmem]
            exact add_left_comm _ _ _
          · have hmem : r.userId ∉ u :: us := by
              intro h
              rcases List.mem_cons.mp h with h | h
              · exact hru h
              · exact hin h
            rw [if_neg hin, if_neg hmem, zero_add, zero_add]
    rw [key users hnd, if_pos hr, ihr, List.map_cons, List.sum_cons]

/-- C21. The client rollup of `export_clients` has one row for each user id
that occurs in the request store and no other row; the row of a user holds
the number of the stored requests of that user as `totalOrders` and the sum
of their `finalPrice` as `totalSpent`; the `totalOrders` of all rows add up
to the number of stored requests, and the `totalSpent` of all rows to the
total revenue of the statistics. -/
theorem C21_client_rollup (s : State) :
    ((exportClients s).map Prod.fst).Nodup ∧
    (∀ u, u ∈ (exportClients s).map Prod.fst ↔ ∃ r ∈ requestValues s, r.userId = u) ∧
    (∀ e ∈ exportClients s,
      e.2.id = e.1 ∧
      e.2.totalOrders =
        ((requestValues s).filter (fun req => decide (req.userId = e.1))).length ∧
      e.2.totalSpent =
        (((requestValues s).filter (fun req => decide (req.userId = e.1))).map
          (fun req => req.finalPrice)).sum) ∧
    ((exportClients s).map (fun e => e.2.totalOrders)).sum = statsTotal s ∧
    ((exportClients s).map (fun e => e.2.totalSpent)).sum = statsTotalRevenue s := by
  obtain ⟨hnd0, hkeys, hrows⟩ := exportClients_loop s (requestValues s) [] List.nodup_nil
  have hnd : ((exportClients s).map Prod.fst).Nodup := hnd0
  have hrow : ∀ e ∈ exportClients s, e.2 = clientOf s e.1 := by
    intro e he
    rcases hrows e he with h | h
    · cases h
    · exact h
  have hkeys1 : ∀ u, u ∈ (exportClients s).map Prod.fst ↔
      ∃ r ∈ requestValues s, r.userId = u := by
    intro u
    have := hkeys u
    simpa using this
  have hcover : ∀ r ∈ requestValues s, r.userId ∈ (exportClients s).map Prod.fst :=
    fun r hr => (hkeys1 r.userId).mpr ⟨r, hr, rfl⟩
  refine ⟨hnd, hkeys1, ?_, ?_, ?_⟩
  · intro e he
    rw [hrow e he]
    refine ⟨rfl, rfl, ?_⟩
    show ((requestValues s).filter (fun req => decide (req.userId = e.1))).foldl
      (fun sum req => sum + req.finalPrice) 0 = _
    rw [foldl_finalPrice, zero_add]
  · have h1 : (exportClients s).map (fun e => e.2.totalOrders) =
        ((exportClients s).map Prod.fst).map (fun u =>
          (((requestValues s).filter (fun req => decide (req.userId = u))).map
            (fun _ => 1)).sum) := by
      rw [List.map_map]
      apply List.map_congr_left
      intro e he
      rw [hrow e he]
      simp [clientOf]
    rw [h1, sum_by_user (fun _ => 1) _ _ hnd hcover]
    simp [statsTotal]
  · have h1 : (exportClients s).map (fun e => e.2.totalSpent) =
        ((exportClients s).map Prod.fst).map (fun u =>
          (((requestValues s).filter (fun req => decide (req.userId = u))).map
            (fun req => req.finalPrice)).sum) := by
      rw [List.map_map]
      apply List.map_congr_left
      intro e he
      rw [hrow e he]
      show ((requestValues s).filter (fun req => decide (req.userId = e.1))).foldl
        (fun sum req => sum + req.finalPrice) 0 = _
      rw [foldl_finalPrice, zero_add]
      rfl
    rw [h1, sum_by_user (fun req => req.finalPrice) _ _ hnd hcover]
    unfold statsTotalRevenue
    rw [foldl_finalPrice, zero_add]

/-- The rollup of a store in which user 7 has two requests and user 8 one:
two rows, in the order of first appearance. -/
theorem client_rollup_example :
    exportClients (run demoEnv State.empty
      [press 7 "offer_1" 5, press 8 "offer_2" 6, press 7 "offer_3" 9]) =
      [(7, ⟨7, [], [], 2, 10000, 1200, some 9⟩), (8, ⟨8, [], [], 1, 2500, 250, some 6⟩)] ∧
    statsTotal (run demoEnv State.empty
      [press 7 "offer_1" 5, press 8 "offer_2" 6, press 7 "offer_3" 9]) = 3 ∧
    statsTotalRevenue (run demoEnv State.empty
      [press 7 "offer_1" 5, press 8 "offer_2" 6, press 7 "offer_3" 9]) = 12500 := by
  decide

/-- C21, at a concrete store: user 7 has two requests and user 8 one; the
row of user 7 counts two orders, and the rows add up to the figures of the
statistics. -/
theorem C21_client_rollup_witness :
    (⟨7, [], [], 2, 10000, 1200, some 9⟩ : Client).totalOrders =
      ((requestValues (run demoEnv State.empty
        [press 7 "offer_1" 5, press 8 "offer_2" 6, press 7 "offer_3" 9])).filter
          (fun req => decide (req.userId = 7))).length ∧
    ((exportClients (run demoEnv State.empty
      [press 7 "offer_1" 5, press 8 "offer_2" 6, press 7 "offer_3" 9])).map
        (fun e => e.2.totalSpent)).sum =
      statsTotalRevenue (run demoEnv State.empty
        [press 7 "offer_1" 5, press 8 "offer_2" 6, press 7 "offer_3" 9]) :=
  ⟨((C21_client_rollup (run demoEnv State.empty
      [press 7 "offer_1" 5, press 8 "offer_2" 6, press 7 "offer_3" 9])).2.2.1
      (7, ⟨7, [], [], 2, 10000, 1200, some 9⟩) (by decide)).2.1,
    (C21_client_rollup (run demoEnv State.empty
      [press 7 "offer_1" 5, press 8 "offer_2" 6, press 7 "offer_3" 9])).2.2.2.2⟩

/-! ## The status keyboard (C22) -/

theorem digitChar_facts :
    ∀ d, d < 10 →
      digitValue (Nat.digitChar d) = some d ∧ Nat.digitChar d ≠ '_' ∧
      isStrWhiteSpaceChar (Nat.digitChar d) = false ∧ Nat.digitChar d ≠ '-' ∧
      Nat.digitChar d ≠ '+' ∧ Nat.digitChar d ≠ 'x' ∧ Nat.digitChar d ≠ 'X' := by
  decide

/-- The digits that `Nat.toDigitsCore` writes in front of its accumulator. -/
theorem toDigitsCore_digits (fuel : Nat) :
    ∀ (n : Nat) (acc : List Char), n < fuel →
      ∃ vs : List Nat, (∀ v ∈ vs, v < 10) ∧ vs ≠ [] ∧
        Nat.toDigitsCore 10 fuel n acc = vs.map Nat.digitChar ++ acc ∧
        vs.foldl (fun a d => a * 10 + d) 0 = n := by
  induction fuel with
  | zero => intro n acc h; omega
  | succ fuel ih =>
    intro n acc h
    unfold Nat.toDigitsCore
    dsimp only
    by_cases h0 : n / 10 = 0
    · rw [if_pos h0]
      refine ⟨[n % 10], ?_, by simp, by simp, ?_⟩
      · intro v hv
        rw [List.mem_singleton] at hv
        omega
      · simp only [List.foldl_cons, List.foldl_nil]
        omega
    · rw [if_neg h0]
      obtain ⟨vs, hlt, hne, heq, hval⟩ := ih (n / 10) (Nat.digitChar (n % 10) :: acc)
        (by omega)
      refine ⟨vs ++ [n % 10], ?_, by simp, ?_, ?_⟩
      · intro v hv
        rcases List.mem_append.mp hv with hv | hv
        · exact hlt v hv
        · rw [List.mem_singleton] at hv
          omega
      · rw [heq]
        simp
      · rw [List.foldl_append, hval]
        simp only [List.foldl_cons, List.foldl_nil]
        omega

theorem natToString_digits (n : Nat) :
    ∃ vs : List Nat, (∀ v ∈ vs, v < 10) ∧ vs ≠ [] ∧
      natToString n = vs.map Nat.digitChar ∧ vs.foldl (fun a d => a * 10 + d) 0 = n := by
  obtain ⟨vs, hlt, hne, heq, hval⟩ := toDigitsCore_digits (n + 1) n [] (by omega)
  refine ⟨vs, hlt, hne, ?_, hval⟩
  unfold natToString Nat.toDigits
  rw [heq, List.append_nil]

theorem takeDigits_digitChars (vs : List Nat) (h : ∀ v ∈ vs, v < 10) :
    takeDigits 10 (vs.map Nat.digitChar) = vs := by
  induction vs with
  | nil => rfl
  | cons v vs ih =>
    have hv : v < 10 := h v (List.mem_cons_self _ _)
    rw [List.map_cons]
    unfold takeDigits
    rw [(digitChar_facts v hv).1]
    dsimp only
    rw [if_pos hv, ih (fun w hw => h w (List.mem_cons_of_mem _ hw))]

/-- `parseInt` reads a string of decimal digits as the number they write. -/
theorem parseInt_digitChars (vs : List Nat) (h : ∀ v ∈ vs, v < 10) (hne : vs ≠ []) :
    parseInt (vs.map Nat.digitChar) =
      some ((vs.foldl (fun a d => a * 10 + d) 0 : Nat) : Int) := by
  cases vs with
  | nil => exact absurd rfl hne
  | cons v rest =>
    have hv := digitChar_facts v (h v (List.mem_cons_self _ _))
    have htake := takeDigits_digitChars (v :: rest) h
    rw [List.map_cons] at htake ⊢
    have hdrop : (Nat.digitChar v :: rest.map Nat.digitChar).dropWhile isStrWhiteSpaceChar =
        Nat.digitChar v :: rest.map Nat.digitChar := by
      rw [List.dropWhile_cons, hv.2.2.1]
      rfl
    have hsign : stripSign (Nat.digitChar v :: rest.map Nat.digitChar) =
        (false, Nat.digitChar v :: rest.map Nat.digitChar) := by
      unfold stripSign
      split
      · rename_i heq
        exact absurd (List.cons.inj heq).1 hv.2.2.2.1
      · rename_i heq
        exact absurd (List.cons.inj heq).1 hv.2.2.2.2.1
      · rfl
    have hradix : stripRadix (Nat.digitChar v :: rest.map Nat.digitChar) =
        (10, Nat.digitChar v :: rest.map Nat.digitChar) := by
      cases rest with
      | nil =>
        unfold stripRadix
        split
        · rename_i heq; cases (List.cons.inj heq).2
        · rename_i heq; cases (List.cons.inj heq).2
        · rfl
      | cons w rest2 =>
        have hw := digitChar_facts w (h w (List.mem_cons_of_mem _ (List.mem_cons_self _ _)))
        unfold stripRadix
        split
        · rename_i heq
          exact absurd (List.cons.inj (List.cons.inj heq).2).1 hw.2.2.2.2.2.1
        · rename_i heq
          exact absurd (List.cons.inj (List.cons.inj heq).2).1 hw.2.2.2.2.2.2
        · rfl
    unfold parseInt
    dsimp only
    rw [hdrop, hsign]
    dsimp only
    rw [hradix]
    dsimp only
    rw [htake, if_neg (by simp)]
    simp

/-- `parseInt` reads back what a template literal writes for a non-negative id. -/
theorem parseInt_natToString (n : Nat) : parseInt (natToString n) = some (n : Int) := by
  obtain ⟨vs, hlt, hne, heq, hval⟩ := natToString_digits n
  rw [heq, parseInt_digitChars vs hlt hne, hval]

theorem natToString_no_underscore (n : Nat) : '_' ∉ natToString n := by
  obtain ⟨vs, hlt, hne, heq, hval⟩ := natToString_digits n
  rw [heq]
  intro hmem
  obtain ⟨v, hv, hc⟩ := List.mem_map.mp hmem
  exact (digitChar_facts v (hlt v hv)).2.1 hc

/-- The first field of `split('_')` of a text whose first `_` follows `field`. -/
theorem splitOnChar_field (field rest : Str) (h : '_' ∉ field) :
    splitOnChar '_' (field ++ '_' :: rest) = field :: splitOnChar '_' rest := by
  induction field with
  | nil => simp [splitOnChar]
  | cons c cs ih =>
    have hc : c ≠ '_' := fun e => h (e ▸ List.mem_cons_self _ _)
    have hcs : '_' ∉ cs := fun e => h (List.mem_cons_of_mem _ e)
    rw [List.cons_append]
    conv_lhs => unfold splitOnChar
    rw [if_neg hc, ih hcs]

/-- The fields of the callback data of a status button for a non-negative id. -/
theorem status_button_fields (n : Nat) (status : Str) :
    splitOnChar '_' ("status_".toList ++ natToString n ++ '_' :: status) =
      "status".toList :: natToString n :: splitOnChar '_' status := by
  have h1 : "status_".toList ++ natToString n ++ '_' :: status =
      "status".toList ++ '_' :: (natToString n ++ '_' :: status) := by
    simp [String.toList]
  rw [h1, splitOnChar_field _ _ (by decide), splitOnChar_field _ _ (natToString_no_underscore n)]

/-- C22 (the code departs from the claim). For every non-negative request id
the keyboard writes the four callback data below; the status branch reads
the id back from each of them, and reads the status back from three of them,
but from the button `in_progress` it reads the status `in`. In a run where
the operator presses that button on request 5, the status stored is `in`. -/
theorem C22_in_progress_button_stores_in (n : Nat) :
    statusKeyboard (some (n : Int)) =
      [ "status_".toList ++ natToString n ++ "_pending".toList,
        "status_".toList ++ natToString n ++ "_in_progress".toList,
        "status_".toList ++ natToString n ++ "_completed".toList,
        "status_".toList ++ natToString n ++ "_cancelled".toList ] ∧
    (∀ data ∈ statusKeyboard (some (n : Int)), statusTarget data = some (n : Int)) ∧
    (statusKeyboard (some (n : Int))).map statusRequested =
      [some "pending".toList, some "in".toList, some "completed".toList,
        some "cancelled".toList] ∧
    (statusKeyboard (some 5)).get? 1 = some "status_5_in_progress".toList ∧
    statusOf (run demoEnv State.empty
      [press 7 "service_1" 5, press 1 "status_5_in_progress" 10]) 5 = some (some "in".toList) := by
  have hkb : statusKeyboard (some (n : Int)) =
      [ "status_".toList ++ natToString n ++ "_pending".toList,
        "status_".toList ++ natToString n ++ "_in_progress".toList,
        "status_".toList ++ natToString n ++ "_completed".toList,
        "status_".toList ++ natToString n ++ "_cancelled".toList ] := rfl
  have hfields : ∀ status : Str,
      splitOnChar '_' ("status_".toList ++ natToString n ++ '_' :: status) =
        "status".toList :: natToString n :: splitOnChar '_' status :=
    status_button_fields n
  have htarget : ∀ status : Str,
      statusTarget ("status_".toList ++ natToString n ++ '_' :: status) = some (n : Int) := by
    intro status
    unfold statusTarget
    rw [hfields]
    exact parseInt_natToString n
  have hreq : ∀ status : Str,
      statusRequested ("status_".toList ++ natToString n ++ '_' :: status) =
        (splitOnChar '_' status).head? := by
    intro status
    unfold statusRequested
    rw [hfields]
    cases splitOnChar '_' status <;> rfl
  refine ⟨hkb, ?_, ?_, by decide, by decide⟩
  · intro data hdata
    rw [hkb] at hdata
    simp only [List.mem_cons, List.mem_singleton, List.not_mem_nil, or_false] at hdata
    rcases hdata with h | h | h | h <;> rw [h] <;> exact htarget _
  · rw [hkb]
    simp only [List.map_cons, List.map_nil]
    have e1 := hreq "pending".toList
    have e2 := hreq "in_progress".toList
    have e3 := hreq "completed".toList
    have e4 := hreq "cancelled".toList
    exact congrArg₂ List.cons e1 (congrArg₂ List.cons e2 (congrArg₂ List.cons e3
      (congrArg₂ List.cons e4 rfl)))

/-- C22, at request 5: the id is read back from the data of the button
`in_progress`, and the statuses read from the four buttons are `pending`,
`in`, `completed` and `cancelled`. -/
theorem C22_in_progress_button_stores_in_witness :
    statusTarget "status_5_in_progress".toList = some 5 ∧
    (statusKeyboard (some 5)).map statusRequested =
      [some "pending".toList, some "in".toList, some "completed".toList,
        some "cancelled".toList] :=
  ⟨(C22_in_progress_button_stores_in 5).2.1 "status_5_in_progress".toList (by decide),
    (C22_in_progress_button_stores_in 5).2.2.1⟩

/-! ## Splitting a long report (C23) -/

theorem dotRun_append_drop (n : Nat) :
    ∀ l : List Nat, dotRun n l ++ l.drop (dotRun n l).length = l := by
  induction n with
  | zero => intro l; simp [dotRun]
  | succ n ih =>
    intro l
    cases l with
    | nil => simp [dotRun]
    | cons u us =>
      unfold dotRun
      by_cases h : isLineTerminator u = true
      · rw [if_pos h]; rfl
      · rw [if_neg h]
        simp only [List.length_cons, List.drop_succ_cons, List.cons_append]
        rw [ih us]

theorem dotRun_length_le (n : Nat) : ∀ l : List Nat, (dotRun n l).length ≤ n := by
  induction n with
  | zero => intro l; simp [dotRun]
  | succ n ih =>
    intro l
    cases l with
    | nil => simp [dotRun]
    | cons u us =>
      unfold dotRun
      by_cases h : isLineTerminator u = true
      · rw [if_pos h]; simp
      · rw [if_neg h]
        have := ih us
        simp only [List.length_cons]
        omega

theorem dotRun_regular (n : Nat) :
    ∀ l : List Nat, ∀ u ∈ dotRun n l, isLineTerminator u = false := by
  induction n with
  | zero => intro l u hu; simp [dotRun] at hu
  | succ n ih =>
    intro l
    cases l with
    | nil => intro u hu; simp [dotRun] at hu
    | cons v vs =>
      intro u hu
      unfold dotRun at hu
      by_cases h : isLineTerminator v = true
      · rw [if_pos h] at hu; cases hu
      · rw [if_neg h] at hu
        rcases List.mem_cons.mp hu with hu | hu
        · rw [hu]; simpa using h
        · exact ih vs u hu

theorem dotRun_eq_nil (n : Nat) (u : Nat) (us : List Nat)
    (h : dotRun (n + 1) (u :: us) = []) : isLineTerminator u = true := by
  unfold dotRun at h
  by_cases ht : isLineTerminator u = true
  · exact ht
  · rw [if_neg ht] at h; cases h

/-- What the global match returns, with fuel enough for the input: parts
that are not empty, not longer than `n` and free of line terminators, and
that together are the input without its line terminators. -/
theorem matchAllFrom_spec (n : Nat) :
    ∀ (fuel : Nat) (input : List Nat), input.length ≤ fuel →
      (matchAllFrom (n + 1) fuel input).flatten =
        input.filter (fun u => !isLineTerminator u) ∧
      ∀ p ∈ matchAllFrom (n + 1) fuel input,
        p ≠ [] ∧ p.length ≤ n + 1 ∧ ∀ u ∈ p, isLineTerminator u = false := by
  intro fuel
  induction fuel with
  | zero =>
    intro input h
    have hnil : input = [] := List.length_eq_zero.mp (Nat.le_zero.mp h)
    subst hnil
    exact ⟨rfl, fun p hp => by cases hp⟩
  | succ fuel ih =>
    intro input h
    cases input with
    | nil => exact ⟨rfl, fun p hp => by cases hp⟩
    | cons u us =>
      unfold matchAllFrom
      by_cases hm : dotRun (n + 1) (u :: us) = []
      · rw [if_pos hm]
        have ht := dotRun_eq_nil n u us hm
        obtain ⟨h1, h2⟩ := ih us (by simpa using h)
        refine ⟨?_, h2⟩
        rw [h1, List.filter_cons_of_neg (by simp [ht])]
      · rw [if_neg hm]
        have hsplit := dotRun_append_drop (n + 1) (u :: us)
        have hreg := dotRun_regular (n + 1) (u :: us)
        have hlen : ((u :: us).drop (dotRun (n + 1) (u :: us)).length).length ≤ fuel := by
          have hpos : 0 < (dotRun (n + 1) (u :: us)).length := List.length_pos.mpr hm
          have hle := dotRun_length_le (n + 1) (u :: us)
          rw [List.length_drop]
          simp only [List.length_cons] at h ⊢
          omega
        obtain ⟨h1, h2⟩ := ih _ hlen
        refine ⟨?_, ?_⟩
        · rw [List.flatten_cons, h1]
          conv_rhs => rw [← hsplit]
          rw [List.filter_append]
          congr 1
          exact (List.filter_eq_self.mpr (fun a ha => by simp [hreg a ha])).symm
        · intro p hp
          rcases List.mem_cons.mp hp with hp | hp
          · rw [hp]
            exact ⟨hm, dotRun_length_le _ _, hreg⟩
          · exact h2 p hp

/-- More fuel than the length of the input changes nothing. -/
theorem matchAllFrom_fuel (n : Nat) :
    ∀ (fuel : Nat) (input : List Nat), input.length ≤ fuel →
      matchAllFrom n fuel input = matchAllFrom n input.length input := by
  intro fuel
  induction fuel using Nat.strong_induction_on with
  | _ fuel ih =>
    intro input h
    cases input with
    | nil => cases fuel <;> rfl
    | cons u us =>
      cases fuel with
      | zero => simp at h
      | succ fuel =>
        have hus : us.length ≤ fuel := by simpa using h
        show matchAllFrom n (fuel + 1) (u :: us) = matchAllFrom n (us.length + 1) (u :: us)
        unfold matchAllFrom
        by_cases hm : dotRun n (u :: us) = []
        · rw [if_pos hm, if_pos hm]
          rw [ih fuel (Nat.lt_succ_self _) us hus]
        · rw [if_neg hm, if_neg hm]
          have hpos : 0 < (dotRun n (u :: us)).length := List.length_pos.mpr hm
          have hd : ((u :: us).drop (dotRun n (u :: us)).length).length ≤ us.length := by
            rw [List.length_drop]
            simp only [List.length_cons]
            omega
          rw [ih fuel (Nat.lt_succ_self _) _ (le_trans hd hus),
            ih us.length (Nat.lt_succ_of_le hus) _ hd]

/-- C23 (the code departs from the claim). For every message longer than
4096 code units that has a line terminator and a code unit that is none, the
handler sends the matches of `.{1,4096}`: each is non-empty and at most 4096
code units long, but together they are the message without its line
terminators, which is shorter than the message and differs from it. -/
theorem C23_split_drops_line_terminators (message : List Nat)
    (hlong : maxLength < message.length)
    (hterm : ∃ u ∈ message, isLineTerminator u = true)
    (hdot : ∃ u ∈ message, isLineTerminator u = false) :
    splitMessage message = some (matchAllFrom maxLength message.length message) ∧
    (∀ p ∈ matchAllFrom maxLength message.length message,
      p ≠ [] ∧ p.length ≤ 4096 ∧ ∀ u ∈ p, isLineTerminator u = false) ∧
    (matchAllFrom maxLength message.length message).flatten =
      message.filter (fun u => !isLineTerminator u) ∧
    (matchAllFrom maxLength message.length message).flatten.length < message.length ∧
    (matchAllFrom maxLength message.length message).flatten ≠ message := by
  obtain ⟨h1, h2⟩ := matchAllFrom_spec 4095 message.length message (le_refl _)
  have h1m : (matchAllFrom maxLength message.length message).flatten =
      message.filter (fun u => !isLineTerminator u) := h1
  have hlt : (matchAllFrom maxLength message.length message).flatten.length <
      message.length := by
    rw [h1m]
    apply List.length_filter_lt_length_iff_exists.mpr
    obtain ⟨u, hu, ht⟩ := hterm
    exact ⟨u, hu, by simp [ht]⟩
  have hne : matchAllFrom maxLength message.length message ≠ [] := by
    intro hnil
    rw [hnil] at h1m
    obtain ⟨u, hu, hd⟩ := hdot
    have hmem : u ∈ message.filter (fun u => !isLineTerminator u) :=
      List.mem_filter.mpr ⟨hu, by simp [hd]⟩
    rw [← h1m] at hmem
    cases hmem
  refine ⟨?_, h2, h1m, hlt, fun heq => ?_⟩
  · unfold splitMessage
    rw [if_pos hlong]
    unfold stringMatch
    cases hparts : matchAllFrom maxLength message.length message with
    | nil => exact absurd hparts hne
    | cons part parts => rfl
  · rw [heq] at hlt
    exact Nat.lt_irrefl _ hlt

/-- C23, at a message that starts like the report of all requests and is
4114 code units long: what is sent differs from the message. -/
theorem C23_split_drops_line_terminators_witness :
    (matchAllFrom maxLength (codeUnits allRequestsHeading ++ List.replicate 4096 120).length
      (codeUnits allRequestsHeading ++ List.replicate 4096 120)).flatten ≠
      codeUnits allRequestsHeading ++ List.replicate 4096 120 :=
  (C23_split_drops_line_terminators (codeUnits allRequestsHeading ++ List.replicate 4096 120)
    (by
      rw [List.length_append, List.length_replicate]
      have h : 0 < (codeUnits allRequestsHeading).length := by decide
      unfold maxLength
      omega)
    ⟨10, List.mem_append_left _ (by decide), by decide⟩
    ⟨42, List.mem_append_left _ (by decide), by decide⟩).2.2.2.2

/-- The heading of the report of all requests in code units, and what the
match makes of it and of the heading of the list of clients when three more
code units follow: the two line feeds are in no part. -/
theorem heading_example :
    codeUnits allRequestsHeading =
      [0xD83D, 0xDCCA, 32, 42, 1042, 1089, 1077, 32, 1079, 1072, 1103, 1074, 1082, 1080, 58,
        42, 10, 10] ∧
    stringMatch maxLength (codeUnits allRequestsHeading ++ [120, 10, 121]) =
      some [[0xD83D, 0xDCCA, 32, 42, 1042, 1089, 1077, 32, 1079, 1072, 1103, 1074, 1082, 1080,
        58, 42], [120], [121]] ∧
    stringMatch maxLength [10, 10] = none := by
  decide

/-- The dispatch of a message at work, with every call accepted. Operator 1
sends the broadcast command with no conversation state: the state becomes
`awaiting_broadcast`, and the text sent next goes to the one client and
removes the state. Operator 1, asked for a comment on request 5, sends the
broadcast command: the text becomes the comment, and the state that the
callback of the command sets while the listener waits is removed by the
listener afterwards. -/
theorem broadcast_command_example :
    (run demoEnv State.empty [press 7 "offer_1" 5, say 1 "📢 Рассылка" 30]).cache =
      [(1, ("awaiting_broadcast".toList, 3600030))] ∧
    (run demoEnv State.empty
      [press 7 "offer_1" 5, say 1 "📢 Рассылка" 30, say 1 "hello" 40]).cache = [] ∧
    (run demoEnv State.empty
      [press 7 "offer_1" 5, say 1 "📢 Рассылка" 30, say 1 "hello" 40]).sent.drop 3 =
      [.sendMessage 1 .broadcastPrompt, .sendMessage 7 (.broadcast "hello".toList),
        .sendMessage 1 (.broadcastDone 1 0)] ∧
    (run demoEnv State.empty
      [press 7 "offer_1" 5, press 1 "comment_5" 20, say 1 "📢 Рассылка" 30]).cache = [] ∧
    (mapGet (run demoEnv State.empty
      [press 7 "offer_1" 5, press 1 "comment_5" 20,
        say 1 "📢 Рассылка" 30]).repairRequests 5).map (fun r => r.comment) =
      some (some "📢 Рассылка".toList) := by
  decide

end Tgbot
